import Mathlib

/-!
# Progress registry and download orchestration of `server.js`

A shallow embedding of the Express server in `src/server.js`:

* the in-memory progress registry (`progressStates`, `initProgress`,
  `setProgress`, `finishProgress`) and the two progress endpoints;
* the yt-dlp fallback (`spawnOnce`, `runYtDlp`, `downloadWithYtDlp`,
  `downloadWithYtDlpStreaming`, `getNewestFileInDirectory`, `getFileUrl`);
* the two download handlers (`POST /api/download`, `POST /api/download-mp3`).

JavaScript objects are association lists in property order, the registry
`Map` is an association list in insertion order, every `Date.now()` read is
an explicit argument, and everything outside the process (the extraction
library, the spawned tool, the file system, the object store) is an explicit
description of how it behaved during the run.
-/

set_option autoImplicit false

namespace YtVideo

/-! ## JavaScript values and objects -/

/-- The JavaScript values that are stored in progress snapshots. Numbers are
exact rationals (`Date.now()` readings, percentages, seconds) or `NaN`. -/
inductive JSVal
  | undefined
  | null
  | bool (b : Bool)
  | nan
  | num (q : ℚ)
  | str (s : String)
  deriving DecidableEq, Repr

/-- Truthiness of a value, as tested by `!x`, `x || y` and `x ? a : b`. -/
def JSVal.truthy : JSVal → Bool
  | .undefined => false
  | .null => false
  | .bool b => b
  | .nan => false
  | .num q => decide (q ≠ 0)
  | .str s => decide (s ≠ "")

/-- The expression `a || b`. -/
def JSVal.or (a b : JSVal) : JSVal :=
  if a.truthy then a else b

/-- Lookup of a string key in an association list (own property of an object,
`Map.prototype.get`): the first binding of the key. -/
def Assoc.get {α : Type} (k : String) : List (String × α) → Option α
  | [] => none
  | (k', v) :: rest => if k' = k then some v else Assoc.get k rest

/-- Assignment of a key (`o[k] = v`, `Map.prototype.set`): an existing key keeps
its position and gets the new value, a new key is added at the end. -/
def Assoc.set {α : Type} (k : String) (v : α) : List (String × α) → List (String × α)
  | [] => [(k, v)]
  | (k', v') :: rest => if k' = k then (k, v) :: rest else (k', v') :: Assoc.set k v rest

/-- The property names of an association list, in order. -/
def Assoc.keys {α : Type} (l : List (String × α)) : List String :=
  l.map Prod.fst

/-- A JavaScript object: its own enumerable properties in property order. -/
abbrev Obj := List (String × JSVal)

/-- An association list is the property list of an object when no property
name occurs twice. -/
def Obj.WF (o : Obj) : Prop :=
  (Assoc.keys o).Nodup

instance (o : Obj) : Decidable (Obj.WF o) := by
  unfold Obj.WF; infer_instance

/-- Property read `o.k`: `undefined` for a property the object does not have. -/
def Obj.prop (o : Obj) (k : String) : JSVal :=
  (Assoc.get k o).getD JSVal.undefined

/-- Object spread `{ ...target, ...source }`: every property of `source`, in
order, is assigned on a copy of `target`. -/
def Obj.spread (target source : Obj) : Obj :=
  source.foldl (fun acc kv => Assoc.set kv.1 kv.2 acc) target

/-! ## The progress registry (`server.js` lines 47-72) -/

/-- The registry `progressStates`: a `Map` from job id to snapshot object. Job
ids are strings (the `:id` route parameter, the `progressId` body field). -/
abbrev ProgressStates := List (String × Obj)

/-- The snapshot literal of `initProgress` and of the default of `setProgress`. -/
def startingSnapshot (now : Int) : Obj :=
  [("status", JSVal.str "starting"), ("percent", JSVal.num 0),
   ("etaSeconds", JSVal.null), ("startedAt", JSVal.num now)]

/-- The function `initProgress(id)`; `now` is the `Date.now()` it reads. -/
def initProgress (id : String) (now : Int) (reg : ProgressStates) : ProgressStates :=
  if id = "" then reg
  else Assoc.set id (startingSnapshot now) reg

/-- The function `setProgress(id, mutation)`; `now` is the `Date.now()` read for
the default snapshot. -/
def setProgress (id : String) (mutation : Obj) (now : Int) (reg : ProgressStates) :
    ProgressStates :=
  if id = "" then reg
  else
    let prev := (Assoc.get id reg).getD (startingSnapshot now)
    let next := Obj.spread prev mutation
    Assoc.set id next reg

/-- The expression `progressStates.get(id)?.percent`. -/
def storedPercent (id : String) (reg : ProgressStates) : JSVal :=
  match Assoc.get id reg with
  | some s => Obj.prop s "percent"
  | none => JSVal.undefined

/-- The object literal that `finishProgress` passes to `setProgress`. A
`details` object contributes both a `file` and an `error` property, each
`undefined` when `details` does not have it. -/
def finishMutation (id : String) (ok : Bool) (details : Option Obj) (now : Int)
    (reg : ProgressStates) : Obj :=
  Obj.spread
    [("status", JSVal.str (if ok then "done" else "error")),
     ("percent", if ok then JSVal.num 100 else (storedPercent id reg).or (JSVal.num 0)),
     ("etaSeconds", JSVal.num 0),
     ("finishedAt", JSVal.num now)]
    (match details with
     | some d => [("file", Obj.prop d "file"), ("error", Obj.prop d "error")]
     | none => [])

/-- The function `finishProgress(id, ok, details)`; `now` is the `Date.now()` of
the call. -/
def finishProgress (id : String) (ok : Bool) (details : Option Obj) (now : Int)
    (reg : ProgressStates) : ProgressStates :=
  if id = "" then reg
  else setProgress id (finishMutation id ok details now reg) now reg

/-! ## The progress endpoints (`server.js` lines 74-105) -/

/-- The snapshot literal answered for an id without an entry. -/
def unknownSnapshot : Obj :=
  [("status", JSVal.str "unknown")]

/-- The expression `progressStates.get(id) || { status: 'unknown' }` of both
progress endpoints. Stored snapshots are objects, hence truthy. -/
def currentState (id : String) (reg : ProgressStates) : Obj :=
  (Assoc.get id reg).getD unknownSnapshot

/-- One JSON response: status code and body. -/
structure JsonResponse where
  status : Nat
  body : Obj
  deriving DecidableEq, Repr

/-- The handler `GET /api/progress/:id/json`: the response and the registry
after the request. -/
def getProgressJson (id : String) (reg : ProgressStates) : JsonResponse × ProgressStates :=
  let state := currentState id reg
  (⟨200, state⟩, reg)

/-- What one call of the SSE `send` closure does: the snapshot written as a
`data:` frame, whether the interval timer is cleared, and the registry after. -/
structure SendResult where
  frame : Obj
  timerCleared : Bool
  reg : ProgressStates
  deriving DecidableEq, Repr

/-- The closure `send` of `GET /api/progress/:id`; `writeFails` tells whether
`res.write` throws. -/
def send (id : String) (writeFails : Bool) (reg : ProgressStates) : SendResult :=
  let state := currentState id reg
  let terminal := decide (Obj.prop state "status" = JSVal.str "done") ||
    decide (Obj.prop state "status" = JSVal.str "error")
  { frame := state, timerCleared := writeFails || terminal, reg := reg }

/-! ## Strings, paths and URL escaping -/

/-- White space and line terminators of JavaScript: what `\s` matches and what
`String.prototype.trim` strips. -/
def isJsSpace (c : Char) : Bool :=
  let n := c.toNat
  n = 0x09 || n = 0x0A || n = 0x0B || n = 0x0C || n = 0x0D || n = 0x20 || n = 0xA0 ||
  n = 0x1680 || (0x2000 ≤ n && n ≤ 0x200A) || n = 0x2028 || n = 0x2029 || n = 0x202F ||
  n = 0x205F || n = 0x3000 || n = 0xFEFF

/-- Line terminators: the characters that `.` of a regular expression does
not match. -/
def isLineTerminator (c : Char) : Bool :=
  let n := c.toNat
  n = 0x0A || n = 0x0D || n = 0x2028 || n = 0x2029

/-- The method `String.prototype.trim`. -/
def jsTrim (s : String) : String :=
  String.mk ((s.data.dropWhile isJsSpace).reverse.dropWhile isJsSpace).reverse

/-- Worker of `splitLines`: `cur` holds the current line, reversed. A line feed
ends the line; a carriage return right before it belongs to the separator. -/
def splitLinesAux : List Char → List Char → List String
  | [], cur => [String.mk cur.reverse]
  | c :: rest, cur =>
    if c = Char.ofNat 0x0A then
      String.mk (if cur.head? = some (Char.ofNat 0x0D) then cur.tail else cur).reverse ::
        splitLinesAux rest []
    else splitLinesAux rest (c :: cur)

/-- The call `s.split(/\r?\n/)`. -/
def splitLines (s : String) : List String :=
  splitLinesAux s.data []

/-- The method `String.prototype.toLowerCase`, on the letters A to Z (other
characters are kept). -/
def toLowerCase (s : String) : String :=
  String.mk (s.data.map Char.toLower)

/-- The method `String.prototype.startsWith`. -/
def startsWith (s pre : String) : Bool :=
  pre.data.isPrefixOf s.data

/-- The method `String.prototype.endsWith`. -/
def endsWith (s suf : String) : Bool :=
  suf.data.isSuffixOf s.data

/-- POSIX `path.join(dir, name)` for a normalised `dir` and a `name` that is one
path segment (or a relative path without `.`, `..` or empty segments). -/
def pathJoin (dir name : String) : String :=
  dir ++ "/" ++ name

/-- POSIX `path.basename(p)`: trailing slashes are dropped, then everything up
to the last slash. -/
def basename (p : String) : String :=
  String.mk (((p.data.reverse.dropWhile (fun c => c = '/')).takeWhile
    (fun c => c ≠ '/')).reverse)

/-- POSIX `path.extname(p)`: the last path segment from its last dot on; empty
when the segment has no dot, when its only dot is its first character, and for
the segment `..`. -/
def extname (p : String) : String :=
  let base := (basename p).data
  let afterDot := (base.reverse.takeWhile (fun c => c ≠ '.')).reverse
  if base.all (fun c => c ≠ '.') then ""
  else if afterDot.length + 1 = base.length then ""
  else if base = ['.', '.'] then ""
  else String.mk ('.' :: afterDot)

/-- Characters that `encodeURIComponent` leaves as they are. -/
def isUriUnreserved (c : Char) : Bool :=
  c.isAlphanum || c = '-' || c = '_' || c = '.' || c = '!' || c = '~' || c = '*' ||
  c = Char.ofNat 39 || c = '(' || c = ')'

/-- The UTF-8 bytes of a character. -/
def utf8Bytes (c : Char) : List Nat :=
  let n := c.toNat
  if n < 0x80 then [n]
  else if n < 0x800 then [0xC0 + n / 64, 0x80 + n % 64]
  else if n < 0x10000 then [0xE0 + n / 4096, 0x80 + n / 64 % 64, 0x80 + n % 64]
  else [0xF0 + n / 262144, 0x80 + n / 4096 % 64, 0x80 + n / 64 % 64, 0x80 + n % 64]

/-- One upper-case hexadecimal digit. -/
def hexDigit (n : Nat) : Char :=
  if n < 10 then Char.ofNat (48 + n) else Char.ofNat (55 + n)

/-- The escape `%XX` of one byte. -/
def percentByte (b : Nat) : List Char :=
  ['%', hexDigit (b / 16), hexDigit (b % 16)]

/-- The function `encodeURIComponent` on a string without a lone surrogate, on
which it does not throw (`encodeUnits` is the function on any string). -/
def encodeURIComponent (s : String) : String :=
  String.mk (List.flatten (s.data.map fun c =>
    if isUriUnreserved c then [c] else List.flatten ((utf8Bytes c).map percentByte)))

/-! ## JavaScript numbers

A finite JavaScript number is a binary64 value, here the rational it stands
for. Every arithmetic operation gives the exact result rounded to the nearest
such value. -/

/-- The number of binary digits of `n`, counted in at most `fuel` steps. -/
def bitLengthAux : Nat → Nat → Nat
  | 0, _ => 0
  | fuel + 1, n => if n = 0 then 0 else bitLengthAux fuel (n / 2) + 1

/-- The number of binary digits of `n`. -/
def bitLength (n : Nat) : Nat :=
  bitLengthAux n n

/-- The quotient `n / d` rounded to the nearest integer, a tie going to the
even neighbour. -/
def roundHalfEven (n d : Nat) : Nat :=
  let q := n / d
  let r := n % d
  if 2 * r < d then q
  else if d < 2 * r then q + 1
  else if q % 2 = 0 then q else q + 1

/-- The exponent of the unit in the last place of a 53-bit significand for the
positive quotient `n / d`: the `e` with `2 ^ 52 ≤ (n / d) / 2 ^ e < 2 ^ 53`. -/
def ulpExponent (n d : Nat) : Int :=
  let e0 : Int := (bitLength n : Int) - (bitLength d : Int) - 52
  if n * 2 ^ (-e0).toNat < d * 2 ^ e0.toNat * 2 ^ 52 then e0 - 1 else e0

/-- The binary64 value nearest to the positive quotient `n / d`: a significand
of 53 bits, round to nearest, ties to even. -/
def nearestDouble (n d : Nat) : ℚ :=
  let e := ulpExponent n d
  (roundHalfEven (n * 2 ^ (-e).toNat) (d * 2 ^ e.toNat) : ℚ) * (2 : ℚ) ^ e

/-- The binary64 value nearest to `x`: what an arithmetic operation, a decimal
literal or `parseFloat` gives for the exact value `x`. The exponent range is
not limited: the results of this program (quotients and products of byte
counts, milliseconds and percentages) are far from the overflow and underflow
thresholds `2 ^ 1024` and `2 ^ -1022`. -/
def roundDouble (x : ℚ) : ℚ :=
  if x = 0 then 0
  else if 0 < x then nearestDouble x.num.natAbs x.den
  else - nearestDouble x.num.natAbs x.den

/-! ## The world outside the process -/

/-- A JavaScript `Error` as the server reads it: its `code` (set on spawn
failures, such as `ENOENT`) and its `message`. -/
structure JsError where
  code : Option String
  message : String
  deriving DecidableEq, Repr

/-- How one spawned child process behaved: it ran and closed with an exit code
(`null` when a signal ended it) after writing `stdout` and the `stderr` chunks,
or it failed to start and emitted `error`. -/
inductive ChildRun
  | exited (code : Option Int) (stdout : String) (stderr : List String)
  | failed (err : JsError)
  deriving DecidableEq, Repr

/-- What `fs.statSync` tells about a directory entry. -/
structure Stat where
  isFile : Bool
  mtimeMs : ℚ
  deriving DecidableEq, Repr

/-- One name returned by `fs.readdirSync`; `stat` is `none` when `fs.statSync`
throws for it. -/
structure DirEntry where
  name : String
  stat : Option Stat
  deriving DecidableEq, Repr

/-- The remote object store, when `S3_CONFIG.enabled` and the client exist. -/
structure S3Config where
  bucket : String
  region : String
  uploadOk : String → Bool
  cleanupLocalFiles : Bool

/-- Result of `ytdl.getInfo`: the video details, or the error it rejects with. -/
inductive InfoResult
  | ok (title videoId : String)
  | error (message : String)
  deriving DecidableEq, Repr

/-- One `progress` event of the primary stream, with the `Date.now()` its
listener reads. The byte counts `downloaded` and `total` are the numbers that
the event carries. -/
structure ProgressEvent where
  downloaded : ℚ
  total : ℚ
  now : Int
  deriving DecidableEq, Repr

/-- How the primary transfer of `POST /api/download` ends: the one terminal
event among `stream.on('error')`, `write.on('finish')`, `write.on('error')`. -/
inductive VideoEnd
  | streamError (message : String)
  | writeFinish
  | writeError (message : String)
  deriving DecidableEq, Repr

/-- How the transcode of `POST /api/download-mp3` ends: ffmpeg `error` or `end`. -/
inductive AudioEnd
  | transcodeError (message : String)
  | transcodeEnd
  deriving DecidableEq, Repr

/-- Everything outside the process during one request. Times are `Date.now()`
readings: `t0` when the request arrives, `tInfo` when `getInfo` settles, `tEnd`
at the terminal event of the primary transfer, `tDone` when the fallback tool
has closed. The directory listing and `otherPaths` describe the file system
when the fallback tool has closed. -/
structure World where
  validateURL : String → Bool
  getInfo : String → InfoResult
  progress : List ProgressEvent
  videoEnd : VideoEnd
  audioEnd : AudioEnd
  outDir : String
  ffmpegBin : Option String
  launch : String → List String → ChildRun
  dir : List DirEntry
  otherPaths : List String
  s3 : Option S3Config
  t0 : Int
  tInfo : Int
  tEnd : Int
  tDone : Int

/-- The call `fs.existsSync(p)`: a path listed in `otherPaths`, or an entry of
the output directory that can be stat-ed. -/
def World.existsSync (w : World) (p : String) : Bool :=
  decide (p ∈ w.otherPaths) ||
    w.dir.any (fun e => e.stat.isSome && decide (pathJoin w.outDir e.name = p))

/-- The calls to collaborators that a request makes, in order. -/
inductive Call
  | getInfo (url : String)
  | openStream (url filter quality : String)
  | createWriteStream (path : String)
  | transcode (bitrate : String) (outPath : String)
  | downloadWithYtDlp (url : String) (audioOnly : Bool) (bitrateKbps : Nat)
  | downloadWithYtDlpStreaming (url : String) (audioOnly : Bool) (bitrateKbps : Nat)
      (progressId : String)
  | spawn (cmd : String) (args : List String)
  | putObject (key contentType : String)
  | unlink (path : String)
  deriving DecidableEq, Repr

/-- The mutable state of the server that a request acts on, and the calls made
so far. -/
structure Sys where
  reg : ProgressStates
  trace : List Call
  deriving DecidableEq, Repr

/-- The unified success result `{ path, filename, url }`. -/
structure Outcome where
  path : String
  filename : String
  url : String
  deriving DecidableEq, Repr

/-! ## Process launching (`server.js` lines 132-167) -/

/-- The object that `spawnOnce` resolves with. -/
structure SpawnResult where
  ok : Bool
  code : Option Int
  error : Option JsError
  stdout : String
  stderr : String
  deriving DecidableEq, Repr

/-- The function `spawnOnce(command, args, options)`. -/
def spawnOnce (launch : String → List String → ChildRun) (command : String)
    (args : List String) : SpawnResult :=
  match launch command args with
  | .failed err => { ok := false, code := none, error := some err, stdout := "", stderr := "" }
  | .exited code stdout stderr =>
    { ok := decide (code = some 0), code := code, error := none, stdout := stdout,
      stderr := String.join stderr }

/-- One way to launch the tool: a command and its leading arguments. -/
structure Candidate where
  cmd : String
  args : List String
  deriving DecidableEq, Repr

/-- The list `commands` of `runYtDlp` and of `downloadWithYtDlpStreaming`. -/
def commands : List Candidate :=
  [⟨"yt-dlp", []⟩, ⟨"python", ["-m", "yt_dlp"]⟩, ⟨"python3", ["-m", "yt_dlp"]⟩,
   ⟨"py", ["-3", "-m", "yt_dlp"]⟩]

/-- The `for` loop of `runYtDlp` over the remaining candidates: the result and
the processes spawned. -/
def runYtDlpLoop (launch : String → List String → ChildRun) (url : String)
    (args : List String) : List Candidate → SpawnResult × List Call
  | [] =>
    ({ ok := false, code := none, error := some ⟨none, "yt-dlp not available"⟩,
       stdout := "", stderr := "" }, [])
  | candidate :: rest =>
    let argv := candidate.args ++ args ++ [url]
    let result := spawnOnce launch candidate.cmd argv
    if result.ok then (result, [Call.spawn candidate.cmd argv])
    else
      let isNotFound := match result.error with
        | some err => decide (err.code = some "ENOENT")
        | none => false
      if !isNotFound && result.code.isSome then (result, [Call.spawn candidate.cmd argv])
      else
        let next := runYtDlpLoop launch url args rest
        (next.1, Call.spawn candidate.cmd argv :: next.2)

/-- The function `runYtDlp(url, args)`. -/
def runYtDlp (launch : String → List String → ChildRun) (url : String)
    (args : List String) : SpawnResult × List Call :=
  runYtDlpLoop launch url args commands

/-! ## Locating the output file and publishing it (`server.js` lines 169-182, 311-348) -/

/-- The filter predicate of `getNewestFileInDirectory` on one directory entry.
A missing `extensions` or a falsy `newerThanMs` (`undefined`, 0) switches the
corresponding test off. -/
def newestFilter (dir : String) (extensions : Option (List String)) (newerThanMs : Option ℚ)
    (e : DirEntry) : Bool :=
  match e.stat with
  | none => false
  | some st =>
    st.isFile &&
    (match extensions with
     | none => true
     | some exts => decide (toLowerCase (extname (pathJoin dir e.name)) ∈ exts)) &&
    (match newerThanMs with
     | none => true
     | some t => decide (t = 0) || decide (st.mtimeMs ≥ t))

/-- The comparator order of the `sort` call: later modification time first. -/
def newerFirst (a b : DirEntry) : Prop :=
  (b.stat.map Stat.mtimeMs).getD 0 ≤ (a.stat.map Stat.mtimeMs).getD 0

instance : DecidableRel newerFirst := fun a b => by
  unfold newerFirst; infer_instance

/-- The function `getNewestFileInDirectory(directoryPath, extensions,
newerThanMs)` on the listing `entries` of the directory; `Array.prototype.sort`
is a stable sort. -/
def getNewestFileInDirectory (dir : String) (entries : List DirEntry)
    (extensions : Option (List String)) (newerThanMs : Option ℚ) : Option String :=
  let filtered := entries.filter (newestFilter dir extensions newerThanMs)
  match filtered.insertionSort newerFirst with
  | [] => none
  | e :: _ => some (pathJoin dir e.name)

/-- The local URL of a file name. -/
def localUrl (filename : String) : String :=
  "/downloads/" ++ encodeURIComponent filename

/-- The function `getFileUrl(filePath, filename)` for a file name without a lone
surrogate: the URL and the calls made (`getFileUrlSettles` tells how the call
settles for any file name). -/
def getFileUrl (s3 : Option S3Config) (filePath filename : String) : String × List Call :=
  match s3 with
  | none => (localUrl filename, [])
  | some cfg =>
    let put := Call.putObject ("downloads/" ++ filename)
      (if endsWith filename ".mp4" then "video/mp4" else "audio/mpeg")
    if cfg.uploadOk filePath then
      ("https://" ++ cfg.bucket ++ ".s3." ++ cfg.region ++ ".amazonaws.com/downloads/" ++
          encodeURIComponent filename,
        if cfg.cleanupLocalFiles then [put, Call.unlink filePath] else [put])
    else (localUrl filename, [put])

/-! ### File names as JavaScript strings

A JavaScript string is a sequence of UTF-16 code units and may hold a surrogate
without its partner; a `String` stands for a string without such a code unit.
`encodeURIComponent` throws on the others. -/

/-- The UTF-8 bytes of the code point `n`. -/
def utf8OfCodePoint (n : Nat) : List Nat :=
  if n < 0x80 then [n]
  else if n < 0x800 then [0xC0 + n / 64, 0x80 + n % 64]
  else if n < 0x10000 then [0xE0 + n / 4096, 0x80 + n / 64 % 64, 0x80 + n % 64]
  else [0xF0 + n / 262144, 0x80 + n / 4096 % 64, 0x80 + n / 64 % 64, 0x80 + n % 64]

/-- The UTF-16 code units of a character. -/
def utf16Units (c : Char) : List Nat :=
  if c.toNat < 0x10000 then [c.toNat]
  else [0xD800 + (c.toNat - 0x10000) / 0x400, 0xDC00 + (c.toNat - 0x10000) % 0x400]

/-- The UTF-16 code units of a string. -/
def toCodeUnits (s : String) : List Nat :=
  List.flatten (s.data.map utf16Units)

/-- The code units `0xD800` to `0xDBFF`. -/
def isHighSurrogate (u : Nat) : Bool :=
  decide (0xD800 ≤ u ∧ u ≤ 0xDBFF)

/-- The code units `0xDC00` to `0xDFFF`. -/
def isLowSurrogate (u : Nat) : Bool :=
  decide (0xDC00 ≤ u ∧ u ≤ 0xDFFF)

/-- The escaping of `encodeURIComponent` on the code units of any JavaScript
string: an unreserved character stays, a surrogate pair or another code unit
becomes the `%XX` escapes of the UTF-8 bytes of its code point, and a surrogate
without its partner makes the function throw (`none`). -/
def encodeUnits : List Nat → Option (List Char)
  | [] => some []
  | u :: rest =>
    if isUriUnreserved (Char.ofNat u) then (encodeUnits rest).map (fun t => Char.ofNat u :: t)
    else if isLowSurrogate u then none
    else if isHighSurrogate u then
      match rest with
      | v :: rest2 =>
        if isLowSurrogate v then
          (encodeUnits rest2).map (fun t =>
            List.flatten ((utf8OfCodePoint
              (0x10000 + (u - 0xD800) * 0x400 + (v - 0xDC00))).map percentByte) ++ t)
        else none
      | [] => none
    else (encodeUnits rest).map (fun t => List.flatten ((utf8OfCodePoint u).map percentByte) ++ t)

/-- The `URIError` that `encodeURIComponent` throws on a lone surrogate. -/
def uriError : JsError :=
  ⟨none, "URI malformed"⟩

/-- The call `encodeURIComponent(s)` for any JavaScript string `s`, given by its
code units: the escaped text, or the error thrown. -/
def encodeURIComponentUnits (units : List Nat) : Except JsError String :=
  match encodeUnits units with
  | some escaped => Except.ok (String.mk escaped)
  | none => Except.error uriError

/-- How the promise of `getFileUrl(filePath, filename)` settles for any
JavaScript string `filename`, given by its code units: the URL, or the error it
rejects with. Without remote storage the escape stands before the `try`; an
error thrown inside the `try` (by the upload or by the escape of the remote
URL) leads to the `catch` block, whose escape is not guarded. -/
def getFileUrlSettles (s3 : Option S3Config) (filePath : String) (filename : List Nat) :
    Except JsError String :=
  match s3 with
  | none => (encodeURIComponentUnits filename).map (fun escaped => "/downloads/" ++ escaped)
  | some cfg =>
    if cfg.uploadOk filePath then
      match encodeURIComponentUnits filename with
      | Except.ok escaped =>
        Except.ok ("https://" ++ cfg.bucket ++ ".s3." ++ cfg.region ++
          ".amazonaws.com/downloads/" ++ escaped)
      | Except.error _ =>
        (encodeURIComponentUnits filename).map (fun escaped => "/downloads/" ++ escaped)
    else (encodeURIComponentUnits filename).map (fun escaped => "/downloads/" ++ escaped)

/-! ## The yt-dlp fallback (`server.js` lines 184-308) -/

/-- The template `path.join(outDir, '%(title).150B-%(id)s.%(ext)s')`. -/
def outputTemplate (outDir : String) : String :=
  pathJoin outDir "%(title).150B-%(id)s.%(ext)s"

/-- The array `baseArgs`. -/
def baseArgs (outDir : String) (ffmpegBin : Option String) : List String :=
  ["--no-playlist", "--restrict-filenames", "-o", outputTemplate outDir,
   "--print", "after_move:filepath", "--print", "filepath", "--print", "filename"] ++
  (match ffmpegBin with
   | some bin => ["--ffmpeg-location", bin]
   | none => [])

/-- The array `modeArgs`. -/
def modeArgs (audioOnly : Bool) (bitrateKbps : Nat) : List String :=
  if audioOnly then
    ["-f", "bestaudio/best", "--extract-audio", "--audio-format", "mp3", "--audio-quality",
     toString bitrateKbps]
  else ["-f", "bv*[ext=mp4]+ba[ext=m4a]/b[ext=mp4]/b"]

/-- The non-empty trimmed lines of the tool output:
`stdout.split(/\r?\n/).map((s) => s.trim()).filter(Boolean)`. -/
def outputLines (stdout : String) : List String :=
  ((splitLines stdout).map jsTrim).filter (fun l => decide (l ≠ ""))

/-- The path named by the tool output: the last line that starts with the
output directory, compared in lower case
(`lines.reverse().find((l) => l.toLowerCase().startsWith(outDir.toLowerCase()))`). -/
def pathFromStdout (outDir stdout : String) : Option String :=
  (outputLines stdout).reverse.find?
    (fun l => startsWith (toLowerCase l) (toLowerCase outDir))

/-- The extension list of the directory scan. -/
def extList (audioOnly : Bool) : List String :=
  if audioOnly then [".mp3"] else [".mp4"]

/-- The message of the error thrown when no output file is found. -/
def outputNotFound : String :=
  "yt-dlp finished but output file could not be determined"

/-- Output resolution of `downloadWithYtDlp` (lines 212-221): the path named by
stdout, else the newest file of the directory scan; `none` when the function
throws because nothing was resolved or the resolved path does not exist. -/
def resolveOutput (w : World) (audioOnly : Bool) (startMs : Int) (stdout : String) :
    Option String :=
  let resolved := match pathFromStdout w.outDir stdout with
    | some l => some l
    | none => getNewestFileInDirectory w.outDir w.dir (some (extList audioOnly))
        (some ((startMs : ℚ) - 1000))
  match resolved with
  | none => none
  | some resolvedPath => if w.existsSync resolvedPath then some resolvedPath else none

/-- The message of the error that `downloadWithYtDlp` throws for a failed run. -/
def toolFailureMessage (result : SpawnResult) : String :=
  let message :=
    if result.stderr ≠ "" then result.stderr
    else match result.error with
      | some err => err.message
      | none => "Unknown error"
  "yt-dlp failed: " ++ message

/-- The function `downloadWithYtDlp(url, { audioOnly, bitrateKbps })`; a caller
that passes no `bitrateKbps` gets the default 192, and `startMs` is the
`Date.now()` the function reads. It returns the outcome or the message of the
error it throws, and the state with the calls it made. -/
def downloadWithYtDlp (w : World) (url : String) (audioOnly : Bool) (bitrate : Option Nat)
    (startMs : Int) (st : Sys) : Except String Outcome × Sys :=
  let bitrateKbps := bitrate.getD 192
  let run := runYtDlp w.launch url (modeArgs audioOnly bitrateKbps ++ baseArgs w.outDir w.ffmpegBin)
  let st1 : Sys :=
    { st with trace := st.trace ++ [Call.downloadWithYtDlp url audioOnly bitrateKbps] ++ run.2 }
  if !run.1.ok then (Except.error (toolFailureMessage run.1), st1)
  else
    match resolveOutput w audioOnly startMs run.1.stdout with
    | none => (Except.error outputNotFound, st1)
    | some resolvedPath =>
      let filename := basename resolvedPath
      let published := getFileUrl w.s3 resolvedPath filename
      (Except.ok { path := resolvedPath, filename := filename, url := published.1 },
        { st1 with trace := st1.trace ++ published.2 })

/-! ### Progress lines of the tool (`server.js` lines 264-275) -/

/-- The capture groups of a match of
`/(\d{1,3}\.\d|\d{1,3})%.*?ETA\s+(\d{2}):(\d{2})/`. -/
structure ProgressMatch where
  percent : List Char
  minutes : List Char
  seconds : List Char
  deriving DecidableEq, Repr

/-- The class `\d`. -/
def isDigit (c : Char) : Bool :=
  48 ≤ c.toNat && c.toNat ≤ 57

/-- The tail `ETA\s+(\d{2}):(\d{2})` at the start of the input. The greedy
`\s+` takes every white-space character: none of them is a digit. -/
def matchEta (l : List Char) : Option (List Char × List Char) :=
  match l with
  | e :: t :: a :: sp :: rest =>
    if e = 'E' ∧ t = 'T' ∧ a = 'A' ∧ isJsSpace sp = true then
      match rest.dropWhile isJsSpace with
      | m1 :: m2 :: colon :: s1 :: s2 :: _ =>
        if isDigit m1 && isDigit m2 && decide (colon = ':') && isDigit s1 && isDigit s2 then
          some ([m1, m2], [s1, s2])
        else none
      | _ => none
    else none
  | _ => none

/-- The part `.*?ETA\s+(\d{2}):(\d{2})`: the lazy `.*?` is extended one
character at a time, never across a line terminator. -/
def matchLazyEta : List Char → Option (List Char × List Char)
  | [] => none
  | c :: rest =>
    match matchEta (c :: rest) with
    | some r => some r
    | none => if isLineTerminator c then none else matchLazyEta rest

/-- One way through the number group at the start of the input: `n` digits,
then `.` and one digit when `withFraction`, then `%` and the rest of the
pattern. -/
def matchNumber (withFraction : Bool) (n : Nat) (l : List Char) : Option ProgressMatch :=
  let ds := l.take n
  if ds.length = n ∧ ds.all isDigit = true then
    match withFraction, l.drop n with
    | true, dot :: f :: pct :: rest =>
      if dot = '.' ∧ isDigit f = true ∧ pct = '%' then
        (matchLazyEta rest).map (fun r => ⟨ds ++ [dot, f], r.1, r.2⟩)
      else none
    | false, pct :: rest =>
      if pct = '%' then (matchLazyEta rest).map (fun r => ⟨ds, r.1, r.2⟩) else none
    | _, _ => none
  else none

/-- The whole pattern at the start of the input: the first alternative of the
group before the second, and the greedy `\d{1,3}` from three digits down. -/
def matchProgressAt (l : List Char) : Option ProgressMatch :=
  (matchNumber true 3 l).orElse fun _ =>
  (matchNumber true 2 l).orElse fun _ =>
  (matchNumber true 1 l).orElse fun _ =>
  (matchNumber false 3 l).orElse fun _ =>
  (matchNumber false 2 l).orElse fun _ =>
  matchNumber false 1 l

/-- The leftmost match in the input. -/
def matchProgressFrom : List Char → Option ProgressMatch
  | [] => none
  | c :: rest => (matchProgressAt (c :: rest)).orElse fun _ => matchProgressFrom rest

/-- The call `text.match(/(\d{1,3}\.\d|\d{1,3})%.*?ETA\s+(\d{2}):(\d{2})/)`. -/
def matchProgress (text : String) : Option ProgressMatch :=
  matchProgressFrom text.data

/-- The value of a string of decimal digits (`parseInt(s, 10)` on such a
string). -/
def parseDigits (l : List Char) : Nat :=
  l.foldl (fun n c => 10 * n + (c.toNat - 48)) 0

/-- The value `parseFloat(s)` of a capture `ddd` or `ddd.d`: the number nearest
to the decimal. -/
def parseFloatCapture (l : List Char) : ℚ :=
  let whole := l.takeWhile isDigit
  let fraction := ((l.dropWhile isDigit).drop 1).takeWhile isDigit
  roundDouble
    ((parseDigits whole : ℚ) + (parseDigits fraction : ℚ) / (10 : ℚ) ^ fraction.length)

/-- The listener `child.stderr.on('data', ...)` on one chunk; `now` is the
`Date.now()` read by `setProgress` when the id has no snapshot. -/
def onStderrData (progressId : String) (text : String) (now : Int) (reg : ProgressStates) :
    ProgressStates :=
  match matchProgress text with
  | some m =>
    if progressId ≠ "" then
      let percent := max 0 (min 100 (parseFloatCapture m.percent))
      let etaSeconds := parseDigits m.minutes * 60 + parseDigits m.seconds
      setProgress progressId
        [("status", JSVal.str "downloading"), ("percent", JSVal.num percent),
         ("etaSeconds", JSVal.num etaSeconds)] now reg
    else reg
  | none =>
    if progressId ≠ "" then
      setProgress progressId [("status", JSVal.str "downloading")] now reg
    else reg

/-! ### The streaming variant (`server.js` lines 233-308) -/

/-- How the candidate loop of `downloadWithYtDlpStreaming` ends: a candidate
exited zero (`selected` is set), every candidate was skipped (`selected` is
`null`), or an error was thrown. -/
inductive LoopEnd
  | selected
  | notSelected
  | thrown (message : String)
  deriving DecidableEq, Repr

/-- The `for` loop of `downloadWithYtDlpStreaming` over the remaining
candidates. `stdout` accumulates over all candidates; every stderr chunk goes
through `onStderrData`. -/
def streamingLoop (w : World) (url : String) (args : List String) (progressId : String) :
    List Candidate → String → Sys → LoopEnd × String × Sys
  | [], stdout, st => (LoopEnd.notSelected, stdout, st)
  | candidate :: rest, stdout, st =>
    let argv := candidate.args ++ args ++ [url]
    let st1 : Sys := { st with trace := st.trace ++ [Call.spawn candidate.cmd argv] }
    match w.launch candidate.cmd argv with
    | .exited code out chunks =>
      let reg2 := chunks.foldl (fun r text => onStderrData progressId text w.tDone r) st1.reg
      let st2 : Sys := { st1 with reg := reg2 }
      if code = some 0 then (LoopEnd.selected, stdout ++ out, st2)
      else (LoopEnd.thrown "yt-dlp failed", stdout ++ out, st2)
    | .failed err =>
      if err.code = some "ENOENT" then streamingLoop w url args progressId rest stdout st1
      else (LoopEnd.thrown err.message, stdout, st1)

/-- Output resolution of `downloadWithYtDlpStreaming` (lines 295-305): the
path named by stdout when it exists, else the newest file of the directory
scan; `none` when the function throws because nothing was resolved or the
resolved path does not exist. -/
def resolveOutputStreaming (w : World) (audioOnly : Bool) (stdout : String) : Option String :=
  let resolved := match pathFromStdout w.outDir stdout with
    | some l =>
      if w.existsSync l then some l
      else getNewestFileInDirectory w.outDir w.dir (some (extList audioOnly)) none
    | none => getNewestFileInDirectory w.outDir w.dir (some (extList audioOnly)) none
  match resolved with
  | none => none
  | some resolvedPath => if w.existsSync resolvedPath then some resolvedPath else none

/-- The function `downloadWithYtDlpStreaming(url, { audioOnly, bitrateKbps,
progressId })`; `progressId` is empty when the caller passes none, and the
`Date.now()` readings during and after the tool run are `w.tDone`. -/
def downloadWithYtDlpStreaming (w : World) (url : String) (audioOnly : Bool)
    (bitrate : Option Nat) (progressId : String) (st : Sys) : Except String Outcome × Sys :=
  let bitrateKbps := bitrate.getD 192
  let loop := streamingLoop w url (modeArgs audioOnly bitrateKbps ++ baseArgs w.outDir w.ffmpegBin)
    progressId commands ""
    { st with trace := st.trace ++
        [Call.downloadWithYtDlpStreaming url audioOnly bitrateKbps progressId] }
  match loop.1 with
  | LoopEnd.thrown message => (Except.error message, loop.2.2)
  | LoopEnd.notSelected => (Except.error "yt-dlp not available or failed", loop.2.2)
  | LoopEnd.selected =>
    match resolveOutputStreaming w audioOnly loop.2.1 with
    | none => (Except.error outputNotFound, loop.2.2)
    | some resolvedPath =>
      (Except.ok { path := resolvedPath, filename := basename resolvedPath,
                   url := "/downloads/" ++ encodeURIComponent (basename resolvedPath) },
        if progressId ≠ "" then
          { loop.2.2 with reg := finishProgress progressId true none w.tDone loop.2.2.reg }
        else loop.2.2)

/-! ## The download handlers (`server.js` lines 350-446, 469-545) -/

/-- The body of a download request; a field the JSON body does not have is
`none`. -/
structure Request where
  url : Option String
  bitrate : Option Nat
  progressId : Option String
  deriving DecidableEq, Repr

/-- A string field that is truthy: present and not empty. -/
def truthyString : Option String → Option String
  | some s => if s = "" then none else some s
  | none => none

/-- The character class `[<>:"/\\|?*]`. -/
def isIllegalChar (c : Char) : Bool :=
  c = '<' || c = '>' || c = ':' || c = '"' || c = '/' || c = '\\' || c = '|' || c = '?' ||
  c = '*'

/-- The call `title.replace(/[<>:"/\\|?*]/g, '_')`. -/
def sanitizeTitle (title : String) : String :=
  String.mk (title.data.map fun c => if isIllegalChar c then '_' else c)

/-- The template `${title}-${id}${ext}` on the sanitised title. -/
def primaryFilename (title videoId ext : String) : String :=
  sanitizeTitle title ++ "-" ++ videoId ++ ext

/-- The function `Math.round` on a number: the nearest integer, halves going
up. The result is exact. -/
def jsRound (x : ℚ) : Int :=
  Rat.floor (x + 1 / 2)

/-- The `progress` listener of the primary stream; `startedAt` is the
`Date.now()` read when the listener was attached. Each of `/`, `-` and `*`
rounds its exact result to the nearest number, and the literal `0.001` is the
number nearest to one thousandth; `Math.max` and the difference of the two
clock readings are exact. -/
def onProgress (progressId : String) (startedAt : Int) (ev : ProgressEvent)
    (reg : ProgressStates) : ProgressStates :=
  let elapsed : ℚ :=
    max (roundDouble (1 / 1000)) (roundDouble (((ev.now - startedAt : Int) : ℚ) / 1000))
  let speed := roundDouble (ev.downloaded / elapsed)
  let remaining := max 0 (roundDouble (ev.total - ev.downloaded))
  let etaSeconds :=
    if speed > 0 then JSVal.num (jsRound (roundDouble (remaining / speed))) else JSVal.null
  let percent :=
    if ev.total ≠ 0 then roundDouble (roundDouble (ev.downloaded / ev.total) * 100) else 0
  setProgress progressId
    [("status", JSVal.str "downloading"), ("percent", JSVal.num percent),
     ("etaSeconds", etaSeconds)] ev.now reg

/-- The JSON body of a success response. -/
def Outcome.toJson (o : Outcome) : Obj :=
  [("path", JSVal.str o.path), ("filename", JSVal.str o.filename), ("url", JSVal.str o.url)]

/-- The JSON body `{ error: message }`. -/
def errorBody (message : String) : Obj :=
  [("error", JSVal.str message)]

/-- What a handler has done when it has answered: the response and the state of
the server at that moment. -/
structure Handled where
  response : JsonResponse
  sys : Sys
  deriving DecidableEq, Repr

/-- The fallback call shared by the handlers: the streaming variant when the
request has a truthy `progressId`, the plain variant otherwise. -/
def runFallback (w : World) (url : String) (audioOnly : Bool) (bitrate : Option Nat)
    (progressId : Option String) (startMs : Int) (st : Sys) : Except String Outcome × Sys :=
  match progressId with
  | some id => downloadWithYtDlpStreaming w url audioOnly bitrate id st
  | none => downloadWithYtDlp w url audioOnly bitrate startMs st

/-- A registry write guarded by `if (progressId)`. -/
def withProgress (progressId : Option String) (f : String → ProgressStates → ProgressStates)
    (st : Sys) : Sys :=
  match progressId with
  | some id => { st with reg := f id st.reg }
  | none => st

/-- The common start of both handlers once the URL is accepted:
`if (progressId) initProgress(progressId)` and the call of `ytdl.getInfo`. -/
def beginJob (w : World) (url : String) (progressId : Option String) (st : Sys) : Sys :=
  let st1 := withProgress progressId (fun id => initProgress id w.t0) st
  { st1 with trace := st1.trace ++ [Call.getInfo url] }

/-- The trace entry of a fallback invocation made by `runFallback`. -/
def fallbackCall (url : String) (audioOnly : Bool) (bitrateKbps : Nat)
    (progressId : Option String) : Call :=
  match progressId with
  | some id => Call.downloadWithYtDlpStreaming url audioOnly bitrateKbps id
  | none => Call.downloadWithYtDlp url audioOnly bitrateKbps

/-- The calls that a fallback run makes after its own invocation: spawning
candidates, uploading and deleting the produced file. -/
def Call.isToolStep : Call → Bool
  | .spawn _ _ => true
  | .putObject _ _ => true
  | .unlink _ => true
  | _ => false

/-- The handler `POST /api/download`. -/
def postDownload (w : World) (req : Request) (st : Sys) : Handled :=
  match truthyString req.url with
  | none => ⟨⟨400, errorBody "Invalid URL"⟩, st⟩
  | some url =>
    if !w.validateURL url then ⟨⟨400, errorBody "Invalid URL"⟩, st⟩
    else
      let progressId := truthyString req.progressId
      let st2 := beginJob w url progressId st
      match w.getInfo url with
      | .error infoMessage =>
        match runFallback w url false none progressId w.tInfo st2 with
        | (.ok fallback, st3) => ⟨⟨200, fallback.toJson⟩, st3⟩
        | (.error fallbackMessage, st3) =>
          let st4 := withProgress progressId (fun id =>
            finishProgress id false (some [("error", JSVal.str infoMessage)]) w.tDone) st3
          ⟨⟨500, errorBody ("Failed to get video info: " ++ infoMessage ++
            "; yt-dlp fallback failed: " ++ fallbackMessage)⟩, st4⟩
      | .ok title videoId =>
        let filename := primaryFilename title videoId ".mp4"
        let outPath := pathJoin w.outDir filename
        let st3 : Sys := { st2 with trace := st2.trace ++
          [Call.createWriteStream outPath, Call.openStream url "audioandvideo" "highest"] }
        let st4 := withProgress progressId (fun id reg =>
          w.progress.foldl (fun r ev => onProgress id w.tInfo ev r) reg) st3
        match w.videoEnd with
        | .streamError message =>
          match runFallback w url false none progressId w.tEnd st4 with
          | (.ok fallback, st5) => ⟨⟨200, fallback.toJson⟩, st5⟩
          | (.error fallbackMessage, st5) =>
            let st6 := withProgress progressId (fun id =>
              finishProgress id false none w.tDone) st5
            ⟨⟨500, errorBody ("Download failed: " ++ message ++
              "; yt-dlp fallback failed: " ++ fallbackMessage)⟩, st6⟩
        | .writeFinish =>
          let st5 := withProgress progressId (fun id =>
            finishProgress id true (some [("file", JSVal.str filename)]) w.tEnd) st4
          let published := getFileUrl w.s3 outPath filename
          ⟨⟨200, Outcome.toJson ⟨outPath, filename, published.1⟩⟩,
            { st5 with trace := st5.trace ++ published.2 }⟩
        | .writeError message =>
          match runFallback w url false none progressId w.tEnd st4 with
          | (.ok fallback, st5) => ⟨⟨200, fallback.toJson⟩, st5⟩
          | (.error fallbackMessage, st5) =>
            let st6 := withProgress progressId (fun id =>
              finishProgress id false (some [("error", JSVal.str message)]) w.tDone) st5
            ⟨⟨500, errorBody ("File write failed: " ++ message ++
              "; yt-dlp fallback failed: " ++ fallbackMessage)⟩, st6⟩

/-- The handler `POST /api/download-mp3`. -/
def postDownloadMp3 (w : World) (req : Request) (st : Sys) : Handled :=
  match truthyString req.url with
  | none => ⟨⟨400, errorBody "Invalid URL"⟩, st⟩
  | some url =>
    if !w.validateURL url then ⟨⟨400, errorBody "Invalid URL"⟩, st⟩
    else
      let bitrate := req.bitrate.getD 192
      let progressId := truthyString req.progressId
      let st2 := beginJob w url progressId st
      match w.getInfo url with
      | .error infoMessage =>
        match runFallback w url true (some bitrate) progressId w.tInfo st2 with
        | (.ok fallback, st3) =>
          let st4 := withProgress progressId (fun id =>
            finishProgress id true none w.tDone) st3
          ⟨⟨200, fallback.toJson⟩, st4⟩
        | (.error fallbackMessage, st3) =>
          let st4 := withProgress progressId (fun id =>
            finishProgress id false none w.tDone) st3
          ⟨⟨500, errorBody ("Failed to get video info: " ++ infoMessage ++
            "; yt-dlp fallback failed: " ++ fallbackMessage)⟩, st4⟩
      | .ok title videoId =>
        let filename := primaryFilename title videoId ".mp3"
        let outPath := pathJoin w.outDir filename
        let st3 : Sys := { st2 with trace := st2.trace ++
          [Call.openStream url "audioonly" "highestaudio",
           Call.transcode (toString bitrate) outPath] }
        let st4 := withProgress progressId (fun id reg =>
          w.progress.foldl (fun r ev => onProgress id w.tInfo ev r) reg) st3
        match w.audioEnd with
        | .transcodeError message =>
          match runFallback w url true (some bitrate) progressId w.tEnd st4 with
          | (.ok fallback, st5) =>
            let st6 := withProgress progressId (fun id =>
              finishProgress id true (some [("file", JSVal.str filename)]) w.tDone) st5
            ⟨⟨200, fallback.toJson⟩, st6⟩
          | (.error fallbackMessage, st5) =>
            let shown := if fallbackMessage ≠ "" then fallbackMessage else message
            let st6 := withProgress progressId (fun id =>
              finishProgress id false (some [("error", JSVal.str shown)]) w.tDone) st5
            ⟨⟨500, errorBody shown⟩, st6⟩
        | .transcodeEnd =>
          let st5 := withProgress progressId (fun id =>
            finishProgress id true (some [("file", JSVal.str filename)]) w.tEnd) st4
          let published := getFileUrl w.s3 outPath filename
          ⟨⟨200, Outcome.toJson ⟨outPath, filename, published.1⟩⟩,
            { st5 with trace := st5.trace ++ published.2 }⟩

/-! ## Sample worlds -/

/-- A world in which `ytdl.getInfo` fails and the first candidate `yt-dlp` runs,
prints the path of the file it wrote and exits zero. -/
def metadataFailureWorld : World :=
  { validateURL := fun u =>
      startsWith u "https://youtu.be/" || startsWith u "https://www.youtube.com/watch?v="
    getInfo := fun _ => InfoResult.error "Sign in to confirm you are not a bot"
    progress := []
    videoEnd := VideoEnd.writeFinish
    audioEnd := AudioEnd.transcodeEnd
    outDir := "/srv/app/downloads"
    ffmpegBin := none
    launch := fun cmd _ =>
      if cmd = "yt-dlp" then
        ChildRun.exited (some 0) "/srv/app/downloads/Some_Video-ABC123.mp4\n"
          ["[download]  42.1% of 10.00MiB at 2.00MiB/s ETA 00:03"]
      else ChildRun.failed ⟨some "ENOENT", "spawn ENOENT"⟩
    dir := [⟨"Some_Video-ABC123.mp4", some ⟨true, 1700000000500⟩⟩]
    otherPaths := []
    s3 := none
    t0 := 1700000000000
    tInfo := 1700000000100
    tEnd := 1700000000200
    tDone := 1700000000900 }

/-- A world in which the metadata fetch succeeds, one progress event arrives,
the primary transfer then fails (stream error, ffmpeg error) and no candidate
of the tool can be started. -/
def transcodeFailureWorld : World :=
  { metadataFailureWorld with
    getInfo := fun _ => InfoResult.ok "Some: Video?" "ABC123"
    progress := [⟨50, 200, 1700000001100⟩]
    videoEnd := VideoEnd.streamError "Status code: 403"
    audioEnd := AudioEnd.transcodeError "ffmpeg exited with code 1"
    launch := fun _ _ => ChildRun.failed ⟨some "ENOENT", "spawn ENOENT"⟩
    dir := [] }

/-- A world in which the primary strategy succeeds. -/
def primarySuccessWorld : World :=
  { transcodeFailureWorld with
    videoEnd := VideoEnd.writeFinish
    audioEnd := AudioEnd.transcodeEnd }

/-- A request for `https://youtu.be/ABC123` at 320 kbit/s with job id `job-1`. -/
def sampleRequest : Request :=
  ⟨some "https://youtu.be/ABC123", some 320, some "job-1"⟩

/-! ## Descriptions used by the claims on the fallback -/

/-- The `spawn` call that a candidate loop makes for one candidate: the
arguments of the candidate, then the shared arguments, then the url. -/
def spawnCall (args : List String) (url : String) (c : Candidate) : Call :=
  Call.spawn c.cmd (c.args ++ args ++ [url])

/-- A world in which `yt-dlp` exists but may not be executed (`EACCES`) and
`python -m yt_dlp` would run and exit zero. -/
def permissionDeniedWorld : World :=
  { metadataFailureWorld with
    launch := fun cmd _ =>
      if cmd = "yt-dlp" then ChildRun.failed ⟨some "EACCES", "spawn yt-dlp EACCES"⟩
      else if cmd = "python" then
        ChildRun.exited (some 0) "/srv/app/downloads/Some_Video-ABC123.mp4\n" []
      else ChildRun.failed ⟨some "ENOENT", "spawn ENOENT"⟩ }

/-- A world in which `yt-dlp` is not installed and `python -m yt_dlp` runs,
writes the given stderr chunks and exits with code 1. -/
def toolFailsWorld (stderr : List String) : World :=
  { metadataFailureWorld with
    launch := fun cmd _ =>
      if cmd = "yt-dlp" then ChildRun.failed ⟨some "ENOENT", "spawn yt-dlp ENOENT"⟩
      else ChildRun.exited (some 1) "" stderr }

/-- A world in which the metadata fetch fails and `yt-dlp` exits zero after
printing only the name of an intermediate file that no longer exists, while the
output directory holds the finished file. -/
def staleStdoutWorld : World :=
  { metadataFailureWorld with
    launch := fun cmd _ =>
      if cmd = "yt-dlp" then
        ChildRun.exited (some 0) "/srv/app/downloads/Some_Video-ABC123.webm\n" []
      else ChildRun.failed ⟨some "ENOENT", "spawn ENOENT"⟩ }

/-- A world with remote storage configured and every upload succeeding. -/
def remoteStorageWorld : World :=
  { metadataFailureWorld with
    s3 := some ⟨"media-bucket", "eu-west-1", fun _ => true, false⟩ }

/-- A world in which `yt-dlp` exits zero without printing a path and the output
directory holds only a file written long before the job started. -/
def staleFileWorld : World :=
  { metadataFailureWorld with
    launch := fun cmd _ =>
      if cmd = "yt-dlp" then ChildRun.exited (some 0) "" []
      else ChildRun.failed ⟨some "ENOENT", "spawn ENOENT"⟩
    dir := [⟨"Old_Video-XYZ789.mp4", some ⟨true, 1600000000000⟩⟩] }

/-- A world in which a local ffmpeg binary is found. -/
def localFfmpegWorld : World :=
  { metadataFailureWorld with ffmpegBin := some "/usr/bin/ffmpeg" }

/-- A world in which the metadata fetch succeeds, ffmpeg then fails and `yt-dlp`
produces the audio file under the name it chooses itself. -/
def transcodeFallbackWorld : World :=
  { metadataFailureWorld with
    getInfo := fun _ => InfoResult.ok "Some: Video?" "ABC123"
    videoEnd := VideoEnd.streamError "Status code: 403"
    audioEnd := AudioEnd.transcodeError "ffmpeg exited with code 1"
    launch := fun cmd _ =>
      if cmd = "yt-dlp" then
        ChildRun.exited (some 0) "/srv/app/downloads/Some_Video-ABC123.mp3\n" []
      else ChildRun.failed ⟨some "ENOENT", "spawn ENOENT"⟩
    dir := [⟨"Some_Video-ABC123.mp3", some ⟨true, 1700000000500⟩⟩] }

/-- The three ways a run of the tool can end, in the words of the fallback
contract: it succeeded, no tool is available, or the tool ran and failed. -/
inductive RunClass
  | succeeded
  | unavailable
  | toolError
  deriving DecidableEq, Repr

/-- How a result of `runYtDlp` is read by its caller: `ok`, else the final
`yt-dlp not available` result (no exit code), else a failed run. -/
def classifyResult (r : SpawnResult) : RunClass :=
  if r.ok then RunClass.succeeded
  else if r.code.isSome then RunClass.toolError
  else RunClass.unavailable

/-- How the end of the streaming loop is read: a selected child, no child
selected, or an error thrown. -/
def classifyLoopEnd : LoopEnd → RunClass
  | LoopEnd.selected => RunClass.succeeded
  | LoopEnd.notSelected => RunClass.unavailable
  | LoopEnd.thrown _ => RunClass.toolError

/-! ## Descriptions used by the claim on the progress lines of the tool -/

/-- Two decimal digits. -/
def twoDigits (l : List Char) : Prop :=
  ∃ a b, l = [a, b] ∧ isDigit a = true ∧ isDigit b = true

/-- The text starts with `ETA`, white space and `MM:SS`. -/
def EtaAt (l mm ss : List Char) : Prop :=
  ∃ ws post, l = 'E' :: 'T' :: 'A' :: ws ++ mm ++ ':' :: ss ++ post ∧ ws ≠ [] ∧
    (∀ c ∈ ws, isJsSpace c = true) ∧ twoDigits mm ∧ twoDigits ss

/-- A percentage as the pattern takes it: one to three digits, or one to three
digits, a dot and one digit. -/
def isPercentage (p : List Char) : Prop :=
  ∃ ds, ds ≠ [] ∧ ds.length ≤ 3 ∧ (∀ c ∈ ds, isDigit c = true) ∧
    (p = ds ∨ ∃ f, isDigit f = true ∧ p = ds ++ ['.', f])

/-- The text starts with the percentage `m.percent` and `%`, and later on the
same line come `ETA`, white space and `m.minutes:m.seconds`. -/
def ProgressAt (l : List Char) (m : ProgressMatch) : Prop :=
  ∃ mid rest, l = m.percent ++ '%' :: (mid ++ rest) ∧ isPercentage m.percent ∧
    (∀ c ∈ mid, isLineTerminator c = false) ∧ EtaAt rest m.minutes m.seconds

/-- As `ProgressAt`, with the `ETA` taken at the first place after the `%` where
`ETA`, white space and `MM:SS` stand. -/
def FirstProgressAt (l : List Char) (m : ProgressMatch) : Prop :=
  ∃ mid rest, l = m.percent ++ '%' :: (mid ++ rest) ∧ isPercentage m.percent ∧
    (∀ c ∈ mid, isLineTerminator c = false) ∧ EtaAt rest m.minutes m.seconds ∧
    ∀ mid1 mid2 mm ss, mid = mid1 ++ mid2 → mid2 ≠ [] → ¬ EtaAt (mid2 ++ rest) mm ss

/-- The chunk contains a percentage followed on its line by `ETA`, white space
and `MM:SS`. -/
def ContainsProgress (l : List Char) : Prop :=
  ∃ pre rest m, l = pre ++ rest ∧ ProgressAt rest m

/-- A world in which `yt-dlp` starts and is ended by a signal (it closes without
an exit code) and `python -m yt_dlp` would run and exit zero. -/
def signalEndedWorld : World :=
  { metadataFailureWorld with
    launch := fun cmd _ =>
      if cmd = "yt-dlp" then ChildRun.exited none "" ["ERROR: interrupted"]
      else if cmd = "python" then
        ChildRun.exited (some 0) "/srv/app/downloads/Some_Video-ABC123.mp4\n" []
      else ChildRun.failed ⟨some "ENOENT", "spawn ENOENT"⟩ }

/-- A world in which `yt-dlp` starts, writes to stderr and is ended by a signal,
and no other candidate is installed. -/
def killedToolWorld : World :=
  { metadataFailureWorld with
    launch := fun cmd _ =>
      if cmd = "yt-dlp" then ChildRun.exited none "" ["ERROR: unable to download video data"]
      else ChildRun.failed ⟨some "ENOENT", "spawn ENOENT"⟩ }

/-- A run that ended without an exit code: the process could not be started, or
it started and was ended by a signal. -/
def ChildRun.noExitCode : ChildRun → Bool
  | .failed _ => true
  | .exited code _ _ => code.isNone

/-- Every snapshot of the registry stores a number as its percent. -/
def NumericPercent (reg : ProgressStates) : Prop :=
  ∀ id s, Assoc.get id reg = some s → ∃ q : ℚ, Obj.prop s "percent" = JSVal.num q

/-! ## Lemmas on association lists -/

theorem Assoc.get_set_same {α : Type} (k : String) (v : α) (l : List (String × α)) :
    Assoc.get k (Assoc.set k v l) = some v := by
  induction l with
  | nil => simp [Assoc.set, Assoc.get]
  | cons hd tl ih =>
    obtain ⟨k', v'⟩ := hd
    by_cases h : k' = k
    · simp [Assoc.set, Assoc.get, h]
    · simp [Assoc.set, Assoc.get, h, ih]

theorem Assoc.get_set_other {α : Type} (k j : String) (v : α) (l : List (String × α))
    (h : j ≠ k) : Assoc.get j (Assoc.set k v l) = Assoc.get j l := by
  induction l with
  | nil => simp [Assoc.set, Assoc.get, Ne.symm h]
  | cons hd tl ih =>
    obtain ⟨k', v'⟩ := hd
    by_cases h1 : k' = k
    · subst h1
      simp [Assoc.set, Assoc.get, Ne.symm h]
    · by_cases h2 : k' = j
      · subst h2
        simp [Assoc.set, Assoc.get, h1]
      · simp [Assoc.set, Assoc.get, h1, h2, ih]

theorem Assoc.get_eq_none_of_not_mem {α : Type} (k : String) (l : List (String × α))
    (h : k ∉ Assoc.keys l) : Assoc.get k l = none := by
  induction l with
  | nil => rfl
  | cons hd tl ih =>
    obtain ⟨k', v'⟩ := hd
    simp only [Assoc.keys, List.map_cons, List.mem_cons, not_or] at h
    have h1 : ¬ k' = k := fun e => h.1 e.symm
    simp only [Assoc.get, h1, if_false]
    exact ih h.2

/-- Reading a property of `{ ...target, ...source }`: the value in `source`
when `source` has the property, the value in `target` otherwise. -/
theorem Obj.get_spread (k : String) (source : Obj) (hs : Obj.WF source) (target : Obj) :
    Assoc.get k (Obj.spread target source) =
      (match Assoc.get k source with
       | some v => some v
       | none => Assoc.get k target) := by
  induction source generalizing target with
  | nil => simp [Obj.spread, Assoc.get]
  | cons hd tl ih =>
    obtain ⟨k0, v0⟩ := hd
    have hnd : k0 ∉ Assoc.keys tl ∧ Obj.WF tl := by
      simpa [Obj.WF, Assoc.keys] using hs
    have step : Obj.spread target ((k0, v0) :: tl) = Obj.spread (Assoc.set k0 v0 target) tl := rfl
    rw [step, ih hnd.2]
    by_cases hk : k0 = k
    · subst hk
      simp [Assoc.get, Assoc.get_eq_none_of_not_mem k0 tl hnd.1, Assoc.get_set_same]
    · have hk2 : k ≠ k0 := fun e => hk e.symm
      simp [Assoc.get, hk, Assoc.get_set_other k0 k v0 target hk2]

theorem get_initProgress_other (a b : String) (now : Int) (reg : ProgressStates)
    (h : a ≠ b) : Assoc.get b (initProgress a now reg) = Assoc.get b reg := by
  unfold initProgress
  split
  · rfl
  · exact Assoc.get_set_other a b _ reg (Ne.symm h)

theorem get_setProgress_other (a b : String) (p : Obj) (now : Int) (reg : ProgressStates)
    (h : a ≠ b) : Assoc.get b (setProgress a p now reg) = Assoc.get b reg := by
  unfold setProgress
  split
  · rfl
  · exact Assoc.get_set_other a b _ reg (Ne.symm h)

theorem get_finishProgress_other (a b : String) (ok : Bool) (details : Option Obj)
    (now : Int) (reg : ProgressStates) (h : a ≠ b) :
    Assoc.get b (finishProgress a ok details now reg) = Assoc.get b reg := by
  unfold finishProgress
  split
  · rfl
  · exact get_setProgress_other a b _ now reg h

theorem get_setProgress_same (id : String) (p : Obj) (now : Int) (reg : ProgressStates)
    (hid : id ≠ "") :
    Assoc.get id (setProgress id p now reg) =
      some (Obj.spread ((Assoc.get id reg).getD (startingSnapshot now)) p) := by
  simp [setProgress, hid, Assoc.get_set_same]

theorem finishMutation_WF (id : String) (ok : Bool) (details : Option Obj) (now : Int)
    (reg : ProgressStates) : Obj.WF (finishMutation id ok details now reg) := by
  cases details <;> simp [finishMutation, Obj.spread, Assoc.set, Obj.WF, Assoc.keys]

theorem get_finishMutation_status (id : String) (ok : Bool) (details : Option Obj)
    (now : Int) (reg : ProgressStates) :
    Assoc.get "status" (finishMutation id ok details now reg) =
      some (JSVal.str (if ok then "done" else "error")) := by
  cases details <;> simp [finishMutation, Obj.spread, Assoc.set, Assoc.get]

theorem get_finishMutation_percent (id : String) (ok : Bool) (details : Option Obj)
    (now : Int) (reg : ProgressStates) :
    Assoc.get "percent" (finishMutation id ok details now reg) =
      some (if ok then JSVal.num 100 else (storedPercent id reg).or (JSVal.num 0)) := by
  cases details <;> simp [finishMutation, Obj.spread, Assoc.set, Assoc.get]

theorem get_finishMutation_eta (id : String) (ok : Bool) (details : Option Obj)
    (now : Int) (reg : ProgressStates) :
    Assoc.get "etaSeconds" (finishMutation id ok details now reg) = some (JSVal.num 0) := by
  cases details <;> simp [finishMutation, Obj.spread, Assoc.set, Assoc.get]

theorem get_finishMutation_finishedAt (id : String) (ok : Bool) (details : Option Obj)
    (now : Int) (reg : ProgressStates) :
    Assoc.get "finishedAt" (finishMutation id ok details now reg) = some (JSVal.num now) := by
  cases details <;> simp [finishMutation, Obj.spread, Assoc.set, Assoc.get]

/-- The snapshot stored by `finishProgress` for a non-empty id: its four
stamped fields. -/
theorem finishProgress_fields (id : String) (ok : Bool) (details : Option Obj) (now : Int)
    (reg : ProgressStates) (hid : id ≠ "") :
    ∃ s, Assoc.get id (finishProgress id ok details now reg) = some s ∧
      Obj.prop s "status" = JSVal.str (if ok then "done" else "error") ∧
      Obj.prop s "percent" =
        (if ok then JSVal.num 100 else (storedPercent id reg).or (JSVal.num 0)) ∧
      Obj.prop s "etaSeconds" = JSVal.num 0 ∧
      Obj.prop s "finishedAt" = JSVal.num now := by
  refine ⟨Obj.spread ((Assoc.get id reg).getD (startingSnapshot now))
    (finishMutation id ok details now reg), ?_, ?_, ?_, ?_, ?_⟩
  · simp only [finishProgress, hid, if_false]
    exact get_setProgress_same id _ now reg hid
  all_goals
    simp only [Obj.prop, Obj.get_spread _ _ (finishMutation_WF id ok details now reg),
      get_finishMutation_status, get_finishMutation_percent, get_finishMutation_eta,
      get_finishMutation_finishedAt, Option.getD_some]

/-! ## Lemmas on the fallback -/

theorem runYtDlpLoop_trace (launch : String → List String → ChildRun) (url : String)
    (args : List String) (cs : List Candidate) :
    ∀ c ∈ (runYtDlpLoop launch url args cs).2, c.isToolStep = true := by
  induction cs with
  | nil => simp [runYtDlpLoop]
  | cons hd tl ih =>
    intro c hc
    simp only [runYtDlpLoop] at hc
    split at hc
    · simp only [List.mem_singleton] at hc
      subst hc
      rfl
    · split at hc
      · simp only [List.mem_singleton] at hc
        subst hc
        rfl
      · simp only [List.mem_cons] at hc
        rcases hc with hc | hc
        · subst hc
          rfl
        · exact ih c hc

theorem getFileUrl_trace (s3 : Option S3Config) (filePath filename : String) :
    ∀ c ∈ (getFileUrl s3 filePath filename).2, c.isToolStep = true := by
  intro c hc
  cases s3 with
  | none => simp [getFileUrl] at hc
  | some cfg =>
    by_cases h1 : cfg.uploadOk filePath = true <;> by_cases h2 : cfg.cleanupLocalFiles = true <;>
      simp [getFileUrl, h1, h2] at hc <;>
      first
        | (subst hc; rfl)
        | (rcases hc with rfl | rfl <;> rfl)

/-- The plain fallback leaves the registry alone and adds to the trace its own
invocation followed by tool steps only. -/
theorem downloadWithYtDlp_effect (w : World) (url : String) (audioOnly : Bool)
    (bitrate : Option Nat) (startMs : Int) (st : Sys) :
    (downloadWithYtDlp w url audioOnly bitrate startMs st).2.reg = st.reg ∧
    ∃ rest, (downloadWithYtDlp w url audioOnly bitrate startMs st).2.trace =
        st.trace ++ Call.downloadWithYtDlp url audioOnly (bitrate.getD 192) :: rest ∧
      ∀ c ∈ rest, c.isToolStep = true := by
  have hrun := runYtDlpLoop_trace w.launch url
    (modeArgs audioOnly (bitrate.getD 192) ++ baseArgs w.outDir w.ffmpegBin) commands
  unfold downloadWithYtDlp
  simp only [runYtDlp]
  split
  · exact ⟨rfl, _, by simp, hrun⟩
  · split
    · exact ⟨rfl, _, by simp, hrun⟩
    · refine ⟨rfl, _, by simp; rfl, ?_⟩
      intro c hc
      rcases List.mem_append.mp hc with h | h
      · exact hrun c h
      · exact getFileUrl_trace _ _ _ c h

theorem streamingLoop_trace (w : World) (url : String) (args : List String)
    (progressId : String) (cs : List Candidate) (stdout : String) (st : Sys) :
    ∃ rest, (streamingLoop w url args progressId cs stdout st).2.2.trace = st.trace ++ rest ∧
      ∀ c ∈ rest, c.isToolStep = true := by
  induction cs generalizing stdout st with
  | nil => exact ⟨[], by simp [streamingLoop], by simp⟩
  | cons hd tl ih =>
    simp only [streamingLoop]
    split
    · split
      · exact ⟨[Call.spawn hd.cmd (hd.args ++ args ++ [url])], rfl, by simp [Call.isToolStep]⟩
      · exact ⟨[Call.spawn hd.cmd (hd.args ++ args ++ [url])], rfl, by simp [Call.isToolStep]⟩
    · split
      · obtain ⟨rest, h1, h2⟩ := ih stdout
          { st with trace := st.trace ++ [Call.spawn hd.cmd (hd.args ++ args ++ [url])] }
        refine ⟨Call.spawn hd.cmd (hd.args ++ args ++ [url]) :: rest, ?_, ?_⟩
        · rw [h1]
          simp
        · intro c hc
          rcases List.mem_cons.mp hc with h | h
          · subst h
            rfl
          · exact h2 c h
      · exact ⟨[Call.spawn hd.cmd (hd.args ++ args ++ [url])], rfl, by simp [Call.isToolStep]⟩

/-- The streaming fallback adds to the trace its own invocation followed by
tool steps only. -/
theorem downloadWithYtDlpStreaming_trace (w : World) (url : String) (audioOnly : Bool)
    (bitrate : Option Nat) (progressId : String) (st : Sys) :
    ∃ rest, (downloadWithYtDlpStreaming w url audioOnly bitrate progressId st).2.trace =
        st.trace ++
          Call.downloadWithYtDlpStreaming url audioOnly (bitrate.getD 192) progressId :: rest ∧
      ∀ c ∈ rest, c.isToolStep = true := by
  obtain ⟨rest, h1, h2⟩ := streamingLoop_trace w url
    (modeArgs audioOnly (bitrate.getD 192) ++ baseArgs w.outDir w.ffmpegBin) progressId commands ""
    { st with trace := st.trace ++
        [Call.downloadWithYtDlpStreaming url audioOnly (bitrate.getD 192) progressId] }
  refine ⟨rest, ?_, h2⟩
  unfold downloadWithYtDlpStreaming
  simp only []
  split
  · simpa using h1
  · simpa using h1
  · split
    · simpa using h1
    · split <;> simpa using h1

/-- A successful streaming fallback for a non-empty id ends with the snapshot
of the id at status `done` and percent 100. -/
theorem downloadWithYtDlpStreaming_done (w : World) (url : String) (audioOnly : Bool)
    (bitrate : Option Nat) (id : String) (st : Sys) (o : Outcome) (hid : id ≠ "")
    (hok : (downloadWithYtDlpStreaming w url audioOnly bitrate id st).1 = Except.ok o) :
    ∃ s, Assoc.get id (downloadWithYtDlpStreaming w url audioOnly bitrate id st).2.reg = some s ∧
      Obj.prop s "status" = JSVal.str "done" ∧ Obj.prop s "percent" = JSVal.num 100 := by
  unfold downloadWithYtDlpStreaming at hok ⊢
  simp only [] at hok ⊢
  generalize streamingLoop w url (modeArgs audioOnly (bitrate.getD 192) ++
    baseArgs w.outDir w.ffmpegBin) id commands ""
    { st with trace := st.trace ++
      [Call.downloadWithYtDlpStreaming url audioOnly (bitrate.getD 192) id] } = L at hok ⊢
  obtain ⟨e, out, s1⟩ := L
  cases e with
  | thrown m => simp at hok
  | notSelected => simp at hok
  | selected =>
    simp only [] at hok ⊢
    cases hres : resolveOutputStreaming w audioOnly out with
    | none => simp [hres] at hok
    | some p =>
      obtain ⟨s, h1, h2, h3, _⟩ := finishProgress_fields id true none w.tDone s1.reg hid
      refine ⟨s, ?_, by simpa using h2, by simpa using h3⟩
      simp [hid, h1]

theorem withProgress_trace (progressId : Option String)
    (f : String → ProgressStates → ProgressStates) (st : Sys) :
    (withProgress progressId f st).trace = st.trace := by
  cases progressId <;> rfl

theorem withProgress_reg_some (id : String) (f : String → ProgressStates → ProgressStates)
    (st : Sys) : (withProgress (some id) f st).reg = f id st.reg := rfl

theorem beginJob_trace (w : World) (url : String) (progressId : Option String) (st : Sys) :
    (beginJob w url progressId st).trace = st.trace ++ [Call.getInfo url] := by
  simp [beginJob, withProgress_trace]

theorem truthyString_ne_empty (x : Option String) (id : String)
    (h : truthyString x = some id) : id ≠ "" := by
  cases x with
  | none => simp [truthyString] at h
  | some s =>
    by_cases hs : s = ""
    · simp [truthyString, hs] at h
    · simp only [truthyString, hs, if_false, Option.some.injEq] at h
      exact h ▸ hs

/-- A fallback run adds to the trace its own invocation, with the arguments it
was given, followed by tool steps only. -/
theorem runFallback_trace (w : World) (url : String) (audioOnly : Bool) (bitrate : Option Nat)
    (progressId : Option String) (startMs : Int) (st : Sys) :
    ∃ rest, (runFallback w url audioOnly bitrate progressId startMs st).2.trace =
        st.trace ++ fallbackCall url audioOnly (bitrate.getD 192) progressId :: rest ∧
      ∀ c ∈ rest, c.isToolStep = true := by
  cases progressId with
  | none => exact (downloadWithYtDlp_effect w url audioOnly bitrate startMs st).2
  | some id => exact downloadWithYtDlpStreaming_trace w url audioOnly bitrate id st

/-- A successful fallback run for a job with a non-empty id ends with the
snapshot of the job at status `done` and percent 100. -/
theorem runFallback_done (w : World) (url : String) (audioOnly : Bool) (bitrate : Option Nat)
    (id : String) (startMs : Int) (s0 s1 : Sys) (o : Outcome) (hid : id ≠ "")
    (h : runFallback w url audioOnly bitrate (some id) startMs s0 = (Except.ok o, s1)) :
    ∃ s, Assoc.get id s1.reg = some s ∧
      Obj.prop s "status" = JSVal.str "done" ∧ Obj.prop s "percent" = JSVal.num 100 := by
  have h1 : (downloadWithYtDlpStreaming w url audioOnly bitrate id s0).1 = Except.ok o := by
    simp only [runFallback] at h
    rw [h]
  have h2 : (downloadWithYtDlpStreaming w url audioOnly bitrate id s0).2 = s1 := by
    simp only [runFallback] at h
    rw [h]
  rw [← h2]
  exact downloadWithYtDlpStreaming_done w url audioOnly bitrate id s0 o hid h1

/-- After `finishProgress(id, true, ...)` for a non-empty id the snapshot has
status `done` and percent 100. -/
theorem finishProgress_ok_done (id : String) (details : Option Obj) (now : Int)
    (reg : ProgressStates) (hid : id ≠ "") :
    ∃ s, Assoc.get id (finishProgress id true details now reg) = some s ∧
      Obj.prop s "status" = JSVal.str "done" ∧ Obj.prop s "percent" = JSVal.num 100 := by
  obtain ⟨s, h1, h2, h3, _⟩ := finishProgress_fields id true details now reg hid
  exact ⟨s, h1, by simpa using h2, by simpa using h3⟩

/-! ## The progress registry: claims C1 to C6 -/

/-- C1: for a job id without an entry in the registry, the poll endpoint
answers the snapshot `{status: 'unknown'}` with status 200 and the SSE sender
writes that same snapshot; both are total functions and both leave the
registry as it was (the sender keeps its timer unless the write itself fails). -/
theorem progress_query_unknown (id : String) (reg : ProgressStates) (writeFails : Bool)
    (h : Assoc.get id reg = none) :
    getProgressJson id reg = (⟨200, [("status", JSVal.str "unknown")]⟩, reg) ∧
      (send id writeFails reg).frame = [("status", JSVal.str "unknown")] ∧
      (send id writeFails reg).timerCleared = writeFails ∧
      (send id writeFails reg).reg = reg := by
  simp [getProgressJson, send, currentState, unknownSnapshot, h, Obj.prop, Assoc.get]

/-- Witness of C1: a registry that holds `job-1` only, queried for `job-2`. -/
theorem progress_query_unknown_witness :
    Assoc.get "job-2" [("job-1", startingSnapshot 5)] = none ∧
      (getProgressJson "job-2" [("job-1", startingSnapshot 5)] =
          (⟨200, [("status", JSVal.str "unknown")]⟩, [("job-1", startingSnapshot 5)]) ∧
        (send "job-2" false [("job-1", startingSnapshot 5)]).frame =
          [("status", JSVal.str "unknown")] ∧
        (send "job-2" false [("job-1", startingSnapshot 5)]).timerCleared = false ∧
        (send "job-2" false [("job-1", startingSnapshot 5)]).reg =
          [("job-1", startingSnapshot 5)]) :=
  ⟨by decide, progress_query_unknown "job-2" [("job-1", startingSnapshot 5)] false (by decide)⟩

/-- C2: for a non-empty id whose snapshot is `s` and a patch object `p`, after
`setProgress(id, p)` the stored snapshot has the value of `p` for every
property that `p` names and the value of `s` (or its absence) for every
property that `p` does not name. -/
theorem setProgress_merges (id : String) (s p : Obj) (now : Int) (reg : ProgressStates)
    (hid : id ≠ "") (hs : Assoc.get id reg = some s) (hp : Obj.WF p) :
    ∃ t, Assoc.get id (setProgress id p now reg) = some t ∧
      (∀ k v, Assoc.get k p = some v → Assoc.get k t = some v) ∧
      (∀ k, Assoc.get k p = none → Assoc.get k t = Assoc.get k s) := by
  refine ⟨Obj.spread s p, ?_, ?_, ?_⟩
  · rw [get_setProgress_same id p now reg hid, hs]
    rfl
  · intro k v hk
    rw [Obj.get_spread k p hp s, hk]
  · intro k hk
    rw [Obj.get_spread k p hp s, hk]

/-- Witness of C2: a status and percent patch on a starting snapshot. -/
theorem setProgress_merges_witness :
    "job" ≠ "" ∧
      Assoc.get "job" [("job", startingSnapshot 5)] = some (startingSnapshot 5) ∧
      Obj.WF [("status", JSVal.str "downloading"), ("percent", JSVal.num 25)] ∧
      ∃ t, Assoc.get "job"
          (setProgress "job" [("status", JSVal.str "downloading"), ("percent", JSVal.num 25)]
            9 [("job", startingSnapshot 5)]) = some t ∧
        (∀ k v, Assoc.get k [("status", JSVal.str "downloading"), ("percent", JSVal.num 25)]
            = some v → Assoc.get k t = some v) ∧
        (∀ k, Assoc.get k [("status", JSVal.str "downloading"), ("percent", JSVal.num 25)]
            = none → Assoc.get k t = Assoc.get k (startingSnapshot 5)) :=
  ⟨by decide, by decide, by decide,
    setProgress_merges "job" (startingSnapshot 5)
      [("status", JSVal.str "downloading"), ("percent", JSVal.num 25)] 9
      [("job", startingSnapshot 5)] (by decide) (by decide) (by decide)⟩

/-- C3: for a non-empty id and every registry state in which the id has a snapshot
whose percent is a number (every snapshot that `initProgress`, the progress
listeners and `finishProgress` write is such), after
`finishProgress(id, ok, details)` the snapshot has status `done` when `ok` and
`error` otherwise, percent 100 when `ok` and otherwise exactly the percent it
had before the call, etaSeconds 0 and finishedAt equal to the time of the
call. -/
theorem finishProgress_terminal_fields (id : String) (ok : Bool) (details : Option Obj)
    (now : Int) (reg : ProgressStates) (before : Obj) (q : ℚ) (hid : id ≠ "")
    (hbefore : Assoc.get id reg = some before)
    (hq : Obj.prop before "percent" = JSVal.num q) :
    ∃ s, Assoc.get id (finishProgress id ok details now reg) = some s ∧
      Obj.prop s "status" = JSVal.str (if ok then "done" else "error") ∧
      Obj.prop s "percent" = (if ok then JSVal.num 100 else Obj.prop before "percent") ∧
      Obj.prop s "etaSeconds" = JSVal.num 0 ∧
      Obj.prop s "finishedAt" = JSVal.num now := by
  obtain ⟨s, h1, h2, h3, h4, h5⟩ := finishProgress_fields id ok details now reg hid
  refine ⟨s, h1, h2, ?_, h4, h5⟩
  rw [h3]
  cases ok with
  | true => rfl
  | false =>
    have hsp : storedPercent id reg = JSVal.num q := by
      simp [storedPercent, hbefore, hq]
    rw [hsp, hq]
    by_cases hz : q = 0
    · simp [JSVal.or, JSVal.truthy, hz]
    · simp [JSVal.or, JSVal.truthy, hz]

/-- C3 on a failed finish of a job stored at 40 percent and on one stored at 0
percent: the percent stays 40, respectively 0. -/
theorem finishProgress_terminal_fields_witness :
    ("job" ≠ "" ∧
      ∃ s, Assoc.get "job" (finishProgress "job" false (some [("error", JSVal.str "boom")]) 7
          [("job", [("status", JSVal.str "downloading"), ("percent", JSVal.num 40)])]) = some s ∧
        Obj.prop s "status" = JSVal.str "error" ∧
        Obj.prop s "percent" = JSVal.num 40 ∧
        Obj.prop s "etaSeconds" = JSVal.num 0 ∧
        Obj.prop s "finishedAt" = JSVal.num (7 : Int)) ∧
    (∃ s, Assoc.get "job" (finishProgress "job" false none 9 [("job", startingSnapshot 5)])
          = some s ∧
        Obj.prop s "status" = JSVal.str "error" ∧
        Obj.prop s "percent" = JSVal.num 0 ∧
        Obj.prop s "etaSeconds" = JSVal.num 0 ∧
        Obj.prop s "finishedAt" = JSVal.num (9 : Int)) :=
  ⟨⟨by decide, finishProgress_terminal_fields "job" false (some [("error", JSVal.str "boom")]) 7
      [("job", [("status", JSVal.str "downloading"), ("percent", JSVal.num 40)])]
      [("status", JSVal.str "downloading"), ("percent", JSVal.num 40)] 40 (by decide) rfl rfl⟩,
   finishProgress_terminal_fields "job" false none 9 [("job", startingSnapshot 5)]
      (startingSnapshot 5) 0 (by decide) rfl rfl⟩

/-- C4: for a non-empty id and every registry state, after two successive
`finishProgress(id, true, ...)` calls (whatever their details and times) the
snapshot has status `done`, percent 100 and etaSeconds 0, and these three
fields equal the ones stored after the first call. -/
theorem finishProgress_ok_twice (id : String) (d1 d2 : Option Obj) (t1 t2 : Int)
    (reg : ProgressStates) (hid : id ≠ "") :
    ∃ s1 s2, Assoc.get id (finishProgress id true d1 t1 reg) = some s1 ∧
      Assoc.get id (finishProgress id true d2 t2 (finishProgress id true d1 t1 reg)) = some s2 ∧
      Obj.prop s2 "status" = JSVal.str "done" ∧
      Obj.prop s2 "percent" = JSVal.num 100 ∧
      Obj.prop s2 "etaSeconds" = JSVal.num 0 ∧
      Obj.prop s2 "status" = Obj.prop s1 "status" ∧
      Obj.prop s2 "percent" = Obj.prop s1 "percent" ∧
      Obj.prop s2 "etaSeconds" = Obj.prop s1 "etaSeconds" := by
  obtain ⟨s1, a1, a2, a3, a4, _⟩ := finishProgress_fields id true d1 t1 reg hid
  obtain ⟨s2, b1, b2, b3, b4, _⟩ :=
    finishProgress_fields id true d2 t2 (finishProgress id true d1 t1 reg) hid
  simp only [if_true] at a2 a3 b2 b3
  exact ⟨s1, s2, a1, b1, b2, b3, b4, by rw [a2, b2], by rw [a3, b3], by rw [a4, b4]⟩

/-- Witness of C4: two successful finishes on an empty registry. -/
theorem finishProgress_ok_twice_witness :
    "job" ≠ "" ∧
      ∃ s1 s2, Assoc.get "job" (finishProgress "job" true none 7 []) = some s1 ∧
        Assoc.get "job" (finishProgress "job" true (some [("file", JSVal.str "a.mp4")]) 9
          (finishProgress "job" true none 7 [])) = some s2 ∧
        Obj.prop s2 "status" = JSVal.str "done" ∧
        Obj.prop s2 "percent" = JSVal.num 100 ∧
        Obj.prop s2 "etaSeconds" = JSVal.num 0 ∧
        Obj.prop s2 "status" = Obj.prop s1 "status" ∧
        Obj.prop s2 "percent" = Obj.prop s1 "percent" ∧
        Obj.prop s2 "etaSeconds" = Obj.prop s1 "etaSeconds" :=
  ⟨by decide, finishProgress_ok_twice "job" none (some [("file", JSVal.str "a.mp4")]) 7 9 []
    (by decide)⟩

/-- C5: for a non-empty id and every prior registry state, after
`initProgress(id)` the snapshot stored for the id is exactly
`{status: 'starting', percent: 0, etaSeconds: null, startedAt: now}`; it has
no `file`, `error` or `finishedAt` property. -/
theorem initProgress_snapshot (id : String) (now : Int) (reg : ProgressStates)
    (hid : id ≠ "") :
    Assoc.get id (initProgress id now reg) =
        some [("status", JSVal.str "starting"), ("percent", JSVal.num 0),
          ("etaSeconds", JSVal.null), ("startedAt", JSVal.num now)] ∧
      ∀ s, Assoc.get id (initProgress id now reg) = some s →
        Assoc.get "file" s = none ∧ Assoc.get "error" s = none ∧
        Assoc.get "finishedAt" s = none := by
  have h : Assoc.get id (initProgress id now reg) = some (startingSnapshot now) := by
    simp [initProgress, hid, Assoc.get_set_same]
  refine ⟨h, ?_⟩
  intro s hs
  rw [h] at hs
  cases hs
  simp [startingSnapshot, Assoc.get]

/-- Witness of C5: `initProgress` on an id that holds a terminal snapshot. -/
theorem initProgress_snapshot_witness :
    "job" ≠ "" ∧
      (Assoc.get "job" (initProgress "job" 12 (finishProgress "job" true none 7 [])) =
          some [("status", JSVal.str "starting"), ("percent", JSVal.num 0),
            ("etaSeconds", JSVal.null), ("startedAt", JSVal.num (12 : Int))] ∧
        ∀ s, Assoc.get "job" (initProgress "job" 12 (finishProgress "job" true none 7 [])) =
            some s →
          Assoc.get "file" s = none ∧ Assoc.get "error" s = none ∧
          Assoc.get "finishedAt" s = none) :=
  ⟨by decide, initProgress_snapshot "job" 12 (finishProgress "job" true none 7 []) (by decide)⟩

/-- C6: for distinct job ids `a` and `b` and every registry state, an
`initProgress`, `setProgress` or `finishProgress` call made for `a` leaves the
snapshot stored for `b`, or its absence, unchanged. -/
theorem progress_writes_are_per_id (a b : String) (p : Obj) (ok : Bool)
    (details : Option Obj) (now : Int) (reg : ProgressStates) (hab : a ≠ b) :
    Assoc.get b (initProgress a now reg) = Assoc.get b reg ∧
      Assoc.get b (setProgress a p now reg) = Assoc.get b reg ∧
      Assoc.get b (finishProgress a ok details now reg) = Assoc.get b reg :=
  ⟨get_initProgress_other a b now reg hab, get_setProgress_other a b p now reg hab,
    get_finishProgress_other a b ok details now reg hab⟩

/-- Witness of C6: writes for `job-1` next to a snapshot of `job-2`. -/
theorem progress_writes_are_per_id_witness :
    "job-1" ≠ "job-2" ∧
      (Assoc.get "job-2" (initProgress "job-1" 9 [("job-2", startingSnapshot 5)]) =
          Assoc.get "job-2" [("job-2", startingSnapshot 5)] ∧
        Assoc.get "job-2" (setProgress "job-1" [("percent", JSVal.num 50)] 9
            [("job-2", startingSnapshot 5)]) =
          Assoc.get "job-2" [("job-2", startingSnapshot 5)] ∧
        Assoc.get "job-2" (finishProgress "job-1" false none 9
            [("job-2", startingSnapshot 5)]) =
          Assoc.get "job-2" [("job-2", startingSnapshot 5)]) :=
  ⟨by decide, progress_writes_are_per_id "job-1" "job-2" [("percent", JSVal.num 50)] false none 9
    [("job-2", startingSnapshot 5)] (by decide)⟩

/-! ## The download handlers: claims C7 to C10 -/

/-- The streaming loop started with another trace: the same end, output and
registry, and the same calls added. -/
theorem streamingLoop_from (w : World) (url : String) (args : List String)
    (progressId : String) (cs : List Candidate) (stdout : String) (st : Sys)
    (tr : List Call) :
    streamingLoop w url args progressId cs stdout { st with trace := tr } =
      ((streamingLoop w url args progressId cs stdout { st with trace := [] }).1,
       (streamingLoop w url args progressId cs stdout { st with trace := [] }).2.1,
       { (streamingLoop w url args progressId cs stdout { st with trace := [] }).2.2 with
         trace := tr ++
           (streamingLoop w url args progressId cs stdout { st with trace := [] }).2.2.trace }) := by
  induction cs generalizing tr with
  | nil => simp [streamingLoop]
  | cons c tl ih =>
    simp only [streamingLoop]
    split
    · split <;> simp
    · split
      · rw [ih (tr ++ [Call.spawn c.cmd (c.args ++ args ++ [url])]),
          ih ([] ++ [Call.spawn c.cmd (c.args ++ args ++ [url])])]
        simp
      · simp

/-- The video fallback does not depend on the bitrate: for `audioOnly` false
the argument vector has no bitrate flag, so the plain variant invoked with any
bitrate gives the same result and registry and makes the same calls after its
own invocation as the one invoked without a bitrate. -/
theorem downloadWithYtDlp_video_any_bitrate (w : World) (url : String) (b : Option Nat)
    (startMs : Int) (st : Sys) :
    (downloadWithYtDlp w url false b startMs st).1 =
      (downloadWithYtDlp w url false none startMs st).1 ∧
    (downloadWithYtDlp w url false b startMs st).2.reg =
      (downloadWithYtDlp w url false none startMs st).2.reg ∧
    ∃ rest,
      (downloadWithYtDlp w url false b startMs st).2.trace =
        st.trace ++ Call.downloadWithYtDlp url false (b.getD 192) :: rest ∧
      (downloadWithYtDlp w url false none startMs st).2.trace =
        st.trace ++ Call.downloadWithYtDlp url false 192 :: rest := by
  have hargs : modeArgs false (b.getD 192) = modeArgs false ((none : Option Nat).getD 192) := rfl
  unfold downloadWithYtDlp
  simp only [hargs]
  split
  · exact ⟨rfl, rfl, (runYtDlp w.launch url
      (modeArgs false ((none : Option Nat).getD 192) ++ baseArgs w.outDir w.ffmpegBin)).2,
      by simp, by simp⟩
  · split
    · exact ⟨rfl, rfl, (runYtDlp w.launch url
        (modeArgs false ((none : Option Nat).getD 192) ++ baseArgs w.outDir w.ffmpegBin)).2,
        by simp, by simp⟩
    · rename_i resolvedPath _
      exact ⟨rfl, rfl, (runYtDlp w.launch url
        (modeArgs false ((none : Option Nat).getD 192) ++ baseArgs w.outDir w.ffmpegBin)).2 ++
          (getFileUrl w.s3 resolvedPath (basename resolvedPath)).2,
        by simp, by simp⟩

/-- The same for the streaming variant. -/
theorem downloadWithYtDlpStreaming_video_any_bitrate (w : World) (url : String)
    (b : Option Nat) (progressId : String) (st : Sys) :
    (downloadWithYtDlpStreaming w url false b progressId st).1 =
      (downloadWithYtDlpStreaming w url false none progressId st).1 ∧
    (downloadWithYtDlpStreaming w url false b progressId st).2.reg =
      (downloadWithYtDlpStreaming w url false none progressId st).2.reg ∧
    ∃ rest,
      (downloadWithYtDlpStreaming w url false b progressId st).2.trace =
        st.trace ++ Call.downloadWithYtDlpStreaming url false (b.getD 192) progressId :: rest ∧
      (downloadWithYtDlpStreaming w url false none progressId st).2.trace =
        st.trace ++ Call.downloadWithYtDlpStreaming url false 192 progressId :: rest := by
  have hargs : modeArgs false (b.getD 192) = modeArgs false ((none : Option Nat).getD 192) := rfl
  have h1 := streamingLoop_from w url
    (modeArgs false ((none : Option Nat).getD 192) ++ baseArgs w.outDir w.ffmpegBin) progressId
    commands "" st
    (st.trace ++ [Call.downloadWithYtDlpStreaming url false (b.getD 192) progressId])
  have h2 := streamingLoop_from w url
    (modeArgs false ((none : Option Nat).getD 192) ++ baseArgs w.outDir w.ffmpegBin) progressId
    commands "" st
    (st.trace ++ [Call.downloadWithYtDlpStreaming url false
      ((none : Option Nat).getD 192) progressId])
  unfold downloadWithYtDlpStreaming
  simp only [hargs]
  rw [h1, h2]
  simp only []
  split
  · exact ⟨rfl, rfl, (streamingLoop w url
      (modeArgs false ((none : Option Nat).getD 192) ++ baseArgs w.outDir w.ffmpegBin)
      progressId commands "" { st with trace := [] }).2.2.trace, by simp, by simp⟩
  · exact ⟨rfl, rfl, (streamingLoop w url
      (modeArgs false ((none : Option Nat).getD 192) ++ baseArgs w.outDir w.ffmpegBin)
      progressId commands "" { st with trace := [] }).2.2.trace, by simp, by simp⟩
  · split
    · exact ⟨rfl, rfl, (streamingLoop w url
        (modeArgs false ((none : Option Nat).getD 192) ++ baseArgs w.outDir w.ffmpegBin)
        progressId commands "" { st with trace := [] }).2.2.trace, by simp, by simp⟩
    · split
      · exact ⟨rfl, rfl, (streamingLoop w url
          (modeArgs false ((none : Option Nat).getD 192) ++ baseArgs w.outDir w.ffmpegBin)
          progressId commands "" { st with trace := [] }).2.2.trace, by simp, by simp⟩
      · exact ⟨rfl, rfl, (streamingLoop w url
          (modeArgs false ((none : Option Nat).getD 192) ++ baseArgs w.outDir w.ffmpegBin)
          progressId commands "" { st with trace := [] }).2.2.trace, by simp, by simp⟩

/-- The video fallback of a handler gives the same result for every bitrate. -/
theorem runFallback_video_any_bitrate (w : World) (url : String) (b : Option Nat)
    (progressId : Option String) (startMs : Int) (st : Sys) :
    (runFallback w url false b progressId startMs st).1 =
      (runFallback w url false none progressId startMs st).1 ∧
    (runFallback w url false b progressId startMs st).2.reg =
      (runFallback w url false none progressId startMs st).2.reg ∧
    ∃ rest,
      (runFallback w url false b progressId startMs st).2.trace =
        st.trace ++ fallbackCall url false (b.getD 192) progressId :: rest ∧
      (runFallback w url false none progressId startMs st).2.trace =
        st.trace ++ fallbackCall url false 192 progressId :: rest := by
  cases progressId with
  | none => exact downloadWithYtDlp_video_any_bitrate w url b startMs st
  | some id => exact downloadWithYtDlpStreaming_video_any_bitrate w url b id st

/-- C7: in both download endpoints, for a valid URL whose metadata fetch fails,
the calls of the handler are `getInfo`, then one fallback invocation with the
same url and kind (`audioOnly` false for `/api/download`, true for
`/api/download-mp3`), then steps of the tool only, so the primary stream is
never opened, and when the fallback succeeds the handler answers 200 with the
outcome of the fallback. `/api/download-mp3` passes the bitrate of the request
(192 when the request has none). `/api/download` has no bitrate parameter: its
fallback invocation names none, and since the video fallback gives the same
result, registry and tool steps for every bitrate, it is the fallback invoked
with the bitrate of the request, whatever the body holds. -/
theorem metadata_failure_runs_fallback (w : World) (req : Request) (st : Sys)
    (url message : String) (hurl : truthyString req.url = some url)
    (hvalid : w.validateURL url = true) (hinfo : w.getInfo url = InfoResult.error message) :
    (∃ rest, (postDownload w req st).sys.trace =
        st.trace ++ Call.getInfo url ::
          fallbackCall url false 192 (truthyString req.progressId) :: rest ∧
        (∀ c ∈ rest, c.isToolStep = true) ∧
        (runFallback w url false req.bitrate (truthyString req.progressId) w.tInfo
          (beginJob w url (truthyString req.progressId) st)).2.trace =
          st.trace ++ Call.getInfo url ::
            fallbackCall url false (req.bitrate.getD 192) (truthyString req.progressId) ::
              rest) ∧
    (∀ o, (runFallback w url false req.bitrate (truthyString req.progressId) w.tInfo
        (beginJob w url (truthyString req.progressId) st)).1 = Except.ok o →
      (postDownload w req st).response = ⟨200, o.toJson⟩ ∧
      (postDownload w req st).sys.reg =
        (runFallback w url false req.bitrate (truthyString req.progressId) w.tInfo
          (beginJob w url (truthyString req.progressId) st)).2.reg) ∧
    (∃ rest, (postDownloadMp3 w req st).sys.trace =
        st.trace ++ Call.getInfo url ::
          fallbackCall url true (req.bitrate.getD 192) (truthyString req.progressId) :: rest ∧
        ∀ c ∈ rest, c.isToolStep = true) ∧
    (∀ o s, runFallback w url true (some (req.bitrate.getD 192)) (truthyString req.progressId)
        w.tInfo (beginJob w url (truthyString req.progressId) st) = (Except.ok o, s) →
      (postDownloadMp3 w req st).response = ⟨200, o.toJson⟩) := by
  obtain ⟨hres, hreg, rest0, htb, htn⟩ := runFallback_video_any_bitrate w url req.bitrate
    (truthyString req.progressId) w.tInfo (beginJob w url (truthyString req.progressId) st)
  refine ⟨?_, ?_, ?_, ?_⟩
  · obtain ⟨rest, h1, h2⟩ := runFallback_trace w url false none (truthyString req.progressId)
      w.tInfo (beginJob w url (truthyString req.progressId) st)
    rw [beginJob_trace] at h1 htb htn
    have hrest : rest0 = rest := by
      rw [htn] at h1
      simpa using h1
    subst hrest
    refine ⟨rest0, ?_, h2, ?_⟩
    · simp only [postDownload, hurl, hvalid, hinfo]
      rcases hfb : runFallback w url false none (truthyString req.progressId) w.tInfo
        (beginJob w url (truthyString req.progressId) st) with ⟨r, s3⟩
      rw [hfb] at h1
      cases r <;> simpa [withProgress_trace] using h1
    · rw [htb]
      simp
  · intro o ho
    rw [hres] at ho
    rw [hreg]
    rcases hfb : runFallback w url false none (truthyString req.progressId) w.tInfo
      (beginJob w url (truthyString req.progressId) st) with ⟨r, s3⟩
    rw [hfb] at ho
    simp only at ho
    subst ho
    simp [postDownload, hurl, hvalid, hinfo, hfb]
  · obtain ⟨rest, h1, h2⟩ := runFallback_trace w url true (some (req.bitrate.getD 192))
      (truthyString req.progressId) w.tInfo (beginJob w url (truthyString req.progressId) st)
    refine ⟨rest, ?_, h2⟩
    rw [beginJob_trace] at h1
    simp only [postDownloadMp3, hurl, hvalid, hinfo]
    rcases hfb : runFallback w url true (some (req.bitrate.getD 192))
      (truthyString req.progressId) w.tInfo
      (beginJob w url (truthyString req.progressId) st) with ⟨r, s3⟩
    rw [hfb] at h1
    cases r <;> simpa [withProgress_trace] using h1
  · intro o s hfb
    simp [postDownloadMp3, hurl, hvalid, hinfo, hfb]

/-- C7 on the sample request, which holds `bitrate: 320`, in a world whose
metadata fetch fails: `/api/download` answers with the outcome of the video
fallback invoked with 320, and `/api/download-mp3` invokes the audio fallback
with 320. -/
theorem metadata_failure_runs_fallback_witness :
    truthyString sampleRequest.url = some "https://youtu.be/ABC123" ∧
    metadataFailureWorld.validateURL "https://youtu.be/ABC123" = true ∧
    metadataFailureWorld.getInfo "https://youtu.be/ABC123" =
      InfoResult.error "Sign in to confirm you are not a bot" ∧
    (runFallback metadataFailureWorld "https://youtu.be/ABC123" false (some 320) (some "job-1")
        metadataFailureWorld.tInfo
        (beginJob metadataFailureWorld "https://youtu.be/ABC123" (some "job-1") ⟨[], []⟩)).1 =
      Except.ok ⟨"/srv/app/downloads/Some_Video-ABC123.mp4", "Some_Video-ABC123.mp4",
        "/downloads/Some_Video-ABC123.mp4"⟩ ∧
    (postDownload metadataFailureWorld sampleRequest ⟨[], []⟩).response =
      ⟨200, Outcome.toJson ⟨"/srv/app/downloads/Some_Video-ABC123.mp4", "Some_Video-ABC123.mp4",
        "/downloads/Some_Video-ABC123.mp4"⟩⟩ ∧
    (∃ rest, (postDownloadMp3 metadataFailureWorld sampleRequest ⟨[], []⟩).sys.trace =
        ([] : List Call) ++ Call.getInfo "https://youtu.be/ABC123" ::
          fallbackCall "https://youtu.be/ABC123" true 320 (some "job-1") :: rest ∧
        ∀ c ∈ rest, c.isToolStep = true) := by
  have hfb : (runFallback metadataFailureWorld "https://youtu.be/ABC123" false (some 320)
      (some "job-1") metadataFailureWorld.tInfo
      (beginJob metadataFailureWorld "https://youtu.be/ABC123" (some "job-1") ⟨[], []⟩)).1 =
      Except.ok ⟨"/srv/app/downloads/Some_Video-ABC123.mp4", "Some_Video-ABC123.mp4",
        "/downloads/Some_Video-ABC123.mp4"⟩ := rfl
  obtain ⟨_, h2, h3, _⟩ := metadata_failure_runs_fallback metadataFailureWorld sampleRequest
    ⟨[], []⟩ "https://youtu.be/ABC123" "Sign in to confirm you are not a bot" (by decide) rfl rfl
  exact ⟨by decide, rfl, rfl, hfb, (h2 _ hfb).1, h3⟩

/-- C8 at its failing input: in `POST /api/download-mp3`, when ffmpeg fails with
`ffmpeg exited with code 1` and no candidate of the tool can be started, the
response is 500 with only the message of the fallback, in which the message of
the primary error does not occur; the snapshot of the job ends with status
`error`. -/
theorem mp3_transcode_failure_drops_primary_message :
    (postDownloadMp3 transcodeFailureWorld sampleRequest ⟨[], []⟩).response =
      ⟨500, [("error", JSVal.str "yt-dlp not available or failed")]⟩ ∧
    ¬ ("ffmpeg exited with code 1".data <:+: "yt-dlp not available or failed".data) ∧
    (Assoc.get "job-1"
      (postDownloadMp3 transcodeFailureWorld sampleRequest ⟨[], []⟩).sys.reg).map
        (fun s => Obj.prop s "status") = some (JSVal.str "error") ∧
    (postDownload transcodeFailureWorld sampleRequest ⟨[], []⟩).response =
      ⟨500, [("error", JSVal.str
        "Download failed: Status code: 403; yt-dlp fallback failed: yt-dlp not available or failed")]⟩ := by
  decide

/-- C9: for a job submitted with a job id, whenever a download handler answers
200 (the primary strategy succeeded, or the fallback succeeded after a
metadata, stream, write or transcode error), the snapshot of the job at that
moment has status `done` and percent 100. -/
theorem success_response_snapshot_done (w : World) (req : Request) (st : Sys) (id : String)
    (hid : truthyString req.progressId = some id) :
    ((postDownload w req st).response.status = 200 →
      ∃ s, Assoc.get id (postDownload w req st).sys.reg = some s ∧
        Obj.prop s "status" = JSVal.str "done" ∧ Obj.prop s "percent" = JSVal.num 100) ∧
    ((postDownloadMp3 w req st).response.status = 200 →
      ∃ s, Assoc.get id (postDownloadMp3 w req st).sys.reg = some s ∧
        Obj.prop s "status" = JSVal.str "done" ∧ Obj.prop s "percent" = JSVal.num 100) := by
  have hne : id ≠ "" := truthyString_ne_empty _ _ hid
  refine ⟨?_, ?_⟩
  · intro h200
    cases hu : truthyString req.url with
    | none => simp [postDownload, hu] at h200
    | some url =>
      cases hv : w.validateURL url with
      | false => simp [postDownload, hu, hv] at h200
      | true =>
        cases hi : w.getInfo url with
        | error m =>
          rcases hfb : runFallback w url false none (some id) w.tInfo
            (beginJob w url (some id) st) with ⟨r, s3⟩
          cases r with
          | error e => simp [postDownload, hu, hv, hi, hid, hfb] at h200
          | ok o =>
            simp only [postDownload, hu, hv, hi, hid, hfb, Bool.not_true, Bool.false_eq_true, if_false]
            exact runFallback_done w url false none id w.tInfo _ s3 o hne hfb
        | ok title videoId =>
          cases he : w.videoEnd with
          | writeFinish =>
            simp only [postDownload, hu, hv, hi, hid, he, withProgress_reg_some, Bool.not_true, Bool.false_eq_true, if_false]
            exact finishProgress_ok_done id _ w.tEnd _ hne
          | streamError m =>
            simp only [postDownload, hu, hv, hi, hid, he, Bool.not_true, Bool.false_eq_true, if_false] at h200 ⊢
            split at h200
            · rename_i o s5 hfb
              simp only [hfb]
              exact runFallback_done w url false none id w.tEnd _ s5 o hne hfb
            · simp at h200
          | writeError m =>
            simp only [postDownload, hu, hv, hi, hid, he, Bool.not_true, Bool.false_eq_true, if_false] at h200 ⊢
            split at h200
            · rename_i o s5 hfb
              simp only [hfb]
              exact runFallback_done w url false none id w.tEnd _ s5 o hne hfb
            · simp at h200
  · intro h200
    cases hu : truthyString req.url with
    | none => simp [postDownloadMp3, hu] at h200
    | some url =>
      cases hv : w.validateURL url with
      | false => simp [postDownloadMp3, hu, hv] at h200
      | true =>
        cases hi : w.getInfo url with
        | error m =>
          simp only [postDownloadMp3, hu, hv, hi, hid, Bool.not_true, Bool.false_eq_true, if_false] at h200 ⊢
          split at h200
          · rename_i o s3 hfb
            simp only [hfb, withProgress_reg_some]
            exact finishProgress_ok_done id _ w.tDone _ hne
          · simp at h200
        | ok title videoId =>
          cases he : w.audioEnd with
          | transcodeEnd =>
            simp only [postDownloadMp3, hu, hv, hi, hid, he, withProgress_reg_some, Bool.not_true, Bool.false_eq_true, if_false]
            exact finishProgress_ok_done id _ w.tEnd _ hne
          | transcodeError m =>
            simp only [postDownloadMp3, hu, hv, hi, hid, he, Bool.not_true, Bool.false_eq_true, if_false] at h200 ⊢
            split at h200
            · rename_i o s5 hfb
              simp only [hfb, withProgress_reg_some]
              exact finishProgress_ok_done id _ w.tDone _ hne
            · simp at h200

/-- Witness of C9: the sample request served by the fallback. -/
theorem success_response_snapshot_done_witness :
    truthyString sampleRequest.progressId = some "job-1" ∧
    (((postDownload metadataFailureWorld sampleRequest ⟨[], []⟩).response.status = 200 →
      ∃ s, Assoc.get "job-1" (postDownload metadataFailureWorld sampleRequest ⟨[], []⟩).sys.reg =
          some s ∧
        Obj.prop s "status" = JSVal.str "done" ∧ Obj.prop s "percent" = JSVal.num 100) ∧
    ((postDownloadMp3 metadataFailureWorld sampleRequest ⟨[], []⟩).response.status = 200 →
      ∃ s, Assoc.get "job-1"
          (postDownloadMp3 metadataFailureWorld sampleRequest ⟨[], []⟩).sys.reg = some s ∧
        Obj.prop s "status" = JSVal.str "done" ∧ Obj.prop s "percent" = JSVal.num 100)) :=
  ⟨by decide,
    success_response_snapshot_done metadataFailureWorld sampleRequest ⟨[], []⟩ "job-1"
      (by decide)⟩

/-- C10: for a request whose url is missing, empty or rejected by
`ytdl.validateURL`, both download endpoints answer status 400 with
`{error: 'Invalid URL'}` and leave the server as it was: the registry is
unchanged, also when a job id is supplied, and no call is made (neither
`getInfo`, nor the primary stream, nor the fallback). -/
theorem invalid_url_rejected (w : World) (req : Request) (st : Sys)
    (h : ∀ u, req.url = some u → u = "" ∨ w.validateURL u = false) :
    postDownload w req st = ⟨⟨400, [("error", JSVal.str "Invalid URL")]⟩, st⟩ ∧
    postDownloadMp3 w req st = ⟨⟨400, [("error", JSVal.str "Invalid URL")]⟩, st⟩ := by
  cases hu : req.url with
  | none => simp [postDownload, postDownloadMp3, hu, truthyString, errorBody]
  | some u =>
    rcases h u hu with h0 | hv
    · simp [postDownload, postDownloadMp3, hu, truthyString, h0, errorBody]
    · by_cases h0 : u = ""
      · simp [postDownload, postDownloadMp3, hu, truthyString, h0, errorBody]
      · simp [postDownload, postDownloadMp3, hu, truthyString, h0, hv, errorBody]

/-- Witness of C10: a URL that the validity predicate rejects, with a job id. -/
theorem invalid_url_rejected_witness :
    (∀ u, (⟨some "https://example.com/video", some 320, some "job-1"⟩ : Request).url = some u →
      u = "" ∨ metadataFailureWorld.validateURL u = false) ∧
    (postDownload metadataFailureWorld ⟨some "https://example.com/video", some 320, some "job-1"⟩
        ⟨[("job-1", startingSnapshot 5)], []⟩ =
      ⟨⟨400, [("error", JSVal.str "Invalid URL")]⟩, ⟨[("job-1", startingSnapshot 5)], []⟩⟩ ∧
    postDownloadMp3 metadataFailureWorld
        ⟨some "https://example.com/video", some 320, some "job-1"⟩
        ⟨[("job-1", startingSnapshot 5)], []⟩ =
      ⟨⟨400, [("error", JSVal.str "Invalid URL")]⟩, ⟨[("job-1", startingSnapshot 5)], []⟩⟩) :=
  ⟨fun u hu => by cases hu; exact Or.inr (by decide),
    invalid_url_rejected metadataFailureWorld
      ⟨some "https://example.com/video", some 320, some "job-1"⟩
      ⟨[("job-1", startingSnapshot 5)], []⟩
      (fun u hu => by cases hu; exact Or.inr (by decide))⟩

/-! ## Lemmas on the candidate loops -/

/-- In `runYtDlp`, candidates that fail to start are passed over: the loop goes
on with the candidates after them. -/
theorem runYtDlpLoop_append (launch : String → List String → ChildRun) (url : String)
    (args : List String) (pre rest : List Candidate)
    (hpre : ∀ p ∈ pre, ∃ err, launch p.cmd (p.args ++ args ++ [url]) = ChildRun.failed err) :
    runYtDlpLoop launch url args (pre ++ rest) =
      ((runYtDlpLoop launch url args rest).1,
        pre.map (spawnCall args url) ++ (runYtDlpLoop launch url args rest).2) := by
  induction pre with
  | nil => simp
  | cons p tl ih =>
    obtain ⟨err, herr⟩ := hpre p (List.mem_cons_self p tl)
    have ih2 := ih (fun q hq => hpre q (List.mem_cons_of_mem p hq))
    simp only [List.cons_append, runYtDlpLoop, spawnOnce, herr, List.map_cons, spawnCall]
    simp [ih2]

/-- In `runYtDlp`, a candidate that closes with an exit code ends the loop. -/
theorem runYtDlpLoop_exited (launch : String → List String → ChildRun) (url : String)
    (args : List String) (c : Candidate) (post : List Candidate) (k : Int) (out : String)
    (err : List String)
    (h : launch c.cmd (c.args ++ args ++ [url]) = ChildRun.exited (some k) out err) :
    runYtDlpLoop launch url args (c :: post) =
      ({ ok := decide (k = 0), code := some k, error := none, stdout := out,
         stderr := String.join err }, [spawnCall args url c]) := by
  simp only [runYtDlpLoop, spawnOnce, h, spawnCall]
  by_cases hk : k = 0
  · simp [hk]
  · simp [hk]

/-- In the streaming loop, candidates that are not found (`ENOENT`) are passed
over: the loop goes on with the candidates after them. -/
theorem streamingLoop_append (w : World) (url : String) (args : List String)
    (progressId : String) (pre rest : List Candidate) (stdout : String) (st : Sys)
    (hpre : ∀ p ∈ pre, ∃ m,
      w.launch p.cmd (p.args ++ args ++ [url]) = ChildRun.failed ⟨some "ENOENT", m⟩) :
    streamingLoop w url args progressId (pre ++ rest) stdout st =
      streamingLoop w url args progressId rest stdout
        { st with trace := st.trace ++ pre.map (spawnCall args url) } := by
  induction pre generalizing st with
  | nil => simp
  | cons p tl ih =>
    obtain ⟨m, hm⟩ := hpre p (List.mem_cons_self p tl)
    have htl : ∀ q ∈ tl, ∃ m,
        w.launch q.cmd (q.args ++ args ++ [url]) = ChildRun.failed ⟨some "ENOENT", m⟩ :=
      fun q hq => hpre q (List.mem_cons_of_mem p hq)
    simp only [List.cons_append, streamingLoop, hm, List.map_cons, if_true, List.append_eq]
    rw [ih _ htl]
    simp [spawnCall]

/-- In the streaming loop, a candidate that closes ends the loop: selected on
exit code 0, the error `yt-dlp failed` otherwise. -/
theorem streamingLoop_exited (w : World) (url : String) (args : List String)
    (progressId : String) (c : Candidate) (post : List Candidate) (stdout : String) (st : Sys)
    (code : Option Int) (out : String) (err : List String)
    (h : w.launch c.cmd (c.args ++ args ++ [url]) = ChildRun.exited code out err) :
    streamingLoop w url args progressId (c :: post) stdout st =
      (if code = some 0 then LoopEnd.selected else LoopEnd.thrown "yt-dlp failed",
        stdout ++ out,
        { reg := err.foldl (fun r text => onStderrData progressId text w.tDone r) st.reg,
          trace := st.trace ++ [spawnCall args url c] }) := by
  simp only [streamingLoop, h, spawnCall]
  by_cases hc : code = some 0
  · simp [hc]
  · simp [hc]

/-- In the streaming loop, a candidate that fails to start for another reason
than `ENOENT` ends the loop: its error is thrown. -/
theorem streamingLoop_failed (w : World) (url : String) (args : List String)
    (progressId : String) (c : Candidate) (post : List Candidate) (stdout : String) (st : Sys)
    (e : JsError) (h : w.launch c.cmd (c.args ++ args ++ [url]) = ChildRun.failed e)
    (hcode : e.code ≠ some "ENOENT") :
    streamingLoop w url args progressId (c :: post) stdout st =
      (LoopEnd.thrown e.message, stdout,
        { st with trace := st.trace ++ [spawnCall args url c] }) := by
  simp only [streamingLoop, h, spawnCall]
  simp [hcode]

/-- Whatever a candidate does, `runYtDlp` has spawned it once the loop reaches
it. -/
theorem runYtDlpLoop_spawns_head (launch : String → List String → ChildRun) (url : String)
    (args : List String) (c : Candidate) (post : List Candidate) :
    ∃ rest, (runYtDlpLoop launch url args (c :: post)).2 = spawnCall args url c :: rest := by
  simp only [runYtDlpLoop, spawnCall]
  split
  · exact ⟨[], rfl⟩
  · split
    · exact ⟨[], rfl⟩
    · exact ⟨_, rfl⟩

/-- Whatever a candidate does, the streaming loop has spawned it once the loop
reaches it. -/
theorem streamingLoop_spawns_head (w : World) (url : String) (args : List String)
    (progressId : String) (c : Candidate) (post : List Candidate) (stdout : String) (st : Sys) :
    ∃ rest, (streamingLoop w url args progressId (c :: post) stdout st).2.2.trace =
      st.trace ++ spawnCall args url c :: rest := by
  simp only [streamingLoop, spawnCall]
  split
  · split
    · exact ⟨[], rfl⟩
    · exact ⟨[], rfl⟩
  · split
    · obtain ⟨rest, h, _⟩ := streamingLoop_trace w url args progressId post stdout
        { st with trace := st.trace ++ [Call.spawn c.cmd (c.args ++ args ++ [url])] }
      exact ⟨rest, by rw [h]; simp⟩
    · exact ⟨[], rfl⟩

/-! ## The candidate loops: claims C11 and C12 -/

/-- C11 at its failing inputs. When `yt-dlp` fails to start with `EACCES`, the
streaming loop throws that error and launches no further candidate, although
`python -m yt_dlp` would have run and exited zero; `runYtDlp` does try it next
and succeeds. When `yt-dlp` starts and is ended by a signal (no exit code),
`runYtDlp` does not stop: it launches `python -m yt_dlp` as well, while the
streaming loop stops with `yt-dlp failed`. -/
theorem streaming_loop_stops_on_spawn_error :
    streamingLoop permissionDeniedWorld "https://youtu.be/ABC123" [] "job-1" commands ""
        ⟨[], []⟩ =
      (LoopEnd.thrown "spawn yt-dlp EACCES", "",
        ⟨[], [Call.spawn "yt-dlp" ["https://youtu.be/ABC123"]]⟩) ∧
    (runYtDlp permissionDeniedWorld.launch "https://youtu.be/ABC123" []).2 =
      [Call.spawn "yt-dlp" ["https://youtu.be/ABC123"],
       Call.spawn "python" ["-m", "yt_dlp", "https://youtu.be/ABC123"]] ∧
    (runYtDlp permissionDeniedWorld.launch "https://youtu.be/ABC123" []).1.ok = true ∧
    (runYtDlp signalEndedWorld.launch "https://youtu.be/ABC123" []).2 =
      [Call.spawn "yt-dlp" ["https://youtu.be/ABC123"],
       Call.spawn "python" ["-m", "yt_dlp", "https://youtu.be/ABC123"]] ∧
    (runYtDlp signalEndedWorld.launch "https://youtu.be/ABC123" []).1.ok = true ∧
    ((streamingLoop signalEndedWorld "https://youtu.be/ABC123" [] "" commands "" ⟨[], []⟩).1,
      (streamingLoop signalEndedWorld "https://youtu.be/ABC123" [] "" commands ""
        ⟨[], []⟩).2.2.trace) =
      (LoopEnd.thrown "yt-dlp failed", [Call.spawn "yt-dlp" ["https://youtu.be/ABC123"]]) := by
  decide

/-- Where the two candidate loops follow the same rules: both go through the
fixed list `yt-dlp`, `python -m yt_dlp`, `python3 -m yt_dlp`, `py -3 -m yt_dlp`
in this order. When every candidate before `c` failed to start (`runYtDlp`),
respectively failed to start with `ENOENT` (streaming loop), the loop launches
exactly those candidates and then `c`; if `c` closes with an exit code the loop
stops there: it succeeds on code 0 and surfaces the failure otherwise. In the
streaming loop a candidate that fails to start for another reason than `ENOENT`
also stops the loop, which throws that error. -/
theorem candidate_loops_order_and_stop (w : World) (url : String) (args : List String)
    (progressId stdout : String) (st : Sys) (pre post : List Candidate) (c : Candidate)
    (hsplit : commands = pre ++ c :: post) :
    commands = [⟨"yt-dlp", []⟩, ⟨"python", ["-m", "yt_dlp"]⟩, ⟨"python3", ["-m", "yt_dlp"]⟩,
      ⟨"py", ["-3", "-m", "yt_dlp"]⟩] ∧
    ((∀ p ∈ pre, ∃ e, w.launch p.cmd (p.args ++ args ++ [url]) = ChildRun.failed e) →
      (∃ rest, (runYtDlp w.launch url args).2 =
        (pre ++ [c]).map (spawnCall args url) ++ rest) ∧
      (∀ k out err,
        w.launch c.cmd (c.args ++ args ++ [url]) = ChildRun.exited (some k) out err →
        runYtDlp w.launch url args =
          ({ ok := decide (k = 0), code := some k, error := none, stdout := out,
             stderr := String.join err }, (pre ++ [c]).map (spawnCall args url)))) ∧
    ((∀ p ∈ pre, ∃ m,
        w.launch p.cmd (p.args ++ args ++ [url]) = ChildRun.failed ⟨some "ENOENT", m⟩) →
      (∃ rest, (streamingLoop w url args progressId commands stdout st).2.2.trace =
        st.trace ++ (pre ++ [c]).map (spawnCall args url) ++ rest) ∧
      (∀ k out err,
        w.launch c.cmd (c.args ++ args ++ [url]) = ChildRun.exited (some k) out err →
        (streamingLoop w url args progressId commands stdout st).1 =
            (if k = 0 then LoopEnd.selected else LoopEnd.thrown "yt-dlp failed") ∧
          (streamingLoop w url args progressId commands stdout st).2.2.trace =
            st.trace ++ (pre ++ [c]).map (spawnCall args url)) ∧
      (∀ e, w.launch c.cmd (c.args ++ args ++ [url]) = ChildRun.failed e →
        e.code ≠ some "ENOENT" →
        (streamingLoop w url args progressId commands stdout st).1 = LoopEnd.thrown e.message ∧
          (streamingLoop w url args progressId commands stdout st).2.2.trace =
            st.trace ++ (pre ++ [c]).map (spawnCall args url))) := by
  refine ⟨rfl, ?_, ?_⟩
  · intro hpre
    have happ := runYtDlpLoop_append w.launch url args pre (c :: post) hpre
    refine ⟨?_, ?_⟩
    · obtain ⟨rest, hrest⟩ := runYtDlpLoop_spawns_head w.launch url args c post
      refine ⟨rest, ?_⟩
      rw [runYtDlp, hsplit, happ, hrest]
      simp
    · intro k out err hc
      rw [runYtDlp, hsplit, happ, runYtDlpLoop_exited w.launch url args c post k out err hc]
      simp
  · intro hpre
    have happ := streamingLoop_append w url args progressId pre (c :: post) stdout st hpre
    refine ⟨?_, ?_, ?_⟩
    · obtain ⟨rest, hrest⟩ := streamingLoop_spawns_head w url args progressId c post stdout
        { st with trace := st.trace ++ pre.map (spawnCall args url) }
      refine ⟨rest, ?_⟩
      rw [hsplit, happ, hrest]
      simp
    · intro k out err hc
      rw [hsplit, happ, streamingLoop_exited w url args progressId c post stdout _ (some k) out
        err hc]
      by_cases hk : k = 0 <;> simp [hk]
    · intro e he hcode
      rw [hsplit, happ, streamingLoop_failed w url args progressId c post stdout _ e he hcode]
      simp

/-- Appending to the same prefix keeps different texts different. -/
theorem append_left_ne (p a b : String) (h : a ≠ b) : p ++ a ≠ p ++ b := by
  intro heq
  apply h
  have hd : (p ++ a).data = (p ++ b).data := by rw [heq]
  simp only [String.data_append] at hd
  exact String.ext (List.append_cancel_left hd)

/-- The plain fallback when no candidate can be started. -/
theorem downloadWithYtDlp_not_found (w : World) (url : String) (audioOnly : Bool)
    (bitrate : Option Nat) (startMs : Int) (st : Sys)
    (h : ∀ c ∈ commands, ∃ m, w.launch c.cmd
      (c.args ++ (modeArgs audioOnly (bitrate.getD 192) ++ baseArgs w.outDir w.ffmpegBin) ++ [url]) =
        ChildRun.failed ⟨some "ENOENT", m⟩) :
    (downloadWithYtDlp w url audioOnly bitrate startMs st).1 =
      Except.error "yt-dlp failed: yt-dlp not available" := by
  have happ := runYtDlpLoop_append w.launch url
    (modeArgs audioOnly (bitrate.getD 192) ++ baseArgs w.outDir w.ffmpegBin) commands []
    (fun p hp => by
      obtain ⟨m, hm⟩ := h p hp
      exact ⟨_, hm⟩)
  rw [List.append_nil] at happ
  have hrun : (runYtDlp w.launch url
      (modeArgs audioOnly (bitrate.getD 192) ++ baseArgs w.outDir w.ffmpegBin)).1 =
      { ok := false, code := none, error := some ⟨none, "yt-dlp not available"⟩,
        stdout := "", stderr := "" } := by
    rw [runYtDlp, happ]
    rfl
  simp only [downloadWithYtDlp, hrun, toolFailureMessage, Bool.not_false, if_true]
  have hmsg : ("yt-dlp failed: " ++ if "" ≠ "" then "" else "yt-dlp not available") =
      "yt-dlp failed: yt-dlp not available" := by decide
  rw [hmsg]

/-- The plain fallback when a candidate, reached after candidates that were not
found, exits with a non-zero code. -/
theorem downloadWithYtDlp_tool_failed (w : World) (url : String) (audioOnly : Bool)
    (bitrate : Option Nat) (startMs : Int) (st : Sys) (pre post : List Candidate)
    (c : Candidate) (k : Int) (out : String) (err : List String)
    (hsplit : commands = pre ++ c :: post)
    (hpre : ∀ p ∈ pre, ∃ m, w.launch p.cmd
      (p.args ++ (modeArgs audioOnly (bitrate.getD 192) ++ baseArgs w.outDir w.ffmpegBin) ++ [url]) =
        ChildRun.failed ⟨some "ENOENT", m⟩)
    (hc : w.launch c.cmd
      (c.args ++ (modeArgs audioOnly (bitrate.getD 192) ++ baseArgs w.outDir w.ffmpegBin) ++ [url]) =
        ChildRun.exited (some k) out err)
    (hk : k ≠ 0) :
    (downloadWithYtDlp w url audioOnly bitrate startMs st).1 =
      Except.error ("yt-dlp failed: " ++
        (if String.join err ≠ "" then String.join err else "Unknown error")) := by
  have happ := runYtDlpLoop_append w.launch url
    (modeArgs audioOnly (bitrate.getD 192) ++ baseArgs w.outDir w.ffmpegBin) pre (c :: post)
    (fun p hp => by
      obtain ⟨m, hm⟩ := hpre p hp
      exact ⟨_, hm⟩)
  rw [runYtDlpLoop_exited w.launch url _ c post k out err hc] at happ
  have hrun : (runYtDlp w.launch url
      (modeArgs audioOnly (bitrate.getD 192) ++ baseArgs w.outDir w.ffmpegBin)).1 =
      { ok := decide (k = 0), code := some k, error := none, stdout := out,
        stderr := String.join err } := by
    rw [runYtDlp, hsplit, happ]
  simp only [downloadWithYtDlp, hrun, toolFailureMessage]
  simp [hk]

/-- The streaming fallback when no candidate can be started. -/
theorem downloadWithYtDlpStreaming_not_found (w : World) (url : String) (audioOnly : Bool)
    (bitrate : Option Nat) (progressId : String) (st : Sys)
    (h : ∀ c ∈ commands, ∃ m, w.launch c.cmd
      (c.args ++ (modeArgs audioOnly (bitrate.getD 192) ++ baseArgs w.outDir w.ffmpegBin) ++ [url]) =
        ChildRun.failed ⟨some "ENOENT", m⟩) :
    (downloadWithYtDlpStreaming w url audioOnly bitrate progressId st).1 =
      Except.error "yt-dlp not available or failed" := by
  have happ := fun s => streamingLoop_append w url
    (modeArgs audioOnly (bitrate.getD 192) ++ baseArgs w.outDir w.ffmpegBin) progressId
    commands [] "" s h
  simp only [List.append_nil] at happ
  have hloop : ∀ s, (streamingLoop w url
      (modeArgs audioOnly (bitrate.getD 192) ++ baseArgs w.outDir w.ffmpegBin) progressId
      commands "" s).1 = LoopEnd.notSelected := by
    intro s
    rw [happ s]
    rfl
  simp only [downloadWithYtDlpStreaming, hloop]

/-- The streaming fallback when a candidate, reached after candidates that were
not found, exits with a non-zero code. -/
theorem downloadWithYtDlpStreaming_tool_failed (w : World) (url : String) (audioOnly : Bool)
    (bitrate : Option Nat) (progressId : String) (st : Sys) (pre post : List Candidate)
    (c : Candidate) (k : Int) (out : String) (err : List String)
    (hsplit : commands = pre ++ c :: post)
    (hpre : ∀ p ∈ pre, ∃ m, w.launch p.cmd
      (p.args ++ (modeArgs audioOnly (bitrate.getD 192) ++ baseArgs w.outDir w.ffmpegBin) ++ [url]) =
        ChildRun.failed ⟨some "ENOENT", m⟩)
    (hc : w.launch c.cmd
      (c.args ++ (modeArgs audioOnly (bitrate.getD 192) ++ baseArgs w.outDir w.ffmpegBin) ++ [url]) =
        ChildRun.exited (some k) out err)
    (hk : k ≠ 0) :
    (downloadWithYtDlpStreaming w url audioOnly bitrate progressId st).1 =
      Except.error "yt-dlp failed" := by
  have happ := fun s => streamingLoop_append w url
    (modeArgs audioOnly (bitrate.getD 192) ++ baseArgs w.outDir w.ffmpegBin) progressId
    pre (c :: post) "" s hpre
  have hloop : ∀ s, (streamingLoop w url
      (modeArgs audioOnly (bitrate.getD 192) ++ baseArgs w.outDir w.ffmpegBin) progressId
      commands "" s).1 = LoopEnd.thrown "yt-dlp failed" := by
    intro s
    rw [hsplit, happ s,
      streamingLoop_exited w url _ progressId c post "" _ (some k) out err hc]
    simp [hk]
  simp only [downloadWithYtDlpStreaming, hloop]

/-- In `runYtDlp`, candidates that end without an exit code (they could not be
started, or a signal ended them) are passed over: the loop goes on with the
candidates after them. -/
theorem runYtDlpLoop_skip (launch : String → List String → ChildRun) (url : String)
    (args : List String) (pre rest : List Candidate)
    (hpre : ∀ p ∈ pre, (launch p.cmd (p.args ++ args ++ [url])).noExitCode = true) :
    runYtDlpLoop launch url args (pre ++ rest) =
      ((runYtDlpLoop launch url args rest).1,
        pre.map (spawnCall args url) ++ (runYtDlpLoop launch url args rest).2) := by
  induction pre with
  | nil => simp
  | cons p tl ih =>
    have hp := hpre p (List.mem_cons_self p tl)
    have ih2 := ih (fun q hq => hpre q (List.mem_cons_of_mem p hq))
    cases hl : launch p.cmd (p.args ++ args ++ [url]) with
    | failed e =>
      simp only [List.cons_append, runYtDlpLoop, spawnOnce, hl, List.map_cons, spawnCall]
      simp [ih2]
    | exited code out err =>
      rw [hl] at hp
      have hcode : code = none := by
        cases code with
        | none => rfl
        | some k => simp [ChildRun.noExitCode] at hp
      subst hcode
      simp only [List.cons_append, runYtDlpLoop, spawnOnce, hl, List.map_cons, spawnCall]
      simp [ih2]

/-- The plain fallback when no candidate ends with an exit code. -/
theorem downloadWithYtDlp_no_exit_code (w : World) (url : String) (audioOnly : Bool)
    (bitrate : Option Nat) (startMs : Int) (st : Sys)
    (h : ∀ c ∈ commands, (w.launch c.cmd
      (c.args ++ (modeArgs audioOnly (bitrate.getD 192) ++ baseArgs w.outDir w.ffmpegBin) ++
        [url])).noExitCode = true) :
    (downloadWithYtDlp w url audioOnly bitrate startMs st).1 =
      Except.error "yt-dlp failed: yt-dlp not available" := by
  have happ := runYtDlpLoop_skip w.launch url
    (modeArgs audioOnly (bitrate.getD 192) ++ baseArgs w.outDir w.ffmpegBin) commands [] h
  rw [List.append_nil] at happ
  have hrun : (runYtDlp w.launch url
      (modeArgs audioOnly (bitrate.getD 192) ++ baseArgs w.outDir w.ffmpegBin)).1 =
      { ok := false, code := none, error := some ⟨none, "yt-dlp not available"⟩,
        stdout := "", stderr := "" } := by
    rw [runYtDlp, happ]
    rfl
  simp only [downloadWithYtDlp, hrun, toolFailureMessage, Bool.not_false, if_true]
  have hmsg : ("yt-dlp failed: " ++ if "" ≠ "" then "" else "yt-dlp not available") =
      "yt-dlp failed: yt-dlp not available" := by decide
  rw [hmsg]

/-- The plain fallback when a candidate, reached after candidates that ended
without an exit code, exits with a non-zero code. -/
theorem downloadWithYtDlp_exit_code (w : World) (url : String) (audioOnly : Bool)
    (bitrate : Option Nat) (startMs : Int) (st : Sys) (pre post : List Candidate)
    (c : Candidate) (k : Int) (out : String) (err : List String)
    (hsplit : commands = pre ++ c :: post)
    (hpre : ∀ p ∈ pre, (w.launch p.cmd
      (p.args ++ (modeArgs audioOnly (bitrate.getD 192) ++ baseArgs w.outDir w.ffmpegBin) ++
        [url])).noExitCode = true)
    (hc : w.launch c.cmd
      (c.args ++ (modeArgs audioOnly (bitrate.getD 192) ++ baseArgs w.outDir w.ffmpegBin) ++ [url]) =
        ChildRun.exited (some k) out err)
    (hk : k ≠ 0) :
    (downloadWithYtDlp w url audioOnly bitrate startMs st).1 =
      Except.error ("yt-dlp failed: " ++
        (if String.join err ≠ "" then String.join err else "Unknown error")) := by
  have happ := runYtDlpLoop_skip w.launch url
    (modeArgs audioOnly (bitrate.getD 192) ++ baseArgs w.outDir w.ffmpegBin) pre (c :: post) hpre
  rw [runYtDlpLoop_exited w.launch url _ c post k out err hc] at happ
  have hrun : (runYtDlp w.launch url
      (modeArgs audioOnly (bitrate.getD 192) ++ baseArgs w.outDir w.ffmpegBin)).1 =
      { ok := decide (k = 0), code := some k, error := none, stdout := out,
        stderr := String.join err } := by
    rw [runYtDlp, hsplit, happ]
  simp only [downloadWithYtDlp, hrun, toolFailureMessage]
  simp [hk]

/-- The streaming fallback when a candidate, reached after candidates that were
not found, closes without the exit code zero: with another exit code, or ended
by a signal. -/
theorem downloadWithYtDlpStreaming_closed (w : World) (url : String) (audioOnly : Bool)
    (bitrate : Option Nat) (progressId : String) (st : Sys) (pre post : List Candidate)
    (c : Candidate) (code : Option Int) (out : String) (err : List String)
    (hsplit : commands = pre ++ c :: post)
    (hpre : ∀ p ∈ pre, ∃ m, w.launch p.cmd
      (p.args ++ (modeArgs audioOnly (bitrate.getD 192) ++ baseArgs w.outDir w.ffmpegBin) ++ [url]) =
        ChildRun.failed ⟨some "ENOENT", m⟩)
    (hc : w.launch c.cmd
      (c.args ++ (modeArgs audioOnly (bitrate.getD 192) ++ baseArgs w.outDir w.ffmpegBin) ++ [url]) =
        ChildRun.exited code out err)
    (hk : code ≠ some 0) :
    (downloadWithYtDlpStreaming w url audioOnly bitrate progressId st).1 =
      Except.error "yt-dlp failed" := by
  have happ := fun s => streamingLoop_append w url
    (modeArgs audioOnly (bitrate.getD 192) ++ baseArgs w.outDir w.ffmpegBin) progressId
    pre (c :: post) "" s hpre
  have hloop : ∀ s, (streamingLoop w url
      (modeArgs audioOnly (bitrate.getD 192) ++ baseArgs w.outDir w.ffmpegBin) progressId
      commands "" s).1 = LoopEnd.thrown "yt-dlp failed" := by
    intro s
    rw [hsplit, happ s,
      streamingLoop_exited w url _ progressId c post "" _ code out err hc]
    simp [hk]
  simp only [downloadWithYtDlpStreaming, hloop]

/-- The message of a failed run is the not-found message of the plain variant
exactly when the stderr text is `yt-dlp not available`. -/
theorem tool_failure_text_eq_iff (text : String) :
    "yt-dlp failed: " ++ (if text ≠ "" then text else "Unknown error") =
      "yt-dlp failed: yt-dlp not available" ↔ text = "yt-dlp not available" := by
  constructor
  · intro h
    by_contra hne
    by_cases he : text = ""
    · rw [he] at h
      revert h
      decide
    · simp only [ne_eq, he, not_false_eq_true, if_true] at h
      exact append_left_ne "yt-dlp failed: " _ _ hne h
  · intro h
    rw [h]
    decide

/-- C12, as stated, fails for the plain variant: when `python -m yt_dlp` runs,
writes `yt-dlp not available` to stderr and exits with code 1, `downloadWithYtDlp`
throws the very message it throws when no candidate can be started; and when
`yt-dlp` runs, writes an error to stderr and is ended by a signal, it throws
that message again. -/
theorem plain_not_found_message_not_distinct :
    (downloadWithYtDlp transcodeFailureWorld "https://youtu.be/ABC123" false none 0
        ⟨[], []⟩).1 = Except.error "yt-dlp failed: yt-dlp not available" ∧
    (downloadWithYtDlp (toolFailsWorld ["yt-dlp not available"]) "https://youtu.be/ABC123"
        false none 0 ⟨[], []⟩).1 = Except.error "yt-dlp failed: yt-dlp not available" ∧
    (downloadWithYtDlp killedToolWorld "https://youtu.be/ABC123"
        false none 0 ⟨[], []⟩).1 = Except.error "yt-dlp failed: yt-dlp not available" :=
  ⟨rfl, rfl, rfl⟩

/-- C12, amended. When each of the four candidates is not found, both variants
fail: the plain one with `yt-dlp failed: yt-dlp not available`, the streaming
one with `yt-dlp not available or failed`. In the streaming variant a candidate
that is reached (after candidates that were not found) and closes otherwise
than with exit code zero, by another exit code or by a signal, makes the
variant fail with `yt-dlp failed`, a different message. In the plain variant a
candidate that is reached (after candidates that ended without an exit code)
and exits with a non-zero code makes the variant fail with `yt-dlp failed: `
followed by the stderr text (`Unknown error` when it is empty), which is the
not-found message exactly when the stderr text is `yt-dlp not available`; a
candidate ended by a signal is passed over like one that could not be started,
so that when no candidate ends with an exit code the plain variant fails with
its not-found message whatever was written to stderr. -/
theorem not_found_message_distinct_from_tool_failure (w : World) (url : String)
    (audioOnly : Bool) (bitrate : Option Nat) (startMs : Int) (progressId : String) (st : Sys) :
    ((∀ c ∈ commands, ∃ m, w.launch c.cmd
        (c.args ++ (modeArgs audioOnly (bitrate.getD 192) ++ baseArgs w.outDir w.ffmpegBin) ++
          [url]) = ChildRun.failed ⟨some "ENOENT", m⟩) →
      (downloadWithYtDlp w url audioOnly bitrate startMs st).1 =
        Except.error "yt-dlp failed: yt-dlp not available" ∧
      (downloadWithYtDlpStreaming w url audioOnly bitrate progressId st).1 =
        Except.error "yt-dlp not available or failed") ∧
    (∀ pre c post code out err, commands = pre ++ c :: post →
      (∀ p ∈ pre, ∃ m, w.launch p.cmd
        (p.args ++ (modeArgs audioOnly (bitrate.getD 192) ++ baseArgs w.outDir w.ffmpegBin) ++
          [url]) = ChildRun.failed ⟨some "ENOENT", m⟩) →
      w.launch c.cmd
        (c.args ++ (modeArgs audioOnly (bitrate.getD 192) ++ baseArgs w.outDir w.ffmpegBin) ++
          [url]) = ChildRun.exited code out err →
      code ≠ some 0 →
      (downloadWithYtDlpStreaming w url audioOnly bitrate progressId st).1 =
        Except.error "yt-dlp failed") ∧
    ("yt-dlp failed" ≠ "yt-dlp not available or failed") ∧
    (∀ pre c post k out err, commands = pre ++ c :: post →
      (∀ p ∈ pre, (w.launch p.cmd
        (p.args ++ (modeArgs audioOnly (bitrate.getD 192) ++ baseArgs w.outDir w.ffmpegBin) ++
          [url])).noExitCode = true) →
      w.launch c.cmd
        (c.args ++ (modeArgs audioOnly (bitrate.getD 192) ++ baseArgs w.outDir w.ffmpegBin) ++
          [url]) = ChildRun.exited (some k) out err →
      k ≠ 0 →
      (downloadWithYtDlp w url audioOnly bitrate startMs st).1 =
        Except.error ("yt-dlp failed: " ++
          (if String.join err ≠ "" then String.join err else "Unknown error"))) ∧
    (∀ text : String,
      "yt-dlp failed: " ++ (if text ≠ "" then text else "Unknown error") =
        "yt-dlp failed: yt-dlp not available" ↔ text = "yt-dlp not available") ∧
    ((∀ c ∈ commands, (w.launch c.cmd
        (c.args ++ (modeArgs audioOnly (bitrate.getD 192) ++ baseArgs w.outDir w.ffmpegBin) ++
          [url])).noExitCode = true) →
      (downloadWithYtDlp w url audioOnly bitrate startMs st).1 =
        Except.error "yt-dlp failed: yt-dlp not available") := by
  refine ⟨fun h => ⟨?_, ?_⟩, ?_, by decide, ?_, tool_failure_text_eq_iff, ?_⟩
  · exact downloadWithYtDlp_not_found w url audioOnly bitrate startMs st h
  · exact downloadWithYtDlpStreaming_not_found w url audioOnly bitrate progressId st h
  · intro pre c post code out err hsplit hpre hc hk
    exact downloadWithYtDlpStreaming_closed w url audioOnly bitrate progressId st pre post c code
      out err hsplit hpre hc hk
  · intro pre c post k out err hsplit hpre hc hk
    exact downloadWithYtDlp_exit_code w url audioOnly bitrate startMs st pre post c k out err
      hsplit hpre hc hk
  · exact downloadWithYtDlp_no_exit_code w url audioOnly bitrate startMs st

/-- The failure messages on sample worlds: no candidate installed;
`python -m yt_dlp` exiting with code 1 after an error line; `yt-dlp` ended by a
signal with no other candidate installed. -/
theorem fallback_failure_messages_samples :
    (downloadWithYtDlp transcodeFailureWorld "https://youtu.be/ABC123" false none 0
        ⟨[], []⟩).1 = Except.error "yt-dlp failed: yt-dlp not available" ∧
    (downloadWithYtDlpStreaming transcodeFailureWorld "https://youtu.be/ABC123" false none
        "job-1" ⟨[], []⟩).1 = Except.error "yt-dlp not available or failed" ∧
    (downloadWithYtDlp (toolFailsWorld ["ERROR: video unavailable"]) "https://youtu.be/ABC123"
        false none 0 ⟨[], []⟩).1 = Except.error "yt-dlp failed: ERROR: video unavailable" ∧
    (downloadWithYtDlpStreaming (toolFailsWorld ["ERROR: video unavailable"])
        "https://youtu.be/ABC123" false none "job-1" ⟨[], []⟩).1 =
      Except.error "yt-dlp failed" ∧
    (downloadWithYtDlp killedToolWorld "https://youtu.be/ABC123" false none 0 ⟨[], []⟩).1 =
      Except.error "yt-dlp failed: yt-dlp not available" ∧
    (downloadWithYtDlpStreaming killedToolWorld "https://youtu.be/ABC123" false none "job-1"
        ⟨[], []⟩).1 = Except.error "yt-dlp failed" ∧
    (∀ c ∈ commands, (killedToolWorld.launch c.cmd
        (c.args ++ (modeArgs false 192 ++ baseArgs killedToolWorld.outDir
          killedToolWorld.ffmpegBin) ++ ["https://youtu.be/ABC123"])).noExitCode = true) :=
  ⟨rfl, rfl, rfl, rfl, rfl, rfl, by decide⟩

/-! ## File names: claims C13 to C15 and C18 -/

/-- The class of `isIllegalChar` holds exactly the nine characters
`< > : " / \ | ? *`. -/
theorem isIllegalChar_iff (c : Char) :
    isIllegalChar c = true ↔ c ∈ ['<', '>', ':', '"', '/', '\\', '|', '?', '*'] := by
  simp only [isIllegalChar, Bool.or_eq_true, decide_eq_true_eq, List.mem_cons,
    List.mem_singleton, or_assoc, List.not_mem_nil, or_false]

/-- C13: for every title, the sanitised title has the length of the title,
contains none of the nine characters `< > : " / \ | ? *`, has `_` at every
position where the title has one of them and the character of the title at
every other position. -/
theorem sanitizeTitle_positions (title : String) :
    (sanitizeTitle title).length = title.length ∧
    (∀ c ∈ (sanitizeTitle title).data, c ∉ ['<', '>', ':', '"', '/', '\\', '|', '?', '*']) ∧
    (∀ (i : Nat) (c : Char), title.data[i]? = some c →
      (sanitizeTitle title).data[i]? =
        some (if c ∈ ['<', '>', ':', '"', '/', '\\', '|', '?', '*'] then '_' else c)) := by
  refine ⟨?_, ?_, ?_⟩
  · simp only [sanitizeTitle, String.length, List.length_map]
  · intro c hc
    simp only [sanitizeTitle, List.mem_map] at hc
    obtain ⟨d, _, hd⟩ := hc
    rw [← isIllegalChar_iff]
    by_cases h : isIllegalChar d = true
    · rw [if_pos h] at hd
      subst hd
      decide
    · rw [if_neg h] at hd
      subst hd
      exact h
  · intro i c hi
    simp only [sanitizeTitle, List.getElem?_map, hi, Option.map_some', ← isIllegalChar_iff]

/-- The characters of the file name that the primary strategy builds. -/
theorem primaryFilename_data (title videoId ext : String) :
    (primaryFilename title videoId ext).data =
      (title.data.map fun c => if isIllegalChar c then '_' else c) ++ '-' :: videoId.data ++
        ext.data := by
  simp [primaryFilename, sanitizeTitle, String.data_append]

/-- C14, as stated, fails: the id is not sanitised (an id `a/b` puts a path
separator into the name), a NUL of the title is kept, and the length is not
bounded (a title of 300 characters gives a name of 311 characters, above the
usual limit of 255). -/
theorem primaryFilename_not_always_valid :
    '/' ∈ (primaryFilename "Title" "a/b" ".mp4").data ∧
    Char.ofNat 0 ∈ (primaryFilename (String.mk ['a', Char.ofNat 0, 'b']) "ABC123" ".mp4").data ∧
    255 < (primaryFilename (String.mk (List.replicate 300 'a')) "ABC123" ".mp4").length := by
  refine ⟨by decide, by decide, ?_⟩
  simp only [String.length, primaryFilename_data, List.length_append, List.length_map,
    List.length_replicate, List.length_cons]
  decide

/-- Shape of the file name that the primary strategy builds: not empty, of the
length of its parts, with illegal characters only from the id and every
character from the title, the id or the fixed parts. -/
theorem primaryFilename_facts (title videoId ext : String)
    (hext : ext = ".mp4" ∨ ext = ".mp3") :
    primaryFilename title videoId ext ≠ "" ∧
    (primaryFilename title videoId ext).length = title.length + videoId.length + 5 ∧
    (∀ c ∈ (primaryFilename title videoId ext).data,
      c ∈ ['<', '>', ':', '"', '/', '\\', '|', '?', '*'] → c ∈ videoId.data) ∧
    (∀ c ∈ (primaryFilename title videoId ext).data,
      c ∈ title.data ∨ c ∈ videoId.data ∨ c ∈ ['_', '-', '.', 'm', 'p', '3', '4']) := by
  have hdata := primaryFilename_data title videoId ext
  have hextdata : ext.data = ['.', 'm', 'p', '4'] ∨ ext.data = ['.', 'm', 'p', '3'] := by
    rcases hext with h | h <;> subst h
    · exact Or.inl rfl
    · exact Or.inr rfl
  have hextmem : ∀ c ∈ ext.data, c ∈ ['_', '-', '.', 'm', 'p', '3', '4'] := by
    intro c hc
    rcases hextdata with h | h
    · rw [h] at hc
      revert c
      decide
    · rw [h] at hc
      revert c
      decide
  refine ⟨?_, ?_, ?_, ?_⟩
  · intro h
    have h2 : (primaryFilename title videoId ext).data = [] := by rw [h]
    rw [hdata] at h2
    simp at h2
  · have hlen : ext.data.length = 4 := by
      rcases hextdata with h | h <;> rw [h] <;> rfl
    simp only [String.length, hdata, List.length_append, List.length_map, List.length_cons, hlen]
    omega
  · intro c hc hill
    rw [hdata] at hc
    simp only [List.mem_append, List.mem_map, List.mem_cons] at hc
    rcases hc with (⟨d, _, hd⟩ | hc | hc) | hc
    · exfalso
      rw [← isIllegalChar_iff] at hill
      by_cases h : isIllegalChar d = true
      · rw [if_pos h] at hd
        subst hd
        exact absurd hill (by decide)
      · rw [if_neg h] at hd
        subst hd
        exact h hill
    · subst hc
      exact absurd ((isIllegalChar_iff '-').mpr hill) (by decide)
    · exact hc
    · exfalso
      have hm := hextmem c hc
      rw [← isIllegalChar_iff] at hill
      simp only [List.mem_cons, List.mem_singleton, List.not_mem_nil, or_false] at hm
      rcases hm with h | h | h | h | h | h | h <;> subst h <;> exact absurd hill (by decide)
  · intro c hc
    rw [hdata] at hc
    simp only [List.mem_append, List.mem_map, List.mem_cons] at hc
    rcases hc with (⟨d, hdmem, hd⟩ | hc | hc) | hc
    · by_cases h : isIllegalChar d = true
      · rw [if_pos h] at hd
        subst hd
        exact Or.inr (Or.inr (by decide))
      · rw [if_neg h] at hd
        subst hd
        exact Or.inl hdmem
    · subst hc
      exact Or.inr (Or.inr (by decide))
    · exact Or.inr (Or.inl hc)
    · exact Or.inr (Or.inr (hextmem c hc))

/-- C14, amended: for every title and id, the file name that the primary
strategy builds with the extension `.mp4` or `.mp3` is not empty; its length is
the length of the title plus the length of the id plus 5; each of the nine characters `< > : " / \ | ? *` that occurs in it
occurs in the id; and every character of it is a character of the title, a
character of the id, or one of `_ - . m p 3 4`, so it holds a NUL only when the
title or the id does. -/
theorem primaryFilename_shape (title videoId ext : String)
    (hext : ext = ".mp4" ∨ ext = ".mp3") :
    primaryFilename title videoId ext ≠ "" ∧
    (primaryFilename title videoId ext).length = title.length + videoId.length + 5 ∧
    (∀ c ∈ (primaryFilename title videoId ext).data,
      c ∈ ['<', '>', ':', '"', '/', '\\', '|', '?', '*'] → c ∈ videoId.data) ∧
    (∀ c ∈ (primaryFilename title videoId ext).data,
      c ∈ title.data ∨ c ∈ videoId.data ∨ c ∈ ['_', '-', '.', 'm', 'p', '3', '4']) :=
  primaryFilename_facts title videoId ext hext

/-- Witness of amended C14: the audio file name of `Some: Video?` with id `ABC123`. -/
theorem primaryFilename_shape_witness :
    ((".mp3" : String) = ".mp4" ∨ (".mp3" : String) = ".mp3") ∧
    (primaryFilename "Some: Video?" "ABC123" ".mp3" ≠ "" ∧
    (primaryFilename "Some: Video?" "ABC123" ".mp3").length =
      ("Some: Video?" : String).length + ("ABC123" : String).length + 5 ∧
    (∀ c ∈ (primaryFilename "Some: Video?" "ABC123" ".mp3").data,
      c ∈ ['<', '>', ':', '"', '/', '\\', '|', '?', '*'] → c ∈ ("ABC123" : String).data) ∧
    (∀ c ∈ (primaryFilename "Some: Video?" "ABC123" ".mp3").data,
      c ∈ ("Some: Video?" : String).data ∨ c ∈ ("ABC123" : String).data ∨
        c ∈ ['_', '-', '.', 'm', 'p', '3', '4'])) :=
  ⟨Or.inr rfl, primaryFilename_shape "Some: Video?" "ABC123" ".mp3" (Or.inr rfl)⟩

/-- The response of `POST /api/download` when the primary strategy succeeds. -/
theorem postDownload_primary_success (w : World) (req : Request) (st : Sys)
    (url title videoId : String) (hurl : truthyString req.url = some url)
    (hvalid : w.validateURL url = true) (hinfo : w.getInfo url = InfoResult.ok title videoId)
    (hend : w.videoEnd = VideoEnd.writeFinish) :
    (postDownload w req st).response =
      ⟨200, Outcome.toJson
        ⟨pathJoin w.outDir (primaryFilename title videoId ".mp4"),
          primaryFilename title videoId ".mp4",
          (getFileUrl w.s3 (pathJoin w.outDir (primaryFilename title videoId ".mp4"))
            (primaryFilename title videoId ".mp4")).1⟩⟩ := by
  simp only [postDownload, hurl, hvalid, hinfo, hend, Bool.not_true, Bool.false_eq_true,
    if_false]

/-- The response of `POST /api/download-mp3` when the primary strategy succeeds. -/
theorem postDownloadMp3_primary_success (w : World) (req : Request) (st : Sys)
    (url title videoId : String) (hurl : truthyString req.url = some url)
    (hvalid : w.validateURL url = true) (hinfo : w.getInfo url = InfoResult.ok title videoId)
    (hend : w.audioEnd = AudioEnd.transcodeEnd) :
    (postDownloadMp3 w req st).response =
      ⟨200, Outcome.toJson
        ⟨pathJoin w.outDir (primaryFilename title videoId ".mp3"),
          primaryFilename title videoId ".mp3",
          (getFileUrl w.s3 (pathJoin w.outDir (primaryFilename title videoId ".mp3"))
            (primaryFilename title videoId ".mp3")).1⟩⟩ := by
  simp only [postDownloadMp3, hurl, hvalid, hinfo, hend, Bool.not_true, Bool.false_eq_true,
    if_false]

/-- C15: when the metadata fetch gives a title and an id and the primary
strategy succeeds, the handler answers 200 and the `filename` of the outcome is
the sanitised title followed by `-`, the id and the extension: `.mp4` in
`POST /api/download`, `.mp3` in `POST /api/download-mp3`; for the id `ABC123`
the audio file name is the sanitised title followed by `-ABC123.mp3`. -/
theorem primary_outcome_filename (w : World) (req : Request) (st : Sys)
    (url title videoId : String) (hurl : truthyString req.url = some url)
    (hvalid : w.validateURL url = true)
    (hinfo : w.getInfo url = InfoResult.ok title videoId) :
    (w.videoEnd = VideoEnd.writeFinish →
      (postDownload w req st).response.status = 200 ∧
      Obj.prop (postDownload w req st).response.body "filename" =
        JSVal.str (sanitizeTitle title ++ "-" ++ videoId ++ ".mp4")) ∧
    (w.audioEnd = AudioEnd.transcodeEnd →
      (postDownloadMp3 w req st).response.status = 200 ∧
      Obj.prop (postDownloadMp3 w req st).response.body "filename" =
        JSVal.str (sanitizeTitle title ++ "-" ++ videoId ++ ".mp3")) ∧
    (w.audioEnd = AudioEnd.transcodeEnd → videoId = "ABC123" →
      Obj.prop (postDownloadMp3 w req st).response.body "filename" =
        JSVal.str (sanitizeTitle title ++ "-ABC123.mp3")) := by
  refine ⟨?_, ?_, ?_⟩
  · intro hend
    rw [postDownload_primary_success w req st url title videoId hurl hvalid hinfo hend]
    exact ⟨rfl, rfl⟩
  · intro hend
    rw [postDownloadMp3_primary_success w req st url title videoId hurl hvalid hinfo hend]
    exact ⟨rfl, rfl⟩
  · intro hend hid
    rw [postDownloadMp3_primary_success w req st url title videoId hurl hvalid hinfo hend, hid]
    have happ : sanitizeTitle title ++ "-" ++ "ABC123" ++ ".mp3" =
        sanitizeTitle title ++ "-ABC123.mp3" := by
      rw [String.append_assoc, String.append_assoc]
      rfl
    rw [← happ]
    rfl

/-- Witness of C15: the sample request in a world whose primary strategy succeeds. -/
theorem primary_outcome_filename_witness :
    truthyString sampleRequest.url = some "https://youtu.be/ABC123" ∧
    primarySuccessWorld.validateURL "https://youtu.be/ABC123" = true ∧
    primarySuccessWorld.getInfo "https://youtu.be/ABC123" = InfoResult.ok "Some: Video?" "ABC123" ∧
    ((primarySuccessWorld.videoEnd = VideoEnd.writeFinish →
      (postDownload primarySuccessWorld sampleRequest ⟨[], []⟩).response.status = 200 ∧
      Obj.prop (postDownload primarySuccessWorld sampleRequest ⟨[], []⟩).response.body
          "filename" =
        JSVal.str (sanitizeTitle "Some: Video?" ++ "-" ++ "ABC123" ++ ".mp4")) ∧
    (primarySuccessWorld.audioEnd = AudioEnd.transcodeEnd →
      (postDownloadMp3 primarySuccessWorld sampleRequest ⟨[], []⟩).response.status = 200 ∧
      Obj.prop (postDownloadMp3 primarySuccessWorld sampleRequest ⟨[], []⟩).response.body
          "filename" =
        JSVal.str (sanitizeTitle "Some: Video?" ++ "-" ++ "ABC123" ++ ".mp3")) ∧
    (primarySuccessWorld.audioEnd = AudioEnd.transcodeEnd → ("ABC123" : String) = "ABC123" →
      Obj.prop (postDownloadMp3 primarySuccessWorld sampleRequest ⟨[], []⟩).response.body
          "filename" =
        JSVal.str (sanitizeTitle "Some: Video?" ++ "-ABC123.mp3"))) :=
  ⟨by decide, by decide, rfl,
    primary_outcome_filename primarySuccessWorld sampleRequest ⟨[], []⟩
      "https://youtu.be/ABC123" "Some: Video?" "ABC123" (by decide) (by decide) rfl⟩

theorem takeWhile_append_stop {α : Type} (p : α → Bool) (l r : List α) (a : α)
    (hl : ∀ x ∈ l, p x = true) (ha : p a = false) :
    (l ++ a :: r).takeWhile p = l := by
  induction l with
  | nil => simp [List.takeWhile, ha]
  | cons x xs ih =>
    have hx : p x = true := hl x (List.mem_cons_self x xs)
    simp [List.takeWhile, hx, ih (fun y hy => hl y (List.mem_cons_of_mem x hy))]

/-- The base name of `dir/name` is `name` when `name` is not empty and has no
slash. -/
theorem basename_pathJoin (dir name : String) (hne : name ≠ "")
    (hsep : '/' ∉ name.data) : basename (pathJoin dir name) = name := by
  have hdata : (pathJoin dir name).data = dir.data ++ '/' :: name.data := by
    simp [pathJoin, String.data_append]
  have hrev : (pathJoin dir name).data.reverse =
      name.data.reverse ++ '/' :: dir.data.reverse := by
    rw [hdata]
    simp
  have hall : ∀ x ∈ name.data.reverse, (fun c : Char => decide (c ≠ '/')) x = true := by
    intro x hx
    have hx2 : x ∈ name.data := List.mem_reverse.mp hx
    simp only [ne_eq, decide_eq_true_eq]
    intro h
    exact hsep (h ▸ hx2)
  have hnonempty : name.data.reverse ≠ [] := by
    intro h
    apply hne
    apply String.ext
    simpa using h
  have hdrop : (name.data.reverse ++ '/' :: dir.data.reverse).dropWhile
      (fun c : Char => decide (c = '/')) = name.data.reverse ++ '/' :: dir.data.reverse := by
    cases hr : name.data.reverse with
    | nil => exact absurd hr hnonempty
    | cons x xs =>
      have hx := hall x (by rw [hr]; exact List.mem_cons_self x xs)
      simp only [ne_eq, decide_eq_true_eq] at hx
      simp [List.dropWhile, hx]
  unfold basename
  rw [hrev, hdrop, takeWhile_append_stop _ _ _ _ hall (by simp)]
  simp

/-- The plain fallback names its outcome after the resolved path. -/
theorem downloadWithYtDlp_filename (w : World) (url : String) (audioOnly : Bool)
    (bitrate : Option Nat) (startMs : Int) (st : Sys) (o : Outcome)
    (h : (downloadWithYtDlp w url audioOnly bitrate startMs st).1 = Except.ok o) :
    o.filename = basename o.path := by
  unfold downloadWithYtDlp at h
  simp only [] at h
  split at h
  · simp at h
  · split at h
    · simp at h
    · simp only [Except.ok.injEq] at h
      subst h
      rfl

/-- The streaming fallback names its outcome after the resolved path. -/
theorem downloadWithYtDlpStreaming_filename (w : World) (url : String) (audioOnly : Bool)
    (bitrate : Option Nat) (progressId : String) (st : Sys) (o : Outcome)
    (h : (downloadWithYtDlpStreaming w url audioOnly bitrate progressId st).1 = Except.ok o) :
    o.filename = basename o.path := by
  unfold downloadWithYtDlpStreaming at h
  simp only [] at h
  split at h
  · simp at h
  · simp at h
  · split at h
    · simp at h
    · simp only [Except.ok.injEq] at h
      subst h
      rfl

/-- The file name of the primary strategy has no slash when the id has none. -/
theorem primaryFilename_no_slash (title videoId ext : String)
    (hext : ext = ".mp4" ∨ ext = ".mp3") (hsep : '/' ∉ videoId.data) :
    '/' ∉ (primaryFilename title videoId ext).data := by
  intro h
  exact hsep ((primaryFilename_facts title videoId ext hext).2.2.1 '/' h (by decide))

/-- C18: the `filename` of a successful outcome is the base name of its `path`:
for the primary strategy of both endpoints, for every title and every id
without a path separator, and for every outcome that `downloadWithYtDlp` or
`downloadWithYtDlpStreaming` returns. -/
theorem outcome_filename_is_basename (w : World) (req : Request) (st : Sys)
    (url title videoId : String) (audioOnly : Bool) (bitrate : Option Nat) (startMs : Int)
    (progressId : String) (hurl : truthyString req.url = some url)
    (hvalid : w.validateURL url = true)
    (hinfo : w.getInfo url = InfoResult.ok title videoId) (hsep : '/' ∉ videoId.data) :
    (w.videoEnd = VideoEnd.writeFinish →
      ∃ o : Outcome, (postDownload w req st).response = ⟨200, o.toJson⟩ ∧
        o.filename = basename o.path) ∧
    (w.audioEnd = AudioEnd.transcodeEnd →
      ∃ o : Outcome, (postDownloadMp3 w req st).response = ⟨200, o.toJson⟩ ∧
        o.filename = basename o.path) ∧
    (∀ o, (downloadWithYtDlp w url audioOnly bitrate startMs st).1 = Except.ok o →
      o.filename = basename o.path) ∧
    (∀ o, (downloadWithYtDlpStreaming w url audioOnly bitrate progressId st).1 = Except.ok o →
      o.filename = basename o.path) := by
  refine ⟨?_, ?_, ?_, ?_⟩
  · intro hend
    refine ⟨_, postDownload_primary_success w req st url title videoId hurl hvalid hinfo hend, ?_⟩
    exact (basename_pathJoin w.outDir _
      (primaryFilename_facts title videoId ".mp4" (Or.inl rfl)).1
      (primaryFilename_no_slash title videoId ".mp4" (Or.inl rfl) hsep)).symm
  · intro hend
    refine ⟨_, postDownloadMp3_primary_success w req st url title videoId hurl hvalid hinfo hend,
      ?_⟩
    exact (basename_pathJoin w.outDir _
      (primaryFilename_facts title videoId ".mp3" (Or.inr rfl)).1
      (primaryFilename_no_slash title videoId ".mp3" (Or.inr rfl) hsep)).symm
  · intro o h
    exact downloadWithYtDlp_filename w url audioOnly bitrate startMs st o h
  · intro o h
    exact downloadWithYtDlpStreaming_filename w url audioOnly bitrate progressId st o h

/-- Witness of C18: the sample request in a world whose primary strategy succeeds. -/
theorem outcome_filename_is_basename_witness :
    truthyString sampleRequest.url = some "https://youtu.be/ABC123" ∧
    primarySuccessWorld.validateURL "https://youtu.be/ABC123" = true ∧
    primarySuccessWorld.getInfo "https://youtu.be/ABC123" = InfoResult.ok "Some: Video?" "ABC123" ∧
    '/' ∉ ("ABC123" : String).data ∧
    ((primarySuccessWorld.videoEnd = VideoEnd.writeFinish →
      ∃ o : Outcome,
        (postDownload primarySuccessWorld sampleRequest ⟨[], []⟩).response = ⟨200, o.toJson⟩ ∧
        o.filename = basename o.path) ∧
    (primarySuccessWorld.audioEnd = AudioEnd.transcodeEnd →
      ∃ o : Outcome,
        (postDownloadMp3 primarySuccessWorld sampleRequest ⟨[], []⟩).response =
          ⟨200, o.toJson⟩ ∧
        o.filename = basename o.path) ∧
    (∀ o, (downloadWithYtDlp primarySuccessWorld "https://youtu.be/ABC123" true (some 320) 0
        ⟨[], []⟩).1 = Except.ok o → o.filename = basename o.path) ∧
    (∀ o, (downloadWithYtDlpStreaming primarySuccessWorld "https://youtu.be/ABC123" true
        (some 320) "job-1" ⟨[], []⟩).1 = Except.ok o → o.filename = basename o.path)) :=
  ⟨by decide, by decide, rfl, by decide,
    outcome_filename_is_basename primarySuccessWorld sampleRequest ⟨[], []⟩
      "https://youtu.be/ABC123" "Some: Video?" "ABC123" true (some 320) 0 "job-1"
      (by decide) (by decide) rfl (by decide)⟩

/-! ## Progress numbers: claims C16 and C17 -/

/-- The function `Math.round` gives the integer `n` with `n ≤ x + 1/2 < n + 1`. -/
theorem jsRound_eq_iff (x : ℚ) (n : Int) :
    jsRound x = n ↔ (n : ℚ) ≤ x + 1 / 2 ∧ x + 1 / 2 < n + 1 := by
  have h : jsRound x = ⌊x + 1 / 2⌋ := rfl
  rw [h]
  exact Int.floor_eq_iff

theorem jsRound_nonneg (x : ℚ) (hx : 0 ≤ x) : 0 ≤ jsRound x := by
  have h : (0 : ℚ) ≤ x + 1 / 2 := by linarith
  have h2 : jsRound x = ⌊x + 1 / 2⌋ := rfl
  rw [h2]
  exact Int.floor_nonneg.mpr h

/-- The count of `bitLengthAux` is the number of binary digits once the fuel
suffices. -/
theorem bitLengthAux_spec (fuel n : Nat) (h : n ≤ fuel) :
    n < 2 ^ bitLengthAux fuel n ∧ (0 < n → 2 ^ (bitLengthAux fuel n - 1) ≤ n) := by
  induction fuel generalizing n with
  | zero =>
    have : n = 0 := by omega
    subst this
    simp [bitLengthAux]
  | succ f ih =>
    unfold bitLengthAux
    by_cases hn : n = 0
    · subst hn
      simp
    · rw [if_neg hn]
      have hle : n / 2 ≤ f := by omega
      obtain ⟨h1, h2⟩ := ih (n / 2) hle
      constructor
      · rw [pow_succ]
        omega
      · intro _
        simp only [Nat.add_sub_cancel]
        by_cases h2n : n / 2 = 0
        · have hz : bitLengthAux f (n / 2) = 0 := by
            rw [h2n]
            cases f <;> simp [bitLengthAux]
          rw [hz]
          simp
          omega
        · have h3 := h2 (Nat.pos_of_ne_zero h2n)
          have hpos : 0 < bitLengthAux f (n / 2) := by
            by_contra hc
            have hz : bitLengthAux f (n / 2) = 0 := by omega
            rw [hz] at h1
            simp at h1
            exact h2n h1
          have : 2 ^ bitLengthAux f (n / 2) = 2 * 2 ^ (bitLengthAux f (n / 2) - 1) := by
            rw [← pow_succ']
            congr 1
            omega
          omega

theorem lt_two_pow_bitLength (n : Nat) : n < 2 ^ bitLength n :=
  (bitLengthAux_spec n n (le_refl n)).1

theorem two_pow_bitLength_le (n : Nat) (hn : 0 < n) : 2 ^ (bitLength n - 1) ≤ n :=
  (bitLengthAux_spec n n (le_refl n)).2 hn

theorem bitLength_pos (n : Nat) (hn : 0 < n) : 0 < bitLength n := by
  by_contra hc
  have hz : bitLength n = 0 := by omega
  have := lt_two_pow_bitLength n
  rw [hz] at this
  omega

theorem le_roundHalfEven (n d : Nat) : n / d ≤ roundHalfEven n d := by
  unfold roundHalfEven
  simp only []
  split
  · exact le_refl _
  · split
    · exact Nat.le_succ _
    · split
      · exact le_refl _
      · exact Nat.le_succ _

theorem ulpExponent_le (n d : Nat) :
    ulpExponent n d ≤ (bitLength n : Int) - (bitLength d : Int) - 52 := by
  unfold ulpExponent
  simp only []
  split <;> omega

/-- The number nearest to a positive quotient is positive. -/
theorem nearestDouble_pos (n d : Nat) (hn : 0 < n) (hd : 0 < d) : 0 < nearestDouble n d := by
  have he := ulpExponent_le n d
  have ha : 2 ^ (bitLength n - 1) ≤ n := two_pow_bitLength_le n hn
  have hb : d < 2 ^ bitLength d := lt_two_pow_bitLength d
  have hpn := bitLength_pos n hn
  have hexp : bitLength d + (ulpExponent n d).toNat ≤
      bitLength n - 1 + (-(ulpExponent n d)).toNat := by omega
  have hle : d * 2 ^ (ulpExponent n d).toNat ≤ n * 2 ^ (-(ulpExponent n d)).toNat :=
    calc d * 2 ^ (ulpExponent n d).toNat
        ≤ 2 ^ bitLength d * 2 ^ (ulpExponent n d).toNat :=
          Nat.mul_le_mul_right _ (le_of_lt hb)
      _ = 2 ^ (bitLength d + (ulpExponent n d).toNat) := (pow_add 2 _ _).symm
      _ ≤ 2 ^ (bitLength n - 1 + (-(ulpExponent n d)).toNat) :=
          Nat.pow_le_pow_right (by norm_num) hexp
      _ = 2 ^ (bitLength n - 1) * 2 ^ (-(ulpExponent n d)).toNat := pow_add 2 _ _
      _ ≤ n * 2 ^ (-(ulpExponent n d)).toNat := Nat.mul_le_mul_right _ ha
  have hdpos : 0 < d * 2 ^ (ulpExponent n d).toNat := Nat.mul_pos hd (by positivity)
  have hq : 0 < n * 2 ^ (-(ulpExponent n d)).toNat / (d * 2 ^ (ulpExponent n d).toNat) :=
    Nat.div_pos hle hdpos
  have hm : 0 < roundHalfEven (n * 2 ^ (-(ulpExponent n d)).toNat)
      (d * 2 ^ (ulpExponent n d).toNat) := lt_of_lt_of_le hq (le_roundHalfEven _ _)
  unfold nearestDouble
  simp only []
  exact mul_pos (by exact_mod_cast hm) (by positivity)

/-- Rounding to the nearest number keeps a positive value positive. -/
theorem roundDouble_pos (x : ℚ) (hx : 0 < x) : 0 < roundDouble x := by
  unfold roundDouble
  rw [if_neg (ne_of_gt hx), if_pos hx]
  exact nearestDouble_pos _ _ (Int.natAbs_pos.mpr (ne_of_gt (Rat.num_pos.mpr hx))) x.pos

theorem roundDouble_zero : roundDouble 0 = 0 := by
  simp [roundDouble]

theorem roundDouble_nonneg (x : ℚ) (hx : 0 ≤ x) : 0 ≤ roundDouble x := by
  rcases eq_or_lt_of_le hx with h | h
  · rw [← h, roundDouble_zero]
  · exact le_of_lt (roundDouble_pos x h)

/-- Rounding on sample values: a value that is a number already, one thousandth,
42.1, and two odd integers above `2 ^ 53`, one at a tie. -/
theorem roundDouble_samples :
    roundDouble 150 = 150 ∧ roundDouble (1 / 4) = 1 / 4 ∧
    roundDouble (1 / 1000) = 1152921504606847 / 1152921504606846976 ∧
    roundDouble (421 / 10) = 5925048259759309 / 140737488355328 ∧
    roundDouble (9007199254740993 : ℚ) = 9007199254740992 ∧
    roundDouble (9007199254740995 : ℚ) = 9007199254740996 ∧
    roundDouble (-1 / 3) = -6004799503160661 / 18014398509481984 := by
  decide!

/-- The snapshot that the `progress` listener stores for a non-empty id. -/
theorem get_onProgress (id : String) (startedAt : Int) (ev : ProgressEvent)
    (reg : ProgressStates) (hid : id ≠ "") :
    ∃ s, Assoc.get id (onProgress id startedAt ev reg) = some s ∧
      Obj.prop s "status" = JSVal.str "downloading" ∧
      Obj.prop s "percent" =
        JSVal.num (if ev.total ≠ 0 then roundDouble (roundDouble (ev.downloaded / ev.total) * 100)
          else 0) ∧
      Obj.prop s "etaSeconds" =
        (if roundDouble (ev.downloaded / max (roundDouble (1 / 1000))
            (roundDouble (((ev.now - startedAt : Int) : ℚ) / 1000))) > 0 then
          JSVal.num (jsRound (roundDouble (max 0 (roundDouble (ev.total - ev.downloaded)) /
            roundDouble (ev.downloaded / max (roundDouble (1 / 1000))
              (roundDouble (((ev.now - startedAt : Int) : ℚ) / 1000))))))
        else JSVal.null) := by
  refine ⟨_, get_setProgress_same id _ ev.now reg hid, ?_, ?_, ?_⟩
  all_goals
    rw [Obj.prop, Obj.get_spread _ _ (by simp [Obj.WF, Assoc.keys])]
    simp [Assoc.get]

/-- C16: for a progress event of the primary stream with `downloaded ≥ 0` and
`total > 0`, whatever the elapsed time (zero and negative included), the
listener stores percent `downloaded / total * 100`, which is not negative, and
an etaSeconds that is `null` when nothing has been downloaded and otherwise the
integer `round(remaining / speed)`, which is not negative, with
`remaining = max(0, total - downloaded)` and
`speed = downloaded / max(0.001, elapsed)`. Every operation is the one of
JavaScript numbers; the divisors `total`, `max(0.001, elapsed)` and, where the
listener divides by it, `speed` are positive, so no operation yields `NaN`. -/
theorem onProgress_percent_and_eta (id : String) (startedAt : Int) (ev : ProgressEvent)
    (reg : ProgressStates) (hid : id ≠ "") (hd : 0 ≤ ev.downloaded) (ht : 0 < ev.total) :
    ∃ s, Assoc.get id (onProgress id startedAt ev reg) = some s ∧
      Obj.prop s "percent" =
        JSVal.num (roundDouble (roundDouble (ev.downloaded / ev.total) * 100)) ∧
      0 ≤ roundDouble (roundDouble (ev.downloaded / ev.total) * 100) ∧
      0 < max (roundDouble (1 / 1000)) (roundDouble (((ev.now - startedAt : Int) : ℚ) / 1000)) ∧
      (ev.downloaded = 0 → Obj.prop s "etaSeconds" = JSVal.null) ∧
      (0 < ev.downloaded →
        0 < roundDouble (ev.downloaded / max (roundDouble (1 / 1000))
          (roundDouble (((ev.now - startedAt : Int) : ℚ) / 1000))) ∧
        ∃ n : Int, 0 ≤ n ∧ Obj.prop s "etaSeconds" = JSVal.num n ∧
          n = jsRound (roundDouble (max 0 (roundDouble (ev.total - ev.downloaded)) /
            roundDouble (ev.downloaded / max (roundDouble (1 / 1000))
              (roundDouble (((ev.now - startedAt : Int) : ℚ) / 1000)))))) := by
  obtain ⟨s, h1, _, h3, h4⟩ := get_onProgress id startedAt ev reg hid
  have hel : (0 : ℚ) < max (roundDouble (1 / 1000))
      (roundDouble (((ev.now - startedAt : Int) : ℚ) / 1000)) :=
    lt_of_lt_of_le (roundDouble_pos _ (by norm_num)) (le_max_left _ _)
  refine ⟨s, h1, ?_, ?_, hel, ?_, ?_⟩
  · rw [h3, if_pos (ne_of_gt ht)]
  · exact roundDouble_nonneg _
      (mul_nonneg (roundDouble_nonneg _ (div_nonneg hd (le_of_lt ht))) (by norm_num))
  · intro h0
    rw [h4, h0]
    simp [roundDouble_zero]
  · intro hpos
    have hspeed : 0 < roundDouble (ev.downloaded / max (roundDouble (1 / 1000))
        (roundDouble (((ev.now - startedAt : Int) : ℚ) / 1000))) :=
      roundDouble_pos _ (div_pos hpos hel)
    refine ⟨hspeed, _, jsRound_nonneg _ (roundDouble_nonneg _
      (div_nonneg (le_max_left _ _) (le_of_lt hspeed))), ?_, rfl⟩
    rw [h4, if_pos hspeed]

/-- C16 on `downloaded = 50`, `total = 200`, one second after the start: the
stored percent is 25 and the eta is 3; and on `downloaded = 80`, `total = 200`,
one second after the start, where `remaining / speed` is 1.5: the eta is 2. -/
theorem onProgress_percent_and_eta_witness :
    ("job-1" ≠ "" ∧ (0 : ℚ) ≤ (⟨50, 200, 1000⟩ : ProgressEvent).downloaded ∧
      (0 : ℚ) < (⟨50, 200, 1000⟩ : ProgressEvent).total ∧
      ∃ s, Assoc.get "job-1" (onProgress "job-1" 0 ⟨50, 200, 1000⟩ []) = some s ∧
        Obj.prop s "percent" = JSVal.num 25 ∧ Obj.prop s "etaSeconds" = JSVal.num 3) ∧
    (∃ s, Assoc.get "job-1" (onProgress "job-1" 0 ⟨80, 200, 1000⟩ []) = some s ∧
        Obj.prop s "percent" = JSVal.num 40 ∧ Obj.prop s "etaSeconds" = JSVal.num 2) := by
  have hd : (0 : ℚ) ≤ (⟨50, 200, 1000⟩ : ProgressEvent).downloaded := by norm_num
  have ht : (0 : ℚ) < (⟨50, 200, 1000⟩ : ProgressEvent).total := by norm_num
  have hd2 : (0 : ℚ) ≤ (⟨80, 200, 1000⟩ : ProgressEvent).downloaded := by norm_num
  have ht2 : (0 : ℚ) < (⟨80, 200, 1000⟩ : ProgressEvent).total := by norm_num
  refine ⟨⟨by decide, hd, ht, ?_⟩, ?_⟩
  · obtain ⟨s, h1, h2, _, _, _, h5⟩ :=
      onProgress_percent_and_eta "job-1" 0 ⟨50, 200, 1000⟩ [] (by decide) hd ht
    obtain ⟨_, n, _, hn, hround⟩ := h5 (by norm_num)
    refine ⟨s, h1, ?_, ?_⟩
    · rw [h2]
      decide!
    · rw [hn, hround]
      decide!
  · obtain ⟨s, h1, h2, _, _, _, h5⟩ :=
      onProgress_percent_and_eta "job-1" 0 ⟨80, 200, 1000⟩ [] (by decide) hd2 ht2
    obtain ⟨_, n, _, hn, hround⟩ := h5 (by norm_num)
    refine ⟨s, h1, ?_, ?_⟩
    · rw [h2]
      decide!
    · rw [hn, hround]
      decide!

/-- The listener on an event where rounding shows: `downloaded = 1`,
`total = 101`, 55 ms after the start. The quotient `remaining / speed` is just
below 5.5, so the eta is 5, and the percent is the number written
`0.9900990099009901`, not the exact `100 / 101`. -/
theorem onProgress_rounding_sample :
    (Assoc.get "job-1" (onProgress "job-1" 0 ⟨1, 101, 55⟩ [])).map
        (fun s => (Obj.prop s "percent", Obj.prop s "etaSeconds")) =
      some (JSVal.num (1114752383012499 / 1125899906842624), JSVal.num 5) ∧
    (1114752383012499 / 1125899906842624 : ℚ) ≠ 100 / 101 ∧
    roundDouble (100 / roundDouble (1 / roundDouble (55 / 1000))) =
      6192449487634431 / 1125899906842624 ∧
    (6192449487634431 / 1125899906842624 : ℚ) < 11 / 2 := by
  decide!

/-- C17 at its failing input: the `progress` listener does not clamp. For an
event with `downloaded = 300` and `total = 200` the stored percent is 150, and
a following `finishProgress(id, false)` keeps 150. -/
theorem onProgress_percent_above_100 :
    storedPercent "job-1" (onProgress "job-1" 0 ⟨300, 200, 1000⟩ (initProgress "job-1" 0 [])) =
      JSVal.num 150 ∧
    storedPercent "job-1" (finishProgress "job-1" false none 2000
      (onProgress "job-1" 0 ⟨300, 200, 1000⟩ (initProgress "job-1" 0 []))) = JSVal.num 150 := by
  decide!

/-! ## Publishing and locating the output: claims C19 and C20 -/

/-- The unreserved characters are ASCII. -/
theorem isUriUnreserved_ascii (c : Char) (h : isUriUnreserved c = true) : c.toNat < 128 := by
  unfold isUriUnreserved at h
  simp only [Bool.or_eq_true, decide_eq_true_eq] at h
  rcases h with ((((((((h | h) | h) | h) | h) | h) | h) | h) | h) | h
  · simp only [Char.isAlphanum, Char.isAlpha, Char.isUpper, Char.isLower, Char.isDigit,
      Bool.or_eq_true, Bool.and_eq_true, decide_eq_true_eq] at h
    rcases h with (⟨_, h⟩ | ⟨_, h⟩) | ⟨_, h⟩ <;>
      · have h2 := BitVec.le_def.mp (UInt32.le_def.mp h)
        have h3 : c.val.toBitVec.toNat < 128 := lt_of_le_of_lt h2 (by decide)
        exact h3
  all_goals
    subst h
    decide


/-- A character below `0x10000` is its own code unit and no surrogate. -/
theorem not_surrogate_of_char (c : Char) :
    isLowSurrogate c.toNat = false ∧ isHighSurrogate c.toNat = false := by
  have hv : c.toNat < 0xD800 ∨ (0xDFFF < c.toNat ∧ c.toNat < 0x110000) := c.valid
  simp only [isLowSurrogate, isHighSurrogate, decide_eq_false_iff_not]
  omega

theorem char_toNat_lt (c : Char) : c.toNat < 0x110000 := by
  have hv : c.toNat < 0xD800 ∨ (0xDFFF < c.toNat ∧ c.toNat < 0x110000) := c.valid
  omega

theorem ofNat_surrogate (u : Nat) (h : 0xD800 ≤ u ∧ u ≤ 0xDFFF) :
    isUriUnreserved (Char.ofNat u) = false := by
  have hnv : ¬ u.isValidChar := by
    simp only [Nat.isValidChar]
    omega
  have : Char.ofNat u = Char.ofNat 0 := by
    unfold Char.ofNat
    rw [dif_neg hnv]
    rfl
  rw [this]
  decide

theorem utf8Bytes_eq (c : Char) : utf8Bytes c = utf8OfCodePoint c.toNat := rfl

/-- On the code units of one character followed by `t`, `encodeUnits` gives what
`encodeURIComponent` gives for the character, followed by the encoding of `t`. -/
theorem encodeUnits_char (c : Char) (t : List Nat) :
    encodeUnits (utf16Units c ++ t) =
      (encodeUnits t).map (fun r =>
        (if isUriUnreserved c then [c] else List.flatten ((utf8Bytes c).map percentByte)) ++ r) := by
  by_cases hlt : c.toNat < 0x10000
  · have hu : utf16Units c = [c.toNat] := by simp [utf16Units, hlt]
    rw [hu]
    obtain ⟨h1, h2⟩ := not_surrogate_of_char c
    by_cases hun : isUriUnreserved c = true
    · cases t <;> simp [encodeUnits, hun]
    · cases t <;> simp [encodeUnits, hun, h1, h2, utf8Bytes_eq]
  · have hu : utf16Units c = [0xD800 + (c.toNat - 0x10000) / 0x400,
        0xDC00 + (c.toNat - 0x10000) % 0x400] := by simp [utf16Units, hlt]
    have hmax := char_toNat_lt c
    have hun : isUriUnreserved c = false := by
      by_contra hc
      have := isUriUnreserved_ascii c (by simpa using hc)
      omega
    have hhi : isUriUnreserved (Char.ofNat (0xD800 + (c.toNat - 0x10000) / 0x400)) = false :=
      ofNat_surrogate _ (by omega)
    have h1 : isLowSurrogate (0xD800 + (c.toNat - 0x10000) / 0x400) = false := by
      simp only [isLowSurrogate, decide_eq_false_iff_not]
      omega
    have h2 : isHighSurrogate (0xD800 + (c.toNat - 0x10000) / 0x400) = true := by
      simp only [isHighSurrogate, decide_eq_true_eq]
      omega
    have h3 : isLowSurrogate (0xDC00 + (c.toNat - 0x10000) % 0x400) = true := by
      simp only [isLowSurrogate, decide_eq_true_eq]
      omega
    have hcp : 0x10000 + (0xD800 + (c.toNat - 0x10000) / 0x400 - 0xD800) * 0x400 +
        (0xDC00 + (c.toNat - 0x10000) % 0x400 - 0xDC00) = c.toNat := by
      omega
    rw [hu]
    simp only [List.cons_append, List.nil_append, encodeUnits, hhi, h1, h2, h3, hcp, hun,
      Bool.false_eq_true, if_false, if_true, utf8Bytes_eq, List.append_eq]

/-- On the code units of a string, `encodeUnits` gives the characters of
`encodeURIComponent`. -/
theorem encodeUnits_toCodeUnits (s : String) :
    encodeUnits (toCodeUnits s) = some (encodeURIComponent s).data := by
  unfold toCodeUnits encodeURIComponent
  induction s.data with
  | nil => rfl
  | cons c tl ih =>
    simp only [List.map_cons, List.flatten_cons]
    rw [encodeUnits_char, ih]
    simp

theorem encodeURIComponentUnits_toCodeUnits (s : String) :
    encodeURIComponentUnits (toCodeUnits s) = Except.ok (encodeURIComponent s) := by
  simp [encodeURIComponentUnits, encodeUnits_toCodeUnits]

theorem hexDigit_unreserved (n : Nat) (h : n < 16) : isUriUnreserved (hexDigit n) = true := by
  interval_cases n <;> decide

theorem percentByte_chars (b : Nat) (h : b < 256) :
    ∀ c ∈ percentByte b, isUriUnreserved c = true ∨ c = '%' := by
  intro c hc
  simp only [percentByte, List.mem_cons, List.mem_singleton, List.not_mem_nil, or_false] at hc
  rcases hc with hc | hc | hc
  · exact Or.inr hc
  · rw [hc]
    exact Or.inl (hexDigit_unreserved _ (by omega))
  · rw [hc]
    exact Or.inl (hexDigit_unreserved _ (by omega))

theorem utf8Bytes_lt (c : Char) : ∀ b ∈ utf8Bytes c, b < 256 := by
  have hmax := char_toNat_lt c
  intro b hb
  unfold utf8Bytes at hb
  simp only [] at hb
  split at hb
  · simp at hb
    omega
  · split at hb
    · simp at hb
      omega
    · split at hb
      · simp at hb
        omega
      · simp at hb
        omega

/-- The escaped text holds only unreserved characters and `%`. -/
theorem encodeURIComponent_chars (s : String) :
    ∀ c ∈ (encodeURIComponent s).data, isUriUnreserved c = true ∨ c = '%' := by
  intro c hc
  simp only [encodeURIComponent, List.mem_flatten, List.mem_map] at hc
  obtain ⟨l, ⟨x, _, hl⟩, hcl⟩ := hc
  subst hl
  by_cases hx : isUriUnreserved x = true
  · simp only [hx, if_true, List.mem_singleton] at hcl
    rw [hcl]
    exact Or.inl hx
  · simp only [hx, Bool.false_eq_true, if_false, List.mem_flatten, List.mem_map] at hcl
    obtain ⟨l2, ⟨b, hb, hl2⟩, hc2⟩ := hcl
    subst hl2
    exact percentByte_chars b (utf8Bytes_lt x b hb) c hc2

/-- C19, as stated, fails: for a file name with a lone surrogate (`c`, the code
unit `0xD83D` alone, `.mp4`) `encodeURIComponent` throws `URIError` and
`getFileUrl` rejects, without remote storage and with it; with the surrogate
pair of U+1F600 in its place the URL is returned. -/
theorem getFileUrl_rejects_lone_surrogate :
    getFileUrlSettles none "/srv/app/downloads/clip.mp4" [0x63, 0xD83D, 0x2E, 0x6D, 0x70, 0x34] =
      Except.error uriError ∧
    getFileUrlSettles remoteStorageWorld.s3 "/srv/app/downloads/clip.mp4"
        [0x63, 0xD83D, 0x2E, 0x6D, 0x70, 0x34] = Except.error uriError ∧
    getFileUrlSettles none "/srv/app/downloads/clip.mp4" (toCodeUnits "c😀.mp4") =
      Except.ok "/downloads/c%F0%9F%98%80.mp4" ∧
    toCodeUnits "c😀.mp4" = [0x63, 0xD83D, 0xDE00, 0x2E, 0x6D, 0x70, 0x34] :=
  ⟨rfl, rfl, rfl, by decide⟩

/-- C19, amended: for every local path and every file name without a lone
surrogate (the code units of a `String`), `getFileUrl` resolves: with
`/downloads/` followed by `encodeURIComponent(filename)` when remote storage is
not configured or the upload throws, with the URL of the object in the bucket
when the upload succeeds; the escaped name holds unreserved characters and `%`
only. For every file name on which `encodeURIComponent` throws, `getFileUrl`
rejects with that error. -/
theorem getFileUrl_urls (s3 : Option S3Config) (filePath filename : String) :
    getFileUrlSettles s3 filePath (toCodeUnits filename) =
      Except.ok (getFileUrl s3 filePath filename).1 ∧
    (s3 = none →
      (getFileUrl s3 filePath filename).1 = "/downloads/" ++ encodeURIComponent filename) ∧
    (∀ cfg, s3 = some cfg → cfg.uploadOk filePath = false →
      (getFileUrl s3 filePath filename).1 = "/downloads/" ++ encodeURIComponent filename) ∧
    (∀ cfg, s3 = some cfg → cfg.uploadOk filePath = true →
      (getFileUrl s3 filePath filename).1 =
        "https://" ++ cfg.bucket ++ ".s3." ++ cfg.region ++ ".amazonaws.com/downloads/" ++
          encodeURIComponent filename) ∧
    (∀ c ∈ (encodeURIComponent filename).data, isUriUnreserved c = true ∨ c = '%') ∧
    (∀ units, encodeUnits units = none →
      getFileUrlSettles s3 filePath units = Except.error uriError) := by
  refine ⟨?_, ?_, ?_, ?_, encodeURIComponent_chars filename, ?_⟩
  · cases s3 with
    | none => simp [getFileUrlSettles, encodeURIComponentUnits_toCodeUnits, getFileUrl, localUrl,
        Except.map]
    | some cfg =>
      by_cases hup : cfg.uploadOk filePath = true
      · simp [getFileUrlSettles, encodeURIComponentUnits_toCodeUnits, getFileUrl, hup]
      · simp [getFileUrlSettles, encodeURIComponentUnits_toCodeUnits, getFileUrl, hup, localUrl,
          Except.map]
  · intro h
    subst h
    rfl
  · intro cfg h hup
    subst h
    simp [getFileUrl, hup, localUrl]
  · intro cfg h hup
    subst h
    simp [getFileUrl, hup]
  · intro units hnone
    cases s3 with
    | none => simp [getFileUrlSettles, encodeURIComponentUnits, hnone, Except.map]
    | some cfg =>
      by_cases hup : cfg.uploadOk filePath = true
      · simp [getFileUrlSettles, encodeURIComponentUnits, hnone, hup, Except.map]
      · simp [getFileUrlSettles, encodeURIComponentUnits, hnone, hup, Except.map]

/-- The escaping on a name that needs none and on one with a space, an accent,
`#`, `%` and a character outside the basic plane. -/
theorem encodeURIComponent_samples :
    encodeURIComponent "Some_Video-ABC123.mp4" = "Some_Video-ABC123.mp4" ∧
    encodeURIComponent "Some Vidéo #1 (50%) 😀.mp4" =
      "Some%20Vid%C3%A9o%20%231%20(50%25)%20%F0%9F%98%80.mp4" := by
  decide

/-- Searching the reversed list of the mapped and filtered elements finds the
image of the last element that passes both tests. -/
theorem find_reverse_filter_map {α β : Type} (f : α → β) (q p : β → Bool) (xs : List α)
    (h : ∃ x ∈ xs, q (f x) = true ∧ p (f x) = true) :
    ∃ pre x post, xs = pre ++ x :: post ∧ q (f x) = true ∧ p (f x) = true ∧
      (∀ y ∈ post, ¬ (q (f y) = true ∧ p (f y) = true)) ∧
      (((xs.map f).filter q).reverse.find? p) = some (f x) := by
  induction xs with
  | nil =>
    obtain ⟨x, hx, _⟩ := h
    simp at hx
  | cons a t ih =>
    by_cases ht : ∃ x ∈ t, q (f x) = true ∧ p (f x) = true
    · obtain ⟨pre, x, post, hsplit, hq, hp, hpost, hfind⟩ := ih ht
      refine ⟨a :: pre, x, post, by rw [hsplit]; rfl, hq, hp, hpost, ?_⟩
      by_cases hqa : q (f a) = true
      · simp only [List.map_cons, List.filter_cons, hqa, if_true, List.reverse_cons,
          List.find?_append, hfind]
        rfl
      · simp only [List.map_cons, List.filter_cons, hqa, hfind]
        simp [hfind]
    · obtain ⟨x, hx, hq, hp⟩ := h
      have hxa : x = a := by
        rcases List.mem_cons.mp hx with h1 | h1
        · exact h1
        · exact absurd ⟨x, h1, hq, hp⟩ ht
      subst hxa
      have hnone : (((t.map f).filter q).reverse.find? p) = none := by
        rw [List.find?_eq_none]
        intro y hy hpy
        rw [List.mem_reverse, List.mem_filter, List.mem_map] at hy
        obtain ⟨⟨z, hz, hzy⟩, hqy⟩ := hy
        subst hzy
        exact ht ⟨z, hz, hqy, hpy⟩
      refine ⟨[], x, t, rfl, hq, hp, fun y hy hy2 => ht ⟨y, hy, hy2⟩, ?_⟩
      simp only [List.map_cons, List.filter_cons, hq, if_true, List.reverse_cons,
        List.find?_append, hnone, List.find?_cons, hp]
      rfl

/-- C20: when the stdout of the tool has a non-blank line that, once trimmed,
starts with the output directory (compared in lower case), the path that both
fallback variants read from stdout is the trimmed last such line: no later
line of stdout qualifies. When that path exists on disk it is the path that
`downloadWithYtDlp` and `downloadWithYtDlpStreaming` resolve. -/
theorem pathFromStdout_last_matching_line (w : World) (audioOnly : Bool) (startMs : Int)
    (stdout : String)
    (h : ∃ raw ∈ splitLines stdout, jsTrim raw ≠ "" ∧
      startsWith (toLowerCase (jsTrim raw)) (toLowerCase w.outDir) = true) :
    ∃ pre raw post, splitLines stdout = pre ++ raw :: post ∧
      jsTrim raw ≠ "" ∧
      startsWith (toLowerCase (jsTrim raw)) (toLowerCase w.outDir) = true ∧
      (∀ later ∈ post, ¬ (jsTrim later ≠ "" ∧
        startsWith (toLowerCase (jsTrim later)) (toLowerCase w.outDir) = true)) ∧
      pathFromStdout w.outDir stdout = some (jsTrim raw) ∧
      (w.existsSync (jsTrim raw) = true →
        resolveOutput w audioOnly startMs stdout = some (jsTrim raw) ∧
        resolveOutputStreaming w audioOnly stdout = some (jsTrim raw)) := by
  obtain ⟨pre, raw, post, hsplit, hq, hp, hpost, hfind⟩ :=
    find_reverse_filter_map jsTrim (fun l => decide (l ≠ ""))
      (fun l => startsWith (toLowerCase l) (toLowerCase w.outDir)) (splitLines stdout)
      (by
        obtain ⟨raw, hmem, hne, hst⟩ := h
        exact ⟨raw, hmem, by simpa using hne, hst⟩)
  have hpath : pathFromStdout w.outDir stdout = some (jsTrim raw) := hfind
  refine ⟨pre, raw, post, hsplit, by simpa using hq, hp, ?_, hpath, ?_⟩
  · intro later hl hboth
    exact hpost later hl ⟨by simpa using hboth.1, hboth.2⟩
  · intro hex
    constructor
    · simp [resolveOutput, hpath, hex]
    · simp [resolveOutputStreaming, hpath, hex]

/-- Witness of C20: the tool prints the path twice, the second time in another
letter case and with white space around it. -/
theorem pathFromStdout_last_matching_line_witness :
    (∃ raw ∈ splitLines
        "/srv/app/downloads/Some_Video-ABC123.webm\n[info] done\n  /SRV/app/downloads/Some_Video-ABC123.mp4 \r\n",
      jsTrim raw ≠ "" ∧
      startsWith (toLowerCase (jsTrim raw)) (toLowerCase metadataFailureWorld.outDir) = true) ∧
    ∃ pre raw post, splitLines
        "/srv/app/downloads/Some_Video-ABC123.webm\n[info] done\n  /SRV/app/downloads/Some_Video-ABC123.mp4 \r\n" =
        pre ++ raw :: post ∧
      jsTrim raw ≠ "" ∧
      startsWith (toLowerCase (jsTrim raw)) (toLowerCase metadataFailureWorld.outDir) = true ∧
      (∀ later ∈ post, ¬ (jsTrim later ≠ "" ∧
        startsWith (toLowerCase (jsTrim later)) (toLowerCase metadataFailureWorld.outDir) =
          true)) ∧
      pathFromStdout metadataFailureWorld.outDir
        "/srv/app/downloads/Some_Video-ABC123.webm\n[info] done\n  /SRV/app/downloads/Some_Video-ABC123.mp4 \r\n" =
        some (jsTrim raw) ∧
      (metadataFailureWorld.existsSync (jsTrim raw) = true →
        resolveOutput metadataFailureWorld false 0
          "/srv/app/downloads/Some_Video-ABC123.webm\n[info] done\n  /SRV/app/downloads/Some_Video-ABC123.mp4 \r\n" =
          some (jsTrim raw) ∧
        resolveOutputStreaming metadataFailureWorld false
          "/srv/app/downloads/Some_Video-ABC123.webm\n[info] done\n  /SRV/app/downloads/Some_Video-ABC123.mp4 \r\n" =
          some (jsTrim raw)) :=
  ⟨⟨"  /SRV/app/downloads/Some_Video-ABC123.mp4 ", by decide, by decide, by decide⟩,
    pathFromStdout_last_matching_line metadataFailureWorld false 0
      "/srv/app/downloads/Some_Video-ABC123.webm\n[info] done\n  /SRV/app/downloads/Some_Video-ABC123.mp4 \r\n"
      ⟨"  /SRV/app/downloads/Some_Video-ABC123.mp4 ", by decide, by decide, by decide⟩⟩

/-! ## Output resolution and publishing: claims C21, C23 and C24 -/

/-- The directory scan with a time bound on a listing of one entry. -/
theorem getNewestFileInDirectory_single (dir name : String) (st : Stat) (exts : List String)
    (t : ℚ) (hfile : st.isFile = true) (hext : toLowerCase (extname (pathJoin dir name)) ∈ exts)
    (htime : t ≤ st.mtimeMs) :
    getNewestFileInDirectory dir [⟨name, some st⟩] (some exts) (some t) =
      some (pathJoin dir name) := by
  simp [getNewestFileInDirectory, newestFilter, hfile, hext, htime, List.insertionSort]

/-- C21 at its failing input: `yt-dlp` exits zero and its stdout names
`Some_Video-ABC123.webm` under the output directory, which does not exist,
while the directory holds the fresh file `Some_Video-ABC123.mp4`, which the
scan of `downloadWithYtDlp` would select. `downloadWithYtDlp` does not scan and
throws the output-not-found error; `downloadWithYtDlpStreaming` scans and
returns the file. -/
theorem plain_fallback_does_not_rescan :
    pathFromStdout staleStdoutWorld.outDir "/srv/app/downloads/Some_Video-ABC123.webm\n" =
      some "/srv/app/downloads/Some_Video-ABC123.webm" ∧
    staleStdoutWorld.existsSync "/srv/app/downloads/Some_Video-ABC123.webm" = false ∧
    getNewestFileInDirectory staleStdoutWorld.outDir staleStdoutWorld.dir (some (extList false))
      (some (((1700000000100 : Int) : ℚ) - 1000)) =
      some "/srv/app/downloads/Some_Video-ABC123.mp4" ∧
    (downloadWithYtDlp staleStdoutWorld "https://youtu.be/ABC123" false none 1700000000100
      ⟨[], []⟩).1 =
      Except.error "yt-dlp finished but output file could not be determined" ∧
    (downloadWithYtDlpStreaming staleStdoutWorld "https://youtu.be/ABC123" false none "job-1"
      ⟨[], []⟩).1 =
      Except.ok ⟨"/srv/app/downloads/Some_Video-ABC123.mp4", "Some_Video-ABC123.mp4",
        "/downloads/Some_Video-ABC123.mp4"⟩ := by
  refine ⟨by decide, by decide, ?_, rfl, rfl⟩
  exact getNewestFileInDirectory_single "/srv/app/downloads" "Some_Video-ABC123.mp4"
    ⟨true, 1700000000500⟩ [".mp4"] _ rfl (by decide) (by norm_num)

/-- C23 at its failing input: remote storage is configured and every upload
succeeds, the metadata fetch fails and the job has an id, so the streaming
fallback serves it. The outcome carries the local URL and nothing is uploaded,
although `getFileUrl` gives the URL of the bucket for that path and name; the
same request without a job id is served by `downloadWithYtDlp` and carries the
URL of the bucket. -/
theorem streaming_fallback_does_not_publish :
    (postDownload remoteStorageWorld sampleRequest ⟨[], []⟩).response =
      ⟨200, Outcome.toJson ⟨"/srv/app/downloads/Some_Video-ABC123.mp4", "Some_Video-ABC123.mp4",
        "/downloads/Some_Video-ABC123.mp4"⟩⟩ ∧
    (getFileUrl remoteStorageWorld.s3 "/srv/app/downloads/Some_Video-ABC123.mp4"
      "Some_Video-ABC123.mp4").1 =
      "https://media-bucket.s3.eu-west-1.amazonaws.com/downloads/Some_Video-ABC123.mp4" ∧
    Call.putObject "downloads/Some_Video-ABC123.mp4" "video/mp4" ∉
      (postDownload remoteStorageWorld sampleRequest ⟨[], []⟩).sys.trace ∧
    (postDownload remoteStorageWorld ⟨some "https://youtu.be/ABC123", none, none⟩
      ⟨[], []⟩).response =
      ⟨200, Outcome.toJson ⟨"/srv/app/downloads/Some_Video-ABC123.mp4", "Some_Video-ABC123.mp4",
        "https://media-bucket.s3.eu-west-1.amazonaws.com/downloads/Some_Video-ABC123.mp4"⟩⟩ := by
  decide

/-- The directory scan with a time bound on a listing whose only entry is older
than the bound. -/
theorem getNewestFileInDirectory_single_old (dir name : String) (st : Stat)
    (exts : List String) (t : ℚ) (ht : t ≠ 0) (htime : st.mtimeMs < t) :
    getNewestFileInDirectory dir [⟨name, some st⟩] (some exts) (some t) = none := by
  simp [getNewestFileInDirectory, newestFilter, ht, not_le.mpr htime]

/-- C24 at its failing input: the job starts at 1700000000000, `yt-dlp` exits
zero without printing a path, and the output directory holds only
`Old_Video-XYZ789.mp4`, last modified at 1600000000000. The scan of
`downloadWithYtDlpStreaming` has no time bound and returns that file; the scan
of `downloadWithYtDlp`, bounded by the start minus 1000 ms, yields nothing. -/
theorem streaming_scan_has_no_time_bound :
    (downloadWithYtDlpStreaming staleFileWorld "https://youtu.be/ABC123" false none "job-1"
      ⟨[], []⟩).1 =
      Except.ok ⟨"/srv/app/downloads/Old_Video-XYZ789.mp4", "Old_Video-XYZ789.mp4",
        "/downloads/Old_Video-XYZ789.mp4"⟩ ∧
    staleFileWorld.dir = [⟨"Old_Video-XYZ789.mp4", some ⟨true, 1600000000000⟩⟩] ∧
    (1600000000000 : ℚ) < ((staleFileWorld.t0 : Int) : ℚ) - 1000 ∧
    resolveOutputStreaming staleFileWorld false "" =
      some "/srv/app/downloads/Old_Video-XYZ789.mp4" ∧
    resolveOutput staleFileWorld false staleFileWorld.t0 "" = none := by
  refine ⟨rfl, rfl, ?_, by decide, ?_⟩
  · have h : staleFileWorld.t0 = 1700000000000 := rfl
    rw [h]
    norm_num
  · have hscan : getNewestFileInDirectory staleFileWorld.outDir staleFileWorld.dir
        (some (extList false)) (some (((staleFileWorld.t0 : Int) : ℚ) - 1000)) = none := by
      have h : staleFileWorld.t0 = 1700000000000 := rfl
      rw [h]
      exact getNewestFileInDirectory_single_old _ _ ⟨true, 1600000000000⟩ _ _ (by norm_num)
        (by norm_num)
    have hpath : pathFromStdout staleFileWorld.outDir "" = none := by decide
    simp only [resolveOutput, hpath, hscan]

/-! ## Terminal snapshots: claims C26 and C28 -/

/-- C26 at its failing input: the snapshot of `job-1` stores `file: 'a.mp4'` and
`finishProgress('job-1', false, {error: 'boom'})` is called: the stored `file`
becomes `undefined`. Symmetrically, a stored `error: 'boom'` becomes `undefined`
after `finishProgress('job-1', true, {file: 'b.mp4'})`. -/
theorem finishProgress_details_overwrite_both :
    (Assoc.get "job-1" (finishProgress "job-1" false (some [("error", JSVal.str "boom")]) 7
      [("job-1", [("status", JSVal.str "done"), ("percent", JSVal.num 100),
        ("file", JSVal.str "a.mp4")])])).map (fun s => Assoc.get "file" s) =
      some (some JSVal.undefined) ∧
    (Assoc.get "job-1" (finishProgress "job-1" true (some [("file", JSVal.str "b.mp4")]) 7
      [("job-1", [("status", JSVal.str "error"), ("percent", JSVal.num 40),
        ("error", JSVal.str "boom")])])).map (fun s => Assoc.get "error" s) =
      some (some JSVal.undefined) := by
  decide

/-- C28 at its failing input: in `POST /api/download-mp3` with a job id, ffmpeg
fails and the streaming fallback succeeds. The handler answers with the outcome
of the fallback, whose filename is `Some_Video-ABC123.mp3`, and stamps the `done`
snapshot with the name that the primary strategy had built,
`Some_ Video_-ABC123.mp3`. -/
theorem mp3_fallback_snapshot_names_primary_file :
    (postDownloadMp3 transcodeFallbackWorld sampleRequest ⟨[], []⟩).response =
      ⟨200, Outcome.toJson ⟨"/srv/app/downloads/Some_Video-ABC123.mp3", "Some_Video-ABC123.mp3",
        "/downloads/Some_Video-ABC123.mp3"⟩⟩ ∧
    (Assoc.get "job-1" (postDownloadMp3 transcodeFallbackWorld sampleRequest ⟨[], []⟩).sys.reg).map
        (fun s => (Obj.prop s "status", Assoc.get "file" s)) =
      some (JSVal.str "done", some (JSVal.str "Some_ Video_-ABC123.mp3")) := by
  decide

/-! ## The two candidate loops compared: claims C25 and C27 -/

/-- When every candidate either closes with an exit code or is not found, the
two candidate loops spawn the same processes and end in the same class. -/
theorem loops_agree_on (w : World) (url : String) (args : List String) (progressId : String)
    (cs : List Candidate) (stdout : String) (st : Sys)
    (h : ∀ c ∈ cs,
      (∃ k out err, w.launch c.cmd (c.args ++ args ++ [url]) = ChildRun.exited (some k) out err) ∨
      (∃ m, w.launch c.cmd (c.args ++ args ++ [url]) = ChildRun.failed ⟨some "ENOENT", m⟩)) :
    (streamingLoop w url args progressId cs stdout st).2.2.trace =
        st.trace ++ (runYtDlpLoop w.launch url args cs).2 ∧
      classifyLoopEnd (streamingLoop w url args progressId cs stdout st).1 =
        classifyResult (runYtDlpLoop w.launch url args cs).1 := by
  induction cs generalizing stdout st with
  | nil => simp [streamingLoop, runYtDlpLoop, classifyLoopEnd, classifyResult]
  | cons c tl ih =>
    have htl : ∀ d ∈ tl,
        (∃ k out err,
          w.launch d.cmd (d.args ++ args ++ [url]) = ChildRun.exited (some k) out err) ∨
        (∃ m, w.launch d.cmd (d.args ++ args ++ [url]) = ChildRun.failed ⟨some "ENOENT", m⟩) :=
      fun d hd => h d (List.mem_cons_of_mem c hd)
    rcases h c (List.mem_cons_self c tl) with ⟨k, out, err, hc⟩ | ⟨m, hc⟩
    · rw [streamingLoop_exited w url args progressId c tl stdout st (some k) out err hc,
        runYtDlpLoop_exited w.launch url args c tl k out err hc]
      by_cases hk : k = 0
      · simp [hk, classifyLoopEnd, classifyResult]
      · simp [hk, classifyLoopEnd, classifyResult]
    · have hs := streamingLoop_append w url args progressId [c] tl stdout st
        (fun p hp => by
          rw [List.mem_singleton] at hp
          subst hp
          exact ⟨m, hc⟩)
      have hr := runYtDlpLoop_append w.launch url args [c] tl
        (fun p hp => by
          rw [List.mem_singleton] at hp
          subst hp
          exact ⟨_, hc⟩)
      simp only [List.singleton_append] at hs hr
      obtain ⟨ih1, ih2⟩ := ih stdout
        { st with trace := st.trace ++ [c].map (spawnCall args url) } htl
      rw [hs, hr]
      refine ⟨?_, ih2⟩
      rw [ih1]
      simp

/-- C27 at its failing inputs. When `yt-dlp` fails to start with `EACCES`,
`runYtDlp` goes on to `python -m yt_dlp`, which exits zero, and succeeds, while
the streaming loop launches `yt-dlp` only and throws. When `yt-dlp` starts and
is ended by a signal, `runYtDlp` again goes on to `python -m yt_dlp` and
succeeds, while the streaming loop launches `yt-dlp` only and throws. -/
theorem loops_differ_on_spawn_error :
    (runYtDlp permissionDeniedWorld.launch "https://youtu.be/ABC123" []).2 =
      [Call.spawn "yt-dlp" ["https://youtu.be/ABC123"],
       Call.spawn "python" ["-m", "yt_dlp", "https://youtu.be/ABC123"]] ∧
    (streamingLoop permissionDeniedWorld "https://youtu.be/ABC123" [] "job-1" commands ""
      ⟨[], []⟩).2.2.trace = [Call.spawn "yt-dlp" ["https://youtu.be/ABC123"]] ∧
    classifyResult (runYtDlp permissionDeniedWorld.launch "https://youtu.be/ABC123" []).1 =
      RunClass.succeeded ∧
    classifyLoopEnd (streamingLoop permissionDeniedWorld "https://youtu.be/ABC123" [] "job-1"
      commands "" ⟨[], []⟩).1 = RunClass.toolError ∧
    (runYtDlp signalEndedWorld.launch "https://youtu.be/ABC123" []).2 ≠
      (streamingLoop signalEndedWorld "https://youtu.be/ABC123" [] "job-1" commands ""
        ⟨[], []⟩).2.2.trace ∧
    classifyResult (runYtDlp signalEndedWorld.launch "https://youtu.be/ABC123" []).1 =
      RunClass.succeeded ∧
    classifyLoopEnd (streamingLoop signalEndedWorld "https://youtu.be/ABC123" [] "job-1"
      commands "" ⟨[], []⟩).1 = RunClass.toolError := by
  decide

/-- Where the two loops do agree: when every candidate either closes with an
exit code or is not found (`ENOENT`), they launch the same sequence of
candidates with the same arguments and end in the same class. -/
theorem candidate_loops_agree (w : World) (url : String) (args : List String)
    (progressId stdout : String) (st : Sys)
    (h : ∀ c ∈ commands,
      (∃ k out err, w.launch c.cmd (c.args ++ args ++ [url]) = ChildRun.exited (some k) out err) ∨
      (∃ m, w.launch c.cmd (c.args ++ args ++ [url]) = ChildRun.failed ⟨some "ENOENT", m⟩)) :
    (streamingLoop w url args progressId commands stdout st).2.2.trace =
        st.trace ++ (runYtDlp w.launch url args).2 ∧
      classifyLoopEnd (streamingLoop w url args progressId commands stdout st).1 =
        classifyResult (runYtDlp w.launch url args).1 :=
  loops_agree_on w url args progressId commands stdout st h

/-- The processes spawned by `runYtDlp` are a leading part of the candidate list,
each with its own arguments, the shared arguments and the url. -/
theorem runYtDlpLoop_trace_take (launch : String → List String → ChildRun) (url : String)
    (args : List String) (cs : List Candidate) :
    ∃ n, (runYtDlpLoop launch url args cs).2 = (cs.take (n + 1)).map (spawnCall args url) := by
  induction cs with
  | nil => exact ⟨0, rfl⟩
  | cons c tl ih =>
    obtain ⟨n, hn⟩ := ih
    simp only [runYtDlpLoop]
    split
    · exact ⟨0, rfl⟩
    · split
      · exact ⟨0, rfl⟩
      · exact ⟨n + 1, by simp [hn, spawnCall]⟩

/-- The processes spawned by the streaming loop are a leading part of the
candidate list, each with its own arguments, the shared arguments and the url. -/
theorem streamingLoop_trace_take (w : World) (url : String) (args : List String)
    (progressId : String) (cs : List Candidate) (stdout : String) (st : Sys) :
    ∃ n, (streamingLoop w url args progressId cs stdout st).2.2.trace =
      st.trace ++ (cs.take (n + 1)).map (spawnCall args url) := by
  induction cs generalizing st with
  | nil => exact ⟨0, by simp [streamingLoop]⟩
  | cons c tl ih =>
    simp only [streamingLoop]
    split
    · split
      · exact ⟨0, rfl⟩
      · exact ⟨0, rfl⟩
    · split
      · obtain ⟨n, hn⟩ := ih
          { st with trace := st.trace ++ [Call.spawn c.cmd (c.args ++ args ++ [url])] }
        exact ⟨n + 1, by rw [hn]; simp [spawnCall]⟩
      · exact ⟨0, rfl⟩

/-- The calls of `getFileUrl` are no `spawn` calls. -/
theorem getFileUrl_no_spawn (s3 : Option S3Config) (filePath filename : String) :
    ∀ c ∈ (getFileUrl s3 filePath filename).2, ∀ cmd args, c ≠ Call.spawn cmd args := by
  intro c hc cmd args heq
  cases s3 with
  | none => simp [getFileUrl] at hc
  | some cfg =>
    subst heq
    by_cases h1 : cfg.uploadOk filePath = true <;> by_cases h2 : cfg.cleanupLocalFiles = true <;>
      simp [getFileUrl, h1, h2] at hc

/-- The plain fallback spawns a leading part of the candidate list with the
shared arguments, and nothing else it calls is a `spawn`. -/
theorem downloadWithYtDlp_spawns (w : World) (url : String) (audioOnly : Bool)
    (bitrate : Option Nat) (startMs : Int) (st : Sys) :
    ∃ n rest, (downloadWithYtDlp w url audioOnly bitrate startMs st).2.trace =
        st.trace ++ Call.downloadWithYtDlp url audioOnly (bitrate.getD 192) ::
          ((commands.take (n + 1)).map (spawnCall
            (modeArgs audioOnly (bitrate.getD 192) ++ baseArgs w.outDir w.ffmpegBin) url) ++ rest) ∧
      ∀ c ∈ rest, ∀ cmd args, c ≠ Call.spawn cmd args := by
  obtain ⟨n, hn⟩ := runYtDlpLoop_trace_take w.launch url
    (modeArgs audioOnly (bitrate.getD 192) ++ baseArgs w.outDir w.ffmpegBin) commands
  unfold downloadWithYtDlp
  simp only [runYtDlp]
  split
  · exact ⟨n, [], by simp [hn], by simp⟩
  · split
    · exact ⟨n, [], by simp [hn], by simp⟩
    · exact ⟨n, _, by simp [hn]; rfl, getFileUrl_no_spawn _ _ _⟩

/-- The streaming fallback spawns a leading part of the candidate list with the
shared arguments and calls nothing else. -/
theorem downloadWithYtDlpStreaming_spawns (w : World) (url : String) (audioOnly : Bool)
    (bitrate : Option Nat) (progressId : String) (st : Sys) :
    ∃ n, (downloadWithYtDlpStreaming w url audioOnly bitrate progressId st).2.trace =
        st.trace ++ Call.downloadWithYtDlpStreaming url audioOnly (bitrate.getD 192) progressId ::
          (commands.take (n + 1)).map (spawnCall
            (modeArgs audioOnly (bitrate.getD 192) ++ baseArgs w.outDir w.ffmpegBin) url) := by
  obtain ⟨n, hn⟩ := streamingLoop_trace_take w url
    (modeArgs audioOnly (bitrate.getD 192) ++ baseArgs w.outDir w.ffmpegBin) progressId commands ""
    { st with trace := st.trace ++
        [Call.downloadWithYtDlpStreaming url audioOnly (bitrate.getD 192) progressId] }
  refine ⟨n, ?_⟩
  unfold downloadWithYtDlpStreaming
  simp only []
  split
  · simpa using hn
  · simpa using hn
  · split
    · simpa using hn
    · split <;> simpa using hn

/-- Claim C25, the statement as given fails: when a local ffmpeg binary is
found, the argument vector of the fallback holds `--ffmpeg-location` and the
path of the binary between the `--print` directives and the url. -/
theorem argument_vector_with_local_ffmpeg :
    (downloadWithYtDlp localFfmpegWorld "https://youtu.be/ABC123" true (some 320)
        1700000000000 ⟨[], []⟩).2.trace =
      [Call.downloadWithYtDlp "https://youtu.be/ABC123" true 320,
       Call.spawn "yt-dlp"
        ["-f", "bestaudio/best", "--extract-audio", "--audio-format", "mp3",
         "--audio-quality", "320", "--no-playlist", "--restrict-filenames", "-o",
         "/srv/app/downloads/%(title).150B-%(id)s.%(ext)s", "--print", "after_move:filepath",
         "--print", "filepath", "--print", "filename", "--ffmpeg-location", "/usr/bin/ffmpeg",
         "https://youtu.be/ABC123"]] ∧
    (downloadWithYtDlpStreaming localFfmpegWorld "https://youtu.be/ABC123" true (some 320)
        "job-1" ⟨[], []⟩).2.trace =
      [Call.downloadWithYtDlpStreaming "https://youtu.be/ABC123" true 320 "job-1",
       Call.spawn "yt-dlp"
        ["-f", "bestaudio/best", "--extract-audio", "--audio-format", "mp3",
         "--audio-quality", "320", "--no-playlist", "--restrict-filenames", "-o",
         "/srv/app/downloads/%(title).150B-%(id)s.%(ext)s", "--print", "after_move:filepath",
         "--print", "filepath", "--print", "filename", "--ffmpeg-location", "/usr/bin/ffmpeg",
         "https://youtu.be/ABC123"]] := by
  constructor <;> decide

/-- Claim C25, amended: for every url, audioOnly flag and bitrate, every process
that either fallback variant spawns is a candidate of the list, taken in order
from its head (the first one always), and gets the arguments of the candidate, then the format
selector (with the mp3 flags and the bitrate as a decimal string when
audioOnly), then `--no-playlist`, `--restrict-filenames`, `-o` with the
template under the output directory and the three `--print` directives, then
`--ffmpeg-location` and the path of the binary when a local ffmpeg is found,
then the url as the last element. -/
theorem fallback_argument_vector (w : World) (url : String) (audioOnly : Bool)
    (bitrate : Option Nat) (startMs : Int) (progressId : String) (st : Sys) :
    (∃ n rest, (downloadWithYtDlp w url audioOnly bitrate startMs st).2.trace =
        st.trace ++ Call.downloadWithYtDlp url audioOnly (bitrate.getD 192) ::
          ((commands.take (n + 1)).map (fun c => Call.spawn c.cmd (c.args ++
            ((if audioOnly then
                ["-f", "bestaudio/best", "--extract-audio", "--audio-format", "mp3",
                 "--audio-quality", toString (bitrate.getD 192)]
              else ["-f", "bv*[ext=mp4]+ba[ext=m4a]/b[ext=mp4]/b"]) ++
             (["--no-playlist", "--restrict-filenames", "-o",
               pathJoin w.outDir "%(title).150B-%(id)s.%(ext)s",
               "--print", "after_move:filepath", "--print", "filepath", "--print", "filename"] ++
              (match w.ffmpegBin with
               | some bin => ["--ffmpeg-location", bin]
               | none => []))) ++ [url])) ++ rest) ∧
      ∀ c ∈ rest, ∀ cmd args, c ≠ Call.spawn cmd args) ∧
    (∃ n, (downloadWithYtDlpStreaming w url audioOnly bitrate progressId st).2.trace =
        st.trace ++ Call.downloadWithYtDlpStreaming url audioOnly (bitrate.getD 192) progressId ::
          (commands.take (n + 1)).map (fun c => Call.spawn c.cmd (c.args ++
            ((if audioOnly then
                ["-f", "bestaudio/best", "--extract-audio", "--audio-format", "mp3",
                 "--audio-quality", toString (bitrate.getD 192)]
              else ["-f", "bv*[ext=mp4]+ba[ext=m4a]/b[ext=mp4]/b"]) ++
             (["--no-playlist", "--restrict-filenames", "-o",
               pathJoin w.outDir "%(title).150B-%(id)s.%(ext)s",
               "--print", "after_move:filepath", "--print", "filepath", "--print", "filename"] ++
              (match w.ffmpegBin with
               | some bin => ["--ffmpeg-location", bin]
               | none => []))) ++ [url]))) :=
  ⟨downloadWithYtDlp_spawns w url audioOnly bitrate startMs st,
   downloadWithYtDlpStreaming_spawns w url audioOnly bitrate progressId st⟩

/-! ## Progress lines of the tool: claim C22 -/

/-- The pattern on sample chunks: a line without `ETA`, a percentage and its
`ETA` on different lines, an integer percentage, and an `ETA` of three fields,
which is read on its first two. -/
theorem matchProgress_samples :
    matchProgress "[download] Destination: /srv/app/downloads/Some_Video-ABC123.mp4" = none ∧
    matchProgress "[download]  42.1% of 10.00MiB\nETA 00:03" = none ∧
    matchProgress "[download] 100% of 10.00MiB at 2.00MiB/s ETA 00:00" =
      some ⟨['1', '0', '0'], ['0', '0'], ['0', '0']⟩ ∧
    matchProgress "[download]   0.3% of 2.10GiB at 400.00KiB/s ETA 01:25:13" =
      some ⟨['0', '.', '3'], ['0', '1'], ['2', '5']⟩ := by
  decide

/-- A digit is no white space. -/
theorem isDigit_not_space (c : Char) (h : isDigit c = true) : isJsSpace c = false := by
  simp only [isDigit, Bool.and_eq_true, decide_eq_true_eq] at h
  simp only [isJsSpace, Bool.or_eq_false_iff, Bool.and_eq_false_imp, decide_eq_false_iff_not,
    decide_eq_true_eq]
  omega

theorem dropWhile_append_stop {α : Type} (p : α → Bool) (l r : List α) (a : α)
    (hl : ∀ x ∈ l, p x = true) (ha : p a = false) :
    (l ++ a :: r).dropWhile p = a :: r := by
  induction l with
  | nil => simp [List.dropWhile, ha]
  | cons x xs ih =>
    have hx : p x = true := hl x (List.mem_cons_self x xs)
    simp [List.dropWhile, hx, ih (fun y hy => hl y (List.mem_cons_of_mem x hy))]

/-- The part `ETA\s+(\d{2}):(\d{2})` matches a text of that shape. -/
theorem matchEta_of_EtaAt (l mm ss : List Char) (h : EtaAt l mm ss) :
    matchEta l = some (mm, ss) := by
  obtain ⟨ws, post, hl, hne, hws, ⟨a, b, hmm, ha, hb⟩, ⟨c, d, hss, hc, hd⟩⟩ := h
  subst hmm hss
  cases ws with
  | nil => exact absurd rfl hne
  | cons sp ws' =>
    have hsp : isJsSpace sp = true := hws sp (List.mem_cons_self sp ws')
    have hdrop : (ws' ++ a :: (b :: ':' :: c :: d :: post)).dropWhile isJsSpace =
        a :: (b :: ':' :: c :: d :: post) :=
      dropWhile_append_stop _ _ _ _ (fun x hx => hws x (List.mem_cons_of_mem sp hx))
        (isDigit_not_space a ha)
    have hl2 : l = 'E' :: 'T' :: 'A' :: sp :: (ws' ++ a :: (b :: ':' :: c :: d :: post)) := by
      rw [hl]
      simp
    rw [hl2]
    simp only [matchEta, hsp, and_self, if_true, hdrop, ha, hb, hc, hd, decide_True,
      Bool.and_self]

/-- The part `ETA\s+(\d{2}):(\d{2})` matches texts of that shape only. -/
theorem EtaAt_of_matchEta (l mm ss : List Char) (h : matchEta l = some (mm, ss)) :
    EtaAt l mm ss := by
  unfold matchEta at h
  split at h
  · rename_i e t a sp rest
    split at h
    · rename_i hcond
      obtain ⟨he, ht, ha, hsp⟩ := hcond
      subst he ht ha
      split at h
      · rename_i m1 m2 colon s1 s2 tail hdrop
        split at h
        · rename_i hdig
          simp only [Bool.and_eq_true, decide_eq_true_eq] at hdig
          obtain ⟨⟨⟨⟨h1, h2⟩, h3⟩, h4⟩, h5⟩ := hdig
          simp only [Option.some.injEq, Prod.mk.injEq] at h
          obtain ⟨hmm, hss⟩ := h
          subst hmm hss h3
          refine ⟨sp :: rest.takeWhile isJsSpace, tail, ?_, by simp, ?_, ⟨m1, m2, rfl, h1, h2⟩,
            ⟨s1, s2, rfl, h4, h5⟩⟩
          · have := List.takeWhile_append_dropWhile isJsSpace rest
            rw [hdrop] at this
            simp only [List.cons_append, List.append_assoc, List.singleton_append,
              List.nil_append]
            rw [this]
          · intro c hc
            rcases List.mem_cons.mp hc with hc | hc
            · rw [hc]
              exact hsp
            · exact (List.mem_takeWhile_imp hc)
        · simp at h
      · simp at h
    · simp at h
  · simp at h

theorem matchEta_iff (l mm ss : List Char) : matchEta l = some (mm, ss) ↔ EtaAt l mm ss :=
  ⟨EtaAt_of_matchEta l mm ss, matchEta_of_EtaAt l mm ss⟩

/-- What `matchLazyEta` finds: the first place on the line where `ETA`, white
space and `MM:SS` stand. -/
theorem matchLazyEta_some (l : List Char) (r : List Char × List Char)
    (h : matchLazyEta l = some r) :
    ∃ mid rest, l = mid ++ rest ∧ (∀ c ∈ mid, isLineTerminator c = false) ∧
      matchEta rest = some r ∧
      ∀ mid1 mid2, mid = mid1 ++ mid2 → mid2 ≠ [] → matchEta (mid2 ++ rest) = none := by
  induction l with
  | nil => simp [matchLazyEta] at h
  | cons c tl ih =>
    unfold matchLazyEta at h
    cases hm : matchEta (c :: tl) with
    | some r2 =>
      rw [hm] at h
      simp only [Option.some.injEq] at h
      subst h
      refine ⟨[], c :: tl, rfl, by simp, hm, ?_⟩
      intro mid1 mid2 h1 h2
      have : mid2 = [] := by
        have := congrArg List.length h1
        simp at this
        exact List.length_eq_zero.mp (by omega)
      exact absurd this h2
    | none =>
      rw [hm] at h
      simp only at h
      by_cases hlt : isLineTerminator c = true
      · simp [hlt] at h
      · simp only [hlt, Bool.false_eq_true, if_false] at h
        obtain ⟨mid, rest, h1, h2, h3, h4⟩ := ih h
        refine ⟨c :: mid, rest, by rw [h1]; rfl, ?_, h3, ?_⟩
        · intro x hx
          rcases List.mem_cons.mp hx with hx | hx
          · rw [hx]
            simpa using hlt
          · exact h2 x hx
        · intro mid1 mid2 hsplit hne
          cases mid1 with
          | nil =>
            simp only [List.nil_append] at hsplit
            rw [← hsplit, List.cons_append, ← h1]
            exact hm
          | cons y ys =>
            simp only [List.cons_append, List.cons.injEq] at hsplit
            exact h4 ys mid2 hsplit.2 hne

/-- The lazy part finds an `ETA` whenever one stands later on the line. -/
theorem matchLazyEta_complete (mid rest : List Char) (r : List Char × List Char)
    (hmid : ∀ c ∈ mid, isLineTerminator c = false) (h : matchEta rest = some r) :
    ∃ r2, matchLazyEta (mid ++ rest) = some r2 := by
  induction mid with
  | nil =>
    cases rest with
    | nil => simp [matchEta] at h
    | cons c tl =>
      refine ⟨r, ?_⟩
      simp only [List.nil_append, matchLazyEta, h]
  | cons c tl ih =>
    have hc : isLineTerminator c = false := hmid c (List.mem_cons_self c tl)
    obtain ⟨r2, hr2⟩ := ih (fun x hx => hmid x (List.mem_cons_of_mem c hx))
    simp only [List.cons_append, matchLazyEta]
    cases hm : matchEta (c :: (tl ++ rest)) with
    | some r3 => exact ⟨r3, rfl⟩
    | none =>
      refine ⟨r2, ?_⟩
      simp only [hc, Bool.false_eq_true, if_false]
      exact hr2

/-- A match of one way through the number group: the digits, the optional
fraction, `%` and the rest of the pattern. -/
theorem matchNumber_some (wf : Bool) (n : Nat) (l : List Char) (m : ProgressMatch)
    (h : matchNumber wf n l = some m) :
    ∃ ds tail, ds.length = n ∧ (∀ c ∈ ds, isDigit c = true) ∧ l = m.percent ++ '%' :: tail ∧
      (m.percent = ds ∨ ∃ f, isDigit f = true ∧ m.percent = ds ++ ['.', f]) ∧
      matchLazyEta tail = some (m.minutes, m.seconds) := by
  unfold matchNumber at h
  simp only [] at h
  split at h
  · rename_i hds
    obtain ⟨hlen, hall⟩ := hds
    have hall2 : ∀ c ∈ l.take n, isDigit c = true := by
      simpa [List.all_eq_true] using hall
    have hsplit := List.take_append_drop n l
    split at h
    · rename_i dot f pct rest hdrop
      split at h
      · rename_i hc
        obtain ⟨hdot, hf, hpct⟩ := hc
        subst hdot hpct
        cases hr : matchLazyEta rest with
        | none => simp [hr] at h
        | some r =>
          simp only [hr, Option.map_some', Option.some.injEq] at h
          subst h
          refine ⟨l.take n, rest, hlen, hall2, ?_, Or.inr ⟨f, hf, rfl⟩, hr⟩
          have hl : l = l.take n ++ '.' :: f :: '%' :: rest := by
            rw [← hdrop]
            exact hsplit.symm
          simp only [List.append_assoc, List.cons_append, List.nil_append]
          exact hl
      · simp at h
    · rename_i pct rest hdrop
      split at h
      · rename_i hpct
        subst hpct
        cases hr : matchLazyEta rest with
        | none => simp [hr] at h
        | some r =>
          simp only [hr, Option.map_some', Option.some.injEq] at h
          subst h
          refine ⟨l.take n, rest, hlen, hall2, ?_, Or.inl rfl, hr⟩
          rw [← hdrop]
          exact hsplit.symm
      · simp at h
    · simp at h
  · simp at h

theorem matchNumber_fraction (ds tail : List Char) (f : Char) (r : List Char × List Char)
    (hds : ∀ c ∈ ds, isDigit c = true) (hf : isDigit f = true)
    (hr : matchLazyEta tail = some r) :
    matchNumber true ds.length (ds ++ '.' :: f :: '%' :: tail) =
      some ⟨ds ++ ['.', f], r.1, r.2⟩ := by
  have hall : (ds.all isDigit) = true := by simpa [List.all_eq_true] using hds
  simp [matchNumber, hall, hf, hr]

theorem matchNumber_whole (ds tail : List Char) (r : List Char × List Char)
    (hds : ∀ c ∈ ds, isDigit c = true) (hr : matchLazyEta tail = some r) :
    matchNumber false ds.length (ds ++ '%' :: tail) = some ⟨ds, r.1, r.2⟩ := by
  have hall : (ds.all isDigit) = true := by simpa [List.all_eq_true] using hds
  simp [matchNumber, hall, hr]

/-- The alternatives of `matchProgressAt`, in the order in which they are tried. -/
theorem matchProgressAt_eq (l : List Char) :
    matchProgressAt l =
      [(true, 3), (true, 2), (true, 1), (false, 3), (false, 2), (false, 1)].findSome?
        (fun a => matchNumber a.1 a.2 l) := by
  unfold matchProgressAt
  simp only [List.findSome?]
  generalize matchNumber true 3 l = a1
  generalize matchNumber true 2 l = a2
  generalize matchNumber true 1 l = a3
  generalize matchNumber false 3 l = a4
  generalize matchNumber false 2 l = a5
  generalize matchNumber false 1 l = a6
  cases a1 <;> cases a2 <;> cases a3 <;> cases a4 <;> cases a5 <;> cases a6 <;> rfl

/-- A match of the pattern at the start of a text has the shape that the
pattern describes, with the first `ETA` after the `%`. -/
theorem matchProgressAt_some (l : List Char) (m : ProgressMatch)
    (h : matchProgressAt l = some m) : FirstProgressAt l m := by
  rw [matchProgressAt_eq] at h
  obtain ⟨a, ha, hnum⟩ := List.exists_of_findSome?_eq_some h
  obtain ⟨ds, tail, hlen, hds, hl, hp, htail⟩ := matchNumber_some a.1 a.2 l m hnum
  obtain ⟨mid, rest, h1, h2, h3, h4⟩ := matchLazyEta_some tail _ htail
  have hn : 1 ≤ a.2 ∧ a.2 ≤ 3 := by
    simp only [List.mem_cons, List.mem_singleton, List.not_mem_nil, or_false] at ha
    rcases ha with h | h | h | h | h | h <;> rw [h] <;> simp
  refine ⟨mid, rest, by rw [hl, h1], ⟨ds, ?_, by omega, hds, hp⟩, h2,
    EtaAt_of_matchEta _ _ _ h3, ?_⟩
  · intro hnil
    rw [hnil] at hlen
    simp at hlen
    omega
  · intro mid1 mid2 mm ss hsplit hne hEta
    have := matchEta_of_EtaAt _ _ _ hEta
    rw [h4 mid1 mid2 hsplit hne] at this
    simp at this

/-- The pattern matches at the start of every text of the shape it describes. -/
theorem matchProgressAt_complete (l : List Char) (m : ProgressMatch) (h : ProgressAt l m) :
    ∃ m2, matchProgressAt l = some m2 := by
  obtain ⟨mid, rest, hl, ⟨ds, hne, hlen, hds, hp⟩, hmid, hEta⟩ := h
  obtain ⟨r, hr⟩ := matchLazyEta_complete mid rest _ hmid (matchEta_of_EtaAt _ _ _ hEta)
  have hlen1 : 1 ≤ ds.length := by
    cases ds with
    | nil => exact absurd rfl hne
    | cons _ _ => simp
  have hsome : ∃ a ∈ [(true, 3), (true, 2), (true, 1), (false, 3), (false, 2), (false, 1)],
      (matchNumber a.1 a.2 l).isSome = true := by
    rcases hp with hp | ⟨f, hf, hp⟩
    · refine ⟨(false, ds.length), ?_, ?_⟩
      · simp only [List.mem_cons, Prod.mk.injEq, Bool.false_eq_true, false_and, true_and,
          List.mem_singleton, List.not_mem_nil, or_false, false_or]
        omega
      · rw [hl, hp]
        simp only []
        rw [matchNumber_whole ds (mid ++ rest) r hds hr]
        rfl
    · refine ⟨(true, ds.length), ?_, ?_⟩
      · simp only [List.mem_cons, Prod.mk.injEq, true_and, Bool.true_eq_false, false_and,
          List.mem_singleton, List.not_mem_nil, or_false]
        omega
      · rw [hl, hp]
        simp only [List.append_assoc, List.cons_append, List.nil_append]
        rw [matchNumber_fraction ds (mid ++ rest) f r hds hf hr]
        rfl
  rw [matchProgressAt_eq]
  have := List.findSome?_isSome_iff.mpr hsome
  exact Option.isSome_iff_exists.mp this

/-- The value of `matchProgressFrom`: the match at the leftmost place where the
pattern matches. -/
theorem matchProgressFrom_some (l : List Char) (m : ProgressMatch)
    (h : matchProgressFrom l = some m) :
    ∃ pre rest, l = pre ++ rest ∧ matchProgressAt rest = some m ∧
      ∀ pre2 rest2, l = pre2 ++ rest2 → pre2.length < pre.length →
        matchProgressAt rest2 = none := by
  induction l with
  | nil => simp [matchProgressFrom] at h
  | cons c tl ih =>
    unfold matchProgressFrom at h
    cases hat : matchProgressAt (c :: tl) with
    | some m2 =>
      rw [hat] at h
      simp only [Option.orElse, Option.some.injEq] at h
      subst h
      exact ⟨[], c :: tl, rfl, hat, fun _ _ _ hlt => by simp at hlt⟩
    | none =>
      rw [hat] at h
      simp only [Option.orElse] at h
      obtain ⟨pre, rest, h1, h2, h3⟩ := ih h
      refine ⟨c :: pre, rest, by rw [h1]; rfl, h2, ?_⟩
      intro pre2 rest2 hsplit hlt
      cases pre2 with
      | nil =>
        simp only [List.nil_append] at hsplit
        rw [← hsplit]
        exact hat
      | cons y ys =>
        simp only [List.cons_append, List.cons.injEq] at hsplit
        exact h3 ys rest2 hsplit.2 (by simpa using hlt)

theorem matchProgressAt_nil : matchProgressAt [] = none := by decide

/-- Without a match there is no place in the text where the pattern matches. -/
theorem matchProgressFrom_none (l : List Char) (h : matchProgressFrom l = none) :
    ∀ pre rest, l = pre ++ rest → matchProgressAt rest = none := by
  induction l with
  | nil =>
    intro pre rest hsplit
    have : rest = [] := by
      cases pre <;> cases rest <;> simp at hsplit ⊢
    rw [this]
    exact matchProgressAt_nil
  | cons c tl ih =>
    unfold matchProgressFrom at h
    cases hat : matchProgressAt (c :: tl) with
    | some m2 =>
      rw [hat] at h
      simp [Option.orElse] at h
    | none =>
      rw [hat] at h
      simp only [Option.orElse] at h
      intro pre rest hsplit
      cases pre with
      | nil =>
        simp only [List.nil_append] at hsplit
        rw [← hsplit]
        exact hat
      | cons y ys =>
        simp only [List.cons_append, List.cons.injEq] at hsplit
        exact ih h ys rest hsplit.2

theorem ProgressAt_of_first (l : List Char) (m : ProgressMatch) (h : FirstProgressAt l m) :
    ProgressAt l m := by
  obtain ⟨mid, rest, h1, h2, h3, h4, _⟩ := h
  exact ⟨mid, rest, h1, h2, h3, h4⟩

/-- The pattern finds nothing exactly in the chunks that hold no percentage
followed on its line by `ETA`, white space and `MM:SS`. -/
theorem matchProgress_none_iff (text : String) :
    matchProgress text = none ↔ ¬ ContainsProgress text.data := by
  constructor
  · intro hm hc
    obtain ⟨pre, rest, m, hsplit, hat⟩ := hc
    obtain ⟨m2, hm2⟩ := matchProgressAt_complete rest m hat
    have := matchProgressFrom_none text.data hm pre rest hsplit
    rw [this] at hm2
    cases hm2
  · intro hnc
    cases hm : matchProgress text with
    | none => rfl
    | some m =>
      obtain ⟨pre, rest, hsplit, hat, _⟩ := matchProgressFrom_some text.data m hm
      exact absurd ⟨pre, rest, m, hsplit, ProgressAt_of_first _ _ (matchProgressAt_some rest m hat)⟩
        hnc

/-- C22, as stated, fails on a line that the tool prints for a long download:
for `ETA 01:25:13` (5113 seconds) the listener reads the first two fields and
stores 85. -/
theorem stderr_eta_with_hours :
    (Assoc.get "job-1" (onStderrData "job-1"
        "[download]   0.3% of 2.10GiB at 400.00KiB/s ETA 01:25:13" 1700000000900 [])).map
        (fun s => Obj.prop s "etaSeconds") = some (JSVal.num 85) ∧
    (85 : ℚ) ≠ 1 * 3600 + 25 * 60 + 13 := by
  decide!

/-- C22, amended: for a non-empty job id, every stderr chunk of a candidate that
ran goes through the listener, in order, and after a chunk the snapshot of the
id has status `downloading`. When the chunk contains a percentage (one to three
digits, optionally a dot and one digit, then `%`) followed on the same line by
`ETA`, white space, two digits, `:` and two digits, the listener takes the
leftmost such percentage and the first such `ETA` after it: percent is that
percentage as a number, clamped to [0, 100], and etaSeconds is 60 times the
first two digits plus the second two, which is the printed ETA in seconds only
when the tool printed it as `MM:SS`. When the chunk contains no such text,
percent and etaSeconds are those of the snapshot before the chunk (of the
starting snapshot when there was none). -/
theorem stderr_chunk_progress (progressId text : String) (now : Int) (reg : ProgressStates)
    (hid : progressId ≠ "") :
    (∃ s, Assoc.get progressId (onStderrData progressId text now reg) = some s ∧
      Obj.prop s "status" = JSVal.str "downloading" ∧
      (ContainsProgress text.data →
        ∃ pre rest m, text.data = pre ++ rest ∧ FirstProgressAt rest m ∧
          (∀ pre2 rest2 m2, text.data = pre2 ++ rest2 → ProgressAt rest2 m2 →
            pre.length ≤ pre2.length) ∧
          matchProgress text = some m ∧
          Obj.prop s "percent" = JSVal.num (max 0 (min 100 (parseFloatCapture m.percent))) ∧
          Obj.prop s "etaSeconds" =
            JSVal.num ((parseDigits m.minutes * 60 + parseDigits m.seconds : Nat) : ℚ)) ∧
      (¬ ContainsProgress text.data →
        matchProgress text = none ∧
        Obj.prop s "percent" =
          Obj.prop ((Assoc.get progressId reg).getD (startingSnapshot now)) "percent" ∧
        Obj.prop s "etaSeconds" =
          Obj.prop ((Assoc.get progressId reg).getD (startingSnapshot now)) "etaSeconds")) ∧
    (∀ (w : World) (url : String) (args : List String) (c : Candidate) (rest : List Candidate)
        (stdout : String) (st : Sys) (code : Option Int) (out : String) (chunks : List String),
      w.launch c.cmd (c.args ++ args ++ [url]) = ChildRun.exited code out chunks →
      (streamingLoop w url args progressId (c :: rest) stdout st).2.2.reg =
        chunks.foldl (fun r chunk => onStderrData progressId chunk w.tDone r) st.reg) := by
  constructor
  · cases hm : matchProgress text with
    | none =>
      have hnc : ¬ ContainsProgress text.data := (matchProgress_none_iff text).mp hm
      refine ⟨Obj.spread ((Assoc.get progressId reg).getD (startingSnapshot now))
        [("status", JSVal.str "downloading")], ?_, ?_, fun hc => absurd hc hnc,
        fun _ => ⟨rfl, ?_, ?_⟩⟩
      · simp only [onStderrData, hm, hid, ne_eq, not_false_eq_true, if_true]
        exact get_setProgress_same progressId _ now reg hid
      · rw [Obj.prop, Obj.get_spread _ _ (by simp [Obj.WF, Assoc.keys])]
        simp [Assoc.get]
      all_goals
        rw [Obj.prop, Obj.get_spread _ _ (by simp [Obj.WF, Assoc.keys])]
        simp [Assoc.get, Obj.prop]
    | some m =>
      obtain ⟨pre, rest, hsplit, hat, hleft⟩ := matchProgressFrom_some text.data m hm
      have hfirst := matchProgressAt_some rest m hat
      refine ⟨Obj.spread ((Assoc.get progressId reg).getD (startingSnapshot now))
        [("status", JSVal.str "downloading"),
         ("percent", JSVal.num (max 0 (min 100 (parseFloatCapture m.percent)))),
         ("etaSeconds",
          JSVal.num ((parseDigits m.minutes * 60 + parseDigits m.seconds : Nat) : ℚ))],
        ?_, ?_, fun _ => ⟨pre, rest, m, hsplit, hfirst, ?_, rfl, ?_, ?_⟩,
        fun hnc => absurd ⟨pre, rest, m, hsplit, ProgressAt_of_first _ _ hfirst⟩ hnc⟩
      · simp only [onStderrData, hm, hid, ne_eq, not_false_eq_true, if_true]
        exact get_setProgress_same progressId _ now reg hid
      · rw [Obj.prop, Obj.get_spread _ _ (by simp [Obj.WF, Assoc.keys])]
        simp [Assoc.get]
      · intro pre2 rest2 m2 hs2 hat2
        by_contra hlt
        have hnone := hleft pre2 rest2 hs2 (by omega)
        obtain ⟨m3, hm3⟩ := matchProgressAt_complete rest2 m2 hat2
        rw [hnone] at hm3
        cases hm3
      all_goals
        rw [Obj.prop, Obj.get_spread _ _ (by simp [Obj.WF, Assoc.keys])]
        simp [Assoc.get]
  · intro w url args c rest stdout st code out chunks h
    simp only [streamingLoop, h]
    split <;> rfl

/-- Amended C22 on the line
`[download]  42.1% of 10.00MiB at 2.00MiB/s ETA 00:03`: percent is the number
42.1 and the eta is 3. -/
theorem stderr_chunk_progress_witness :
    ("job-1" : String) ≠ "" ∧
    ContainsProgress "[download]  42.1% of 10.00MiB at 2.00MiB/s ETA 00:03".data ∧
    ∃ s, Assoc.get "job-1" (onStderrData "job-1"
          "[download]  42.1% of 10.00MiB at 2.00MiB/s ETA 00:03" 1700000000900 []) = some s ∧
      Obj.prop s "status" = JSVal.str "downloading" ∧
      Obj.prop s "percent" = JSVal.num (roundDouble (421 / 10)) ∧
      Obj.prop s "etaSeconds" = JSVal.num 3 := by
  have hc : ContainsProgress "[download]  42.1% of 10.00MiB at 2.00MiB/s ETA 00:03".data := by
    by_contra hnc
    have := (matchProgress_none_iff _).mpr hnc
    revert this
    decide
  obtain ⟨⟨s, hs, hst, hm, _⟩, _⟩ := stderr_chunk_progress "job-1"
    "[download]  42.1% of 10.00MiB at 2.00MiB/s ETA 00:03" 1700000000900 [] (by decide)
  obtain ⟨_, _, m, _, _, _, hmatch, hp, he⟩ := hm hc
  have hmv : m = ⟨['4', '2', '.', '1'], ['0', '0'], ['0', '3']⟩ := by
    have h2 : matchProgress "[download]  42.1% of 10.00MiB at 2.00MiB/s ETA 00:03" =
        some ⟨['4', '2', '.', '1'], ['0', '0'], ['0', '3']⟩ := by decide
    rw [h2] at hmatch
    exact (Option.some.inj hmatch).symm
  subst hmv
  refine ⟨by decide, hc, s, hs, hst, ?_, ?_⟩
  · rw [hp]
    decide!
  · rw [he]
    decide!

/-! ## The percent of a stored snapshot is a number -/

/-- A patch whose percent, if it has one, is a number keeps every stored percent
a number. -/
theorem numericPercent_setProgress (reg : ProgressStates) (h : NumericPercent reg)
    (id : String) (p : Obj) (now : Int) (hp : Obj.WF p)
    (hnum : ∀ v, Assoc.get "percent" p = some v → ∃ q : ℚ, v = JSVal.num q) :
    NumericPercent (setProgress id p now reg) := by
  intro id2 s hs
  by_cases hid : id = ""
  · simp only [setProgress, hid, if_true] at hs
    exact h id2 s hs
  · by_cases h2 : id2 = id
    · subst h2
      rw [get_setProgress_same id2 p now reg hid] at hs
      cases hs
      rw [Obj.prop, Obj.get_spread _ _ hp]
      cases hv : Assoc.get "percent" p with
      | some v =>
        obtain ⟨q, hq⟩ := hnum v hv
        exact ⟨q, by simp [hq]⟩
      | none =>
        cases hprev : Assoc.get id2 reg with
        | none => exact ⟨0, by simp [startingSnapshot, Assoc.get]⟩
        | some prev =>
          obtain ⟨q, hq⟩ := h id2 prev hprev
          exact ⟨q, by simpa [Obj.prop] using hq⟩
    · rw [get_setProgress_other id id2 p now reg (fun e => h2 e.symm)] at hs
      exact h id2 s hs

/-- The writers of the registry (`initProgress`, the two progress listeners and
`finishProgress`) keep every stored percent a number; the empty registry of a
fresh process has the property. -/
theorem numericPercent_writers (reg : ProgressStates) (h : NumericPercent reg) :
    NumericPercent [] ∧
    (∀ id now, NumericPercent (initProgress id now reg)) ∧
    (∀ id startedAt ev, NumericPercent (onProgress id startedAt ev reg)) ∧
    (∀ id text now, NumericPercent (onStderrData id text now reg)) ∧
    (∀ id ok details now, NumericPercent (finishProgress id ok details now reg)) := by
  refine ⟨?_, ?_, ?_, ?_, ?_⟩
  · intro id s hs
    simp [Assoc.get] at hs
  · intro id now id2 s hs
    by_cases hid : id = ""
    · simp only [initProgress, hid, if_true] at hs
      exact h id2 s hs
    · by_cases h2 : id2 = id
      · subst h2
        have hget : Assoc.get id2 (initProgress id2 now reg) = some (startingSnapshot now) := by
          simp [initProgress, hid, Assoc.get_set_same]
        rw [hget] at hs
        cases hs
        exact ⟨0, by simp [startingSnapshot, Obj.prop, Assoc.get]⟩
      · rw [get_initProgress_other id id2 now reg (fun e => h2 e.symm)] at hs
        exact h id2 s hs
  · intro id startedAt ev
    exact numericPercent_setProgress reg h id _ ev.now (by simp [Obj.WF, Assoc.keys])
      (fun v hv => by
        simp only [Assoc.get, String.reduceEq, if_false, if_true] at hv
        exact ⟨_, (Option.some.inj hv).symm⟩)
  · intro id text now
    unfold onStderrData
    split
    · split
      · exact numericPercent_setProgress reg h id _ now (by simp [Obj.WF, Assoc.keys])
          (fun v hv => by
            simp only [Assoc.get, String.reduceEq, if_false, if_true] at hv
            exact ⟨_, (Option.some.inj hv).symm⟩)
      · exact h
    · split
      · exact numericPercent_setProgress reg h id _ now (by simp [Obj.WF, Assoc.keys])
          (fun v hv => by simp [Assoc.get] at hv)
      · exact h
  · intro id ok details now
    unfold finishProgress
    split
    · exact h
    · refine numericPercent_setProgress reg h id _ now (finishMutation_WF id ok details now reg)
        (fun v hv => ?_)
      rw [get_finishMutation_percent] at hv
      have hv2 := (Option.some.inj hv).symm
      cases ok with
      | true => exact ⟨100, by simpa using hv2⟩
      | false =>
        simp only [Bool.false_eq_true, if_false] at hv2
        cases hprev : Assoc.get id reg with
        | none =>
          exact ⟨0, by simpa [storedPercent, hprev, JSVal.or, JSVal.truthy] using hv2⟩
        | some prev =>
          obtain ⟨q, hq⟩ := h id prev hprev
          have hsp : storedPercent id reg = JSVal.num q := by simp [storedPercent, hprev, hq]
          rw [hsp] at hv2
          by_cases hz : q = 0
          · exact ⟨0, by simpa [JSVal.or, JSVal.truthy, hz] using hv2⟩
          · exact ⟨q, by simpa [JSVal.or, JSVal.truthy, hz] using hv2⟩

end YtVideo
